import Mathlib

/-!
# go-pantheon: resource lists (`pkg/pantheon/org.go`, `pkg/pantheon/site.go`)

A shallow embedding of the four resource lists (`OrgList`, `OrgSiteList`,
`SiteList`, `SiteDomainList`) with their three operations `Path`, `JSON` and
`Unmarshal`, and theorems about them.

The three operations are one-line calls into the Go standard library
(`fmt.Sprintf`, `log.Fatalf`, `json.Marshal`, `json.Unmarshal`), so the
embedding contains a model of what those calls do on the types of this
package:

* a JSON text is represented by the document it denotes (`JValue`); a text
  that is not valid JSON is `Payload.invalid`;
* a struct declaration is a table of its tagged fields (`Field`), read by one
  decoder (`decodeStruct`) and one encoder (`encodeStruct`);
* `json.Unmarshal` decodes *into* the existing Go value: struct fields whose
  key is absent keep their value, `null` leaves scalars and structs alone and
  sets a slice to nil, a slice element is decoded into the element already
  stored at that index of the backing array;
* a type mismatch is remembered (first one wins) and decoding goes on, an
  error returned by a custom `UnmarshalJSON` stops decoding at once;
* `json.Marshal` of a nil slice is `null`, of a non-nil slice an array;
* float64 values occur only inside `user_uuid` (an `interface{}`); their type
  and the two conversions between literals and float64 are parameters
  (`F`, `pf`, `ff`) of everything that touches a site.

Two declarations of the package are not in the two files: the interface
`AuthSession` and the type `jsonInt64` with its codec. Both are modelled from
the specification and marked so.

Go strings are Lean strings (sequences of Unicode scalar values); byte
sequences that are not valid UTF-8 are outside the model.

The definitions come first, then general lemmas on the decoder and encoder,
then the theorems on the operations.
-/

namespace Pantheon

/-! ## JSON documents -/

/-- A JSON number literal `-?int(.frac)?(e±exp)?`, kept as written because Go
parses the literal text again for each destination type. -/
structure JNum where
  neg : Bool
  int : Nat
  frac : Option String
  exp : Option String
deriving DecidableEq, Repr

/-- The literal of a non-negative integer written with digits only. -/
def JNum.ofNat (n : Nat) : JNum := { neg := false, int := n, frac := none, exp := none }

/-- The literal of an integer written with an optional minus sign and digits. -/
def JNum.ofInt (n : Int) : JNum :=
  { neg := decide (n < 0), int := n.natAbs, frac := none, exp := none }

/-- A JSON document. Object members are kept in text order, duplicates included. -/
inductive JValue where
  | null
  | bool (b : Bool)
  | num (n : JNum)
  | str (s : String)
  | arr (xs : List JValue)
  | obj (kvs : List (String × JValue))
deriving Repr

/-- The bytes handed to `Unmarshal`: not valid JSON, or the text of a document. -/
inductive Payload where
  | invalid
  | valid (v : JValue)

/-- The errors of `encoding/json` (offsets and field context are not modelled)
and the error of the flexible-integer codec. -/
inductive JSONError where
  | SyntaxError
  | UnmarshalTypeError (value : String) (lit : Option JNum) (goType : String)
  | MalformedNumericField (raw : JValue)
  | UnsupportedValueError

/-- How a decoding step ended: `saved e` is `d.saveError(e)` (decoding goes on,
the first saved error is what `Unmarshal` returns at the end), `abort e` is an
error returned up the call chain (decoding stops). -/
inductive DecStatus where
  | ok
  | saved (e : JSONError)
  | abort (e : JSONError)

/-- The status of two steps run one after the other (the second one runs only
when the first did not abort). -/
def DecStatus.andThen : DecStatus → DecStatus → DecStatus
  | .ok, s => s
  | .saved _, .abort e2 => .abort e2
  | .saved e, _ => .saved e
  | .abort e, _ => .abort e

/-- The `error` value `json.Unmarshal` returns for a final status. -/
def DecStatus.err : DecStatus → Option JSONError
  | .ok => none
  | .saved e => some e
  | .abort e => some e

/-- The word `encoding/json` uses for the kind of a value in a type error. -/
def JValue.kindName : JValue → String
  | .null => "null"
  | .bool _ => "bool"
  | .num _ => "number"
  | .str _ => "string"
  | .arr _ => "array"
  | .obj _ => "object"

mutual
/-- Equality of JSON documents as data: scalars are equal, arrays hold the same
documents entry by entry, objects have the same keys, each once, with the same
document under each key, whatever the order of the members. An object with a
repeated key has no agreed meaning (RFC 8259, section 4); it is the same as no
document, not even itself. -/
def JValue.sameAs : JValue → JValue → Bool
  | .null, w => match w with | .null => true | _ => false
  | .bool a, w => match w with | .bool b => a == b | _ => false
  | .num a, w => match w with | .num b => decide (a = b) | _ => false
  | .str a, w => match w with | .str b => a == b | _ => false
  | .arr xs, w => match w with | .arr ys => sameList xs ys | _ => false
  | .obj kvs, w =>
    match w with
    | .obj kvs2 =>
      decide (kvs.map (·.1)).Nodup && decide (kvs2.map (·.1)).Nodup
      && kvs.length == kvs2.length && sameMembers kvs kvs2
    | _ => false
/-- Two arrays hold the same documents in the same order. -/
def sameList : List JValue → List JValue → Bool
  | [], ys => ys.isEmpty
  | x :: xs, ys => match ys with | y :: ys => x.sameAs y && sameList xs ys | [] => false
/-- Every member of the first object has a member of the second with the same
key and the same value. -/
def sameMembers : List (String × JValue) → List (String × JValue) → Bool
  | [], _ => true
  | (k, v) :: r, kvs2 =>
    (match kvs2.lookup k with
     | some v2 => v.sameAs v2
     | none => false) && sameMembers r kvs2
end

/-- A decoder stores a document into an existing Go value. -/
abbrev Dec (α : Type) := JValue → α → α × DecStatus

/-- A Go type as `encoding/json` handles it: how a document is decoded into a
value of the type and how a value is encoded. The last two components are not
read by any operation; they describe documents by their JSON kinds alone.
`shape` names the documents that are well-formed for the type, `shape false`
with the right JSON kinds (object keys optional, none twice, a key that is not
a field name selecting no field), `shape true` moreover with every key a field
name, every field present and every value written the way `json.Marshal`
writes it. `accepts` names the documents of a JSON kind the type takes, `null`
and repeated or differently cased keys included. -/
structure GoType (β : Type) where
  dec : Dec β
  enc : β → Except JSONError JValue
  shape : Bool → JValue → Bool
  accepts : JValue → Bool

/-! ## Scalars (`literalStore`) -/

/-- Decode into a Go `string`. -/
def decString : Dec String
  | .str s, _ => (s, .ok)
  | .null, cur => (cur, .ok)
  | v, cur => (cur, .saved (.UnmarshalTypeError v.kindName none "string"))

/-- Decode into a Go `bool`. -/
def decBool : Dec Bool
  | .bool b, _ => (b, .ok)
  | .null, cur => (cur, .ok)
  | v, cur => (cur, .saved (.UnmarshalTypeError v.kindName none "bool"))

/-- The result of `strconv.ParseUint(lit, 10, 64)` followed by the overflow check
for an unsigned type of `bits` bits: the literal must be digits only. -/
def parseUint (bits : Nat) (n : JNum) : Option Nat :=
  if n.neg = false ∧ n.frac = none ∧ n.exp = none ∧ n.int < 2 ^ bits then some n.int else none

/-- Decode into a Go `uint32` / `uint64`. -/
def decUint (bits : Nat) (goType : String) : Dec Nat
  | .num n, cur =>
    match parseUint bits n with
    | some x => (x, .ok)
    | none => (cur, .saved (.UnmarshalTypeError "number" (some n) goType))
  | .null, cur => (cur, .ok)
  | v, cur => (cur, .saved (.UnmarshalTypeError v.kindName none goType))

/-- Whether a document is `null`. -/
def JValue.isNull : JValue → Bool
  | .null => true
  | _ => false

/-- Whether a document is a JSON object. -/
def JValue.isObj : JValue → Bool
  | .obj _ => true
  | _ => false

/-- Whether a document is a JSON string. -/
def JValue.isStr : JValue → Bool
  | .str _ => true
  | _ => false

/-- Whether a document is a JSON boolean. -/
def JValue.isBool : JValue → Bool
  | .bool _ => true
  | _ => false

/-- Whether a document is a JSON number written with digits only and below
`2 ^ bits`. -/
def JValue.isUint (bits : Nat) : JValue → Bool
  | .num n => (parseUint bits n).isSome
  | _ => false

/-- The Go type `string`: a JSON string, or `null`. -/
def goString : GoType String :=
  { dec := decString, enc := fun s => .ok (.str s), shape := fun _ v => v.isStr,
    accepts := fun v => v.isStr || v.isNull }

/-- The Go type `bool`: a JSON boolean, or `null`. -/
def goBool : GoType Bool :=
  { dec := decBool, enc := fun b => .ok (.bool b), shape := fun _ v => v.isBool,
    accepts := fun v => v.isBool || v.isNull }

/-- The Go types `uint32` (`bits = 32`) and `uint64` (`bits = 64`): a JSON
number written with digits only that fits, or `null`. -/
def goUint (bits : Nat) (goType : String) : GoType Nat :=
  { dec := decUint bits goType, enc := fun n => .ok (.num (JNum.ofNat n)),
    shape := fun _ v => v.isUint bits,
    accepts := fun v => v.isUint bits || v.isNull }

/-! ## Structs (`decodeState.object`, `structEncoder`) -/

/-- One exported, tagged struct field: its JSON name, how a value is decoded
into that field of the struct, how the field of a struct is encoded, and the
documents that are well-formed for it and that it takes (see `GoType`). -/
structure Field (α : Type) where
  name : String
  dec : Dec α
  enc : α → Except JSONError JValue
  shape : Bool → JValue → Bool
  accepts : JValue → Bool

/-- The table entry of a field, from its JSON name, its getter, its setter and
its Go type. -/
def Field.of {α β : Type} (name : String) (get : α → β) (set : α → β → α) (ty : GoType β) :
    Field α :=
  { name := name,
    dec := fun v cur => (set cur (ty.dec v (get cur)).1, (ty.dec v (get cur)).2),
    enc := fun cur => ty.enc (get cur),
    shape := ty.shape,
    accepts := ty.accepts }

/-- Case folding of one rune of a key. Only the runes whose fold class holds an
ASCII letter matter for the ASCII field names of this package: the letters
themselves, the Kelvin sign (K) and the long s (S). -/
def foldRune (c : Char) : Char :=
  if 'a' ≤ c ∧ c ≤ 'z' then Char.ofNat (c.toNat - 32)
  else if c = Char.ofNat 0x212A then 'K'
  else if c = Char.ofNat 0x17F then 'S'
  else c

/-- The folded form of a key (`foldName`). -/
def foldName (s : String) : List Char := s.toList.map foldRune

/-- The field a key selects: the field with exactly that name, else the first
field whose folded name equals the folded key, else none. -/
def findField {α : Type} (fields : List (Field α)) (key : String) : Option (Field α) :=
  match fields.find? (fun f => f.name == key) with
  | some f => some f
  | none => fields.find? (fun f => foldName f.name == foldName key)

/-- The member loop of `decodeState.object` for a struct: members are handled
in text order, a member whose key selects no field is skipped, an abort ends
the loop. -/
def decodeFields {α : Type} (fields : List (Field α)) : List (String × JValue) → α → α × DecStatus
  | [], cur => (cur, .ok)
  | (k, v) :: rest, cur =>
    match findField fields k with
    | none => decodeFields fields rest cur
    | some f =>
      match (f.dec v cur).2 with
      | .abort e => ((f.dec v cur).1, .abort e)
      | st =>
        ((decodeFields fields rest (f.dec v cur).1).1,
         st.andThen (decodeFields fields rest (f.dec v cur).1).2)

/-- Decode into a Go struct with the given fields. -/
def decodeStruct {α : Type} (goType : String) (fields : List (Field α)) : Dec α
  | .obj kvs, cur => decodeFields fields kvs cur
  | .null, cur => (cur, .ok)
  | v, cur => (cur, .saved (.UnmarshalTypeError v.kindName none goType))

/-- Collect the encoded members of an object in order; the first error ends it. -/
def encodeMembers : List (String × Except JSONError JValue) →
    Except JSONError (List (String × JValue))
  | [] => .ok []
  | (k, r) :: rest =>
    match r with
    | .error e => .error e
    | .ok v =>
      match encodeMembers rest with
      | .error e => .error e
      | .ok ms => .ok ((k, v) :: ms)

/-- Encode a Go struct: one member per field, in declaration order. -/
def encodeStruct {α : Type} (fields : List (Field α)) (a : α) : Except JSONError JValue :=
  match encodeMembers (fields.map (fun f => (f.name, f.enc a))) with
  | .error e => .error e
  | .ok ms => .ok (.obj ms)

/-- The well-formed documents of a struct: an object with distinct keys, each
the exact name of a field with a value well-formed for that field, or a key
that selects no field at all (such a member is skipped); with `exact`, every
key is the name of a field and every field has its member. -/
def objectShape {α : Type} (fields : List (Field α)) (exact : Bool) : JValue → Bool
  | .obj kvs =>
    decide (kvs.map (·.1)).Nodup
    && kvs.all (fun kv =>
        match fields.find? (fun f => f.name == kv.1) with
        | some f => f.shape exact kv.2
        | none => !exact && (findField fields kv.1).isNone)
    && (!exact || fields.all (fun f => kvs.any (fun kv => kv.1 == f.name)))
  | _ => false

/-- The documents of a JSON kind a struct takes: `null`, or an object each of
whose members either has a key that selects no field, or has a value of a kind
the selected field takes. -/
def objectAccepts {α : Type} (fields : List (Field α)) : JValue → Bool
  | .obj kvs =>
    kvs.all (fun kv =>
      match findField fields kv.1 with
      | some f => f.accepts kv.2
      | none => true)
  | .null => true
  | _ => false

/-- A Go struct type with the given fields. -/
def goStruct {α : Type} (goType : String) (fields : List (Field α)) : GoType α :=
  { dec := decodeStruct goType fields, enc := encodeStruct fields,
    shape := objectShape fields, accepts := objectAccepts fields }

/-! ## Slices (`decodeState.array`, `json.Marshal` of a slice) -/

/-- A Go slice: nil, or a window `elems` on a backing array. `spare` holds what
the backing array still stores behind the window (between `len` and `cap`);
behind `spare` the array is zero, as is memory a growth adds. -/
inductive GoSlice (α : Type) where
  | nil
  | mk (elems : List α) (spare : List α)
deriving DecidableEq, Repr

/-- The elements of a slice (`len` of them). -/
def GoSlice.toList {α : Type} : GoSlice α → List α
  | .nil => []
  | .mk elems _ => elems

/-- The backing array from index 0 on, as far as it holds non-zero entries. -/
def GoSlice.backing {α : Type} : GoSlice α → List α
  | .nil => []
  | .mk elems spare => elems ++ spare

/-- Whether the slice is nil. -/
def GoSlice.isNil {α : Type} : GoSlice α → Bool
  | .nil => true
  | .mk _ _ => false

/-- The literal `make([]T, 0)`. -/
def GoSlice.empty {α : Type} : GoSlice α := .mk [] []

/-- The element loop of `decodeState.array`: the i-th array entry is decoded
into the i-th entry of the backing array (zero when the array had to grow).
Returns the decoded entries, the untouched rest of the backing array and the
status. -/
def decodeElems {α : Type} (dec : Dec α) (zero : α) :
    List JValue → List α → List α × List α × DecStatus
  | [], backing => ([], backing, .ok)
  | x :: xs, backing =>
    match (dec x (backing.headD zero)).2 with
    | .abort e => ([(dec x (backing.headD zero)).1], backing.tail, .abort e)
    | st =>
      ((dec x (backing.headD zero)).1 :: (decodeElems dec zero xs backing.tail).1,
       (decodeElems dec zero xs backing.tail).2.1,
       st.andThen (decodeElems dec zero xs backing.tail).2.2)

/-- Decode into a Go slice of `α`. An empty array gives a fresh empty slice,
`null` the nil slice; after an abort the length was only ever raised, so old
entries behind the last decoded one stay. -/
def decodeSlice {α : Type} (goType : String) (dec : Dec α) (zero : α) :
    JValue → GoSlice α → GoSlice α × DecStatus
  | .arr [], _ => (.mk [] [], .ok)
  | .arr xs, cur =>
    match decodeElems dec zero xs cur.backing with
    | (done, rest, .abort e) =>
      (.mk (done ++ rest.take (cur.toList.length - done.length))
           (rest.drop (cur.toList.length - done.length)), .abort e)
    | (done, rest, st) => (.mk done rest, st)
  | .null, _ => (.nil, .ok)
  | v, cur => (cur, .saved (.UnmarshalTypeError v.kindName none goType))

/-- The call `json.Unmarshal(data, &slice)`. -/
def unmarshalSlice {α : Type} (goType : String) (dec : Dec α) (zero : α) :
    Payload → GoSlice α → GoSlice α × Option JSONError
  | .invalid, cur => (cur, some .SyntaxError)
  | .valid v, cur =>
    ((decodeSlice goType dec zero v cur).1, (decodeSlice goType dec zero v cur).2.err)

/-- The element loop of `json.Marshal` on a slice: entries in order, the first
error ends it. -/
def encodeElems {α : Type} (enc : α → Except JSONError JValue) :
    List α → Except JSONError (List JValue)
  | [] => .ok []
  | a :: rest =>
    match enc a with
    | .error e => .error e
    | .ok v =>
      match encodeElems enc rest with
      | .error e => .error e
      | .ok vs => .ok (v :: vs)

/-- The call `json.Marshal(slice)`: `null` for a nil slice, else the array of
the encoded elements. -/
def marshalSlice {α : Type} (enc : α → Except JSONError JValue) :
    GoSlice α → Except JSONError JValue
  | .nil => .ok .null
  | .mk elems _ =>
    match encodeElems enc elems with
    | .error e => .error e
    | .ok vs => .ok (.arr vs)

/-! ## Values of type `interface{}` -/

/-- What `encoding/json` stores in an `interface{}`: nil, bool, float64, string,
`[]interface{}` or `map[string]interface{}` (kept sorted by key, one entry per
key). `F` is the type of float64 values. -/
inductive GoAny (F : Type) where
  | nil
  | bool (b : Bool)
  | float64 (x : F)
  | string (s : String)
  | slice (xs : List (GoAny F))
  | map (kvs : List (String × GoAny F))
deriving Repr

/-- The assignment `m[k] = v` on a map kept as a list sorted by key. -/
def mapInsert {β : Type} (k : String) (v : β) : List (String × β) → List (String × β)
  | [] => [(k, v)]
  | (k1, v1) :: r =>
    if k.toList < k1.toList then (k, v) :: (k1, v1) :: r
    else if k = k1 then (k, v) :: r
    else (k1, v1) :: mapInsert k v r

mutual
/-- The value `valueInterface` builds for a document; `pf` is
`strconv.ParseFloat(lit, 64)`, whose failure is a saved type error. -/
def decAnyValue {F : Type} (pf : JNum → Option F) : JValue → GoAny F × DecStatus
  | .null => (.nil, .ok)
  | .bool b => (.bool b, .ok)
  | .num n =>
    match pf n with
    | some x => (.float64 x, .ok)
    | none => (.nil, .saved (.UnmarshalTypeError "number" (some n) "float64"))
  | .str s => (.string s, .ok)
  | .arr xs => ((decAnyList pf xs).1 |> .slice, (decAnyList pf xs).2)
  | .obj kvs => ((decAnyMembers pf kvs).1 |> .map, (decAnyMembers pf kvs).2)
/-- The entries `arrayInterface` builds. -/
def decAnyList {F : Type} (pf : JNum → Option F) : List JValue → List (GoAny F) × DecStatus
  | [] => ([], .ok)
  | x :: xs =>
    ((decAnyValue pf x).1 :: (decAnyList pf xs).1,
     (decAnyValue pf x).2.andThen (decAnyList pf xs).2)
/-- The map `objectInterface` builds; a later member replaces an earlier one
with the same key. -/
def decAnyMembers {F : Type} (pf : JNum → Option F) :
    List (String × JValue) → List (String × GoAny F) × DecStatus
  | [] => ([], .ok)
  | (k, v) :: kvs =>
    ((decAnyMembers pf kvs).1 |> fun m => if m.any (fun kv => kv.1 == k) then m
        else mapInsert k (decAnyValue pf v).1 m,
     (decAnyValue pf v).2.andThen (decAnyMembers pf kvs).2)
end

/-- Decode into a field of type `interface{}` holding no pointer
(`literalStore`, `array`, `object` on an interface): the old content is
replaced, except by a number without float64 value, which is a saved type
error and leaves the field alone. -/
def decAny {F : Type} (pf : JNum → Option F) : Dec (GoAny F)
  | .num n, cur =>
    match pf n with
    | some x => (.float64 x, .ok)
    | none => (cur, .saved (.UnmarshalTypeError "number" (some n) "float64"))
  | v, _ => decAnyValue pf v

mutual
/-- Whether every number literal inside a document has a float64 value. -/
def numbersFit {F : Type} (pf : JNum → Option F) : JValue → Bool
  | .num n => (pf n).isSome
  | .arr xs => numbersFitList pf xs
  | .obj kvs => numbersFitMembers pf kvs
  | _ => true
/-- The entries of an array all satisfy `numbersFit`. -/
def numbersFitList {F : Type} (pf : JNum → Option F) : List JValue → Bool
  | [] => true
  | x :: xs => numbersFit pf x && numbersFitList pf xs
/-- The member values of an object all satisfy `numbersFit`. -/
def numbersFitMembers {F : Type} (pf : JNum → Option F) : List (String × JValue) → Bool
  | [] => true
  | (_, v) :: r => numbersFit pf v && numbersFitMembers pf r
end

mutual
/-- The documents that come back unchanged from an `interface{}`: every number
has a float64 value that is written back with the same literal, and the keys
of every object are distinct. -/
def comesBack {F : Type} (pf : JNum → Option F) (ff : F → Option JNum) : JValue → Bool
  | .num n =>
    match pf n with
    | some x => decide (ff x = some n)
    | none => false
  | .arr xs => comesBackList pf ff xs
  | .obj kvs => decide (kvs.map (·.1)).Nodup && comesBackMembers pf ff kvs
  | _ => true
/-- The entries of an array all satisfy `comesBack`. -/
def comesBackList {F : Type} (pf : JNum → Option F) (ff : F → Option JNum) :
    List JValue → Bool
  | [] => true
  | x :: xs => comesBack pf ff x && comesBackList pf ff xs
/-- The member values of an object all satisfy `comesBack`. -/
def comesBackMembers {F : Type} (pf : JNum → Option F) (ff : F → Option JNum) :
    List (String × JValue) → Bool
  | [] => true
  | (_, v) :: r => comesBack pf ff v && comesBackMembers pf ff r
end

mutual
/-- The document `json.Marshal` writes for an `interface{}` value; `ff` gives
the literal of a float64 and has none for NaN and the infinities. -/
def encAny {F : Type} (ff : F → Option JNum) : GoAny F → Except JSONError JValue
  | .nil => .ok .null
  | .bool b => .ok (.bool b)
  | .float64 x =>
    match ff x with
    | some n => .ok (.num n)
    | none => .error .UnsupportedValueError
  | .string s => .ok (.str s)
  | .slice xs =>
    match encAnyList ff xs with
    | .ok vs => .ok (.arr vs)
    | .error e => .error e
  | .map kvs =>
    match encAnyMembers ff kvs with
    | .ok ms => .ok (.obj ms)
    | .error e => .error e
/-- The entries written for a `[]interface{}`. -/
def encAnyList {F : Type} (ff : F → Option JNum) : List (GoAny F) → Except JSONError (List JValue)
  | [] => .ok []
  | x :: xs =>
    match encAny ff x with
    | .error e => .error e
    | .ok v =>
      match encAnyList ff xs with
      | .error e => .error e
      | .ok vs => .ok (v :: vs)
/-- The members written for a `map[string]interface{}`, in key order. -/
def encAnyMembers {F : Type} (ff : F → Option JNum) :
    List (String × GoAny F) → Except JSONError (List (String × JValue))
  | [] => .ok []
  | (k, x) :: kvs =>
    match encAny ff x with
    | .error e => .error e
    | .ok v =>
      match encAnyMembers ff kvs with
      | .error e => .error e
      | .ok ms => .ok ((k, v) :: ms)
end

/-- The Go type `interface{}` of a field that holds no pointer. Any document is
well-formed for it, and taken by it, as long as its numbers have a float64
value. -/
def goAny {F : Type} (pf : JNum → Option F) (ff : F → Option JNum) : GoType (GoAny F) :=
  { dec := decAny pf, enc := encAny ff,
    shape := fun exact v => if exact then comesBack pf ff v else numbersFit pf v,
    accepts := numbersFit pf }

/-! ## The flexible integer `jsonInt64` -/

/-- The value of a decimal digit. -/
def digitVal (c : Char) : Option Nat :=
  if '0' ≤ c ∧ c ≤ '9' then some (c.toNat - 48) else none

/-- Read a run of decimal digits after the value `acc`; none when a character is
not a digit. -/
def parseDigits : List Char → Nat → Option Nat
  | [], acc => some acc
  | c :: cs, acc =>
    match digitVal c with
    | some d => parseDigits cs (acc * 10 + d)
    | none => none

/-- Read a non-empty run of decimal digits. -/
def parseDecimal (cs : List Char) : Option Nat :=
  match cs with
  | [] => none
  | _ => parseDigits cs 0

/-- Pick off a leading sign: whether it is a minus, and the rest. -/
def signOf : List Char → Bool × List Char
  | '-' :: ds => (true, ds)
  | '+' :: ds => (false, ds)
  | ds => (false, ds)

/-- Read an optionally signed run of decimal digits as a 64-bit integer
(`strconv.ParseInt(s, 10, 64)`). -/
def parseInt64 (s : String) : Option Int :=
  match parseDecimal (signOf s.toList).2 with
  | some n =>
    if (signOf s.toList).1 then (if n ≤ 2 ^ 63 then some (-(n : Int)) else none)
    else (if n < 2 ^ 63 then some (n : Int) else none)
  | none => none

/-- The 64-bit integer a number literal denotes, when it is written as an
integer and fits. -/
def parseInt64Lit (n : JNum) : Option Int :=
  if n.frac = none ∧ n.exp = none then
    if n.neg then (if n.int ≤ 2 ^ 63 then some (-(n.int : Int)) else none)
    else (if n.int < 2 ^ 63 then some (n.int : Int) else none)
  else none

/-- Modelled from the spec: the type `jsonInt64` (declared in a file of the
package that is not part of the sources at hand) is a 64-bit integer. -/
abbrev jsonInt64 := Int

/-- Modelled from the spec: the decoder of `jsonInt64`, which is not part of the
sources at hand. Spec 4.1: first try the bytes as a JSON number and store that
integer; failing that try them as a JSON string whose contents are optionally
signed digits and store that integer; otherwise fail with
`MalformedNumericField`. The empty string and `null` are failures. -/
def jsonInt64.UnmarshalJSON (raw : JValue) : Except JSONError jsonInt64 :=
  match raw with
  | .num n =>
    match parseInt64Lit n with
    | some x => .ok x
    | none => .error (.MalformedNumericField raw)
  | .str s =>
    match parseInt64 s with
    | some x => .ok x
    | none => .error (.MalformedNumericField raw)
  | _ => .error (.MalformedNumericField raw)

/-- Modelled from the spec: the encoder of `jsonInt64`, which is not part of the
sources at hand. Spec 4.1: the stored value is always written as a bare JSON
number. -/
def jsonInt64.MarshalJSON (x : jsonInt64) : JValue := .num (JNum.ofInt x)

/-- Decode into a field of type `jsonInt64`: `encoding/json` hands the raw value
(`null` included) to `UnmarshalJSON` and returns its error at once. -/
def decJsonInt64 : Dec jsonInt64 :=
  fun v cur =>
    match jsonInt64.UnmarshalJSON v with
    | .ok x => (x, .ok)
    | .error e => (cur, .abort e)

/-- Whether a string is an optionally signed, non-empty run of decimal digits. -/
def isSignedDigits (s : String) : Bool :=
  !(signOf s.toList).2.isEmpty && (signOf s.toList).2.all (fun c => (digitVal c).isSome)

/-- The decimal digits of an integer, with a minus sign when it is negative. -/
def decimalString (n : Int) : String :=
  if n < 0 then "-" ++ Nat.repr n.natAbs else Nat.repr n.natAbs

/-- The Go type `jsonInt64`. Well-formed are a bare integer literal and a string
of optionally signed digits, within 64 bits, and nothing else is taken (`null`
neither); the written form is the bare literal (sign, digits, no negative
zero). -/
def goJsonInt64 : GoType jsonInt64 :=
  { dec := decJsonInt64, enc := fun x => .ok (jsonInt64.MarshalJSON x),
    shape := fun exact v =>
      match v with
      | .num n =>
        (parseInt64Lit n).isSome && (!exact || !(n.neg && n.int == 0))
      | .str s => !exact && (parseInt64 s).isSome
      | _ => false,
    accepts := fun v =>
      match v with
      | .num n => (parseInt64Lit n).isSome
      | .str s => (parseInt64 s).isSome
      | _ => false }

/-! ## `org.go`: organizations -/

/-- The anonymous struct of `Org.Organization.Profile`. -/
structure OrgProfile where
  MachineName : String
  ChangeServiceURL : String
  Name : String
  EmailDomain : String
  OrgLogoWidth : Nat
  OrgLogoHeight : Nat
  BaseDomain : String
  BillingURL : String
  TermsOfService : String
  OrgLogo : String
deriving DecidableEq, Repr

/-- The anonymous struct of `Org.Organization`. -/
structure OrgOrganization where
  Profile : OrgProfile
  ID : String
deriving DecidableEq, Repr

/-- Org is a representation of a Pantheon organization. -/
structure Org where
  Archived : Bool
  ID : String
  Key : String
  Role : String
  Organization : OrgOrganization
  SiteID : String
  UserID : String
deriving DecidableEq, Repr

/-- The zero value of the profile struct. -/
def OrgProfile.zero : OrgProfile :=
  { MachineName := "", ChangeServiceURL := "", Name := "", EmailDomain := "",
    OrgLogoWidth := 0, OrgLogoHeight := 0, BaseDomain := "", BillingURL := "",
    TermsOfService := "", OrgLogo := "" }

/-- The zero value of the organization struct. -/
def OrgOrganization.zero : OrgOrganization := { Profile := OrgProfile.zero, ID := "" }

/-- The zero value of `Org`. -/
def Org.zero : Org :=
  { Archived := false, ID := "", Key := "", Role := "", Organization := OrgOrganization.zero,
    SiteID := "", UserID := "" }

/-- The tagged fields of the profile struct, in declaration order. -/
def OrgProfile.fields : List (Field OrgProfile) :=
  [ Field.of "machine_name" (·.MachineName) (fun p x => { p with MachineName := x }) goString,
    Field.of "change_service_url" (·.ChangeServiceURL)
      (fun p x => { p with ChangeServiceURL := x }) goString,
    Field.of "name" (·.Name) (fun p x => { p with Name := x }) goString,
    Field.of "email_domain" (·.EmailDomain) (fun p x => { p with EmailDomain := x }) goString,
    Field.of "org_logo_width" (·.OrgLogoWidth) (fun p x => { p with OrgLogoWidth := x })
      (goUint 32 "uint32"),
    Field.of "org_logo_height" (·.OrgLogoHeight) (fun p x => { p with OrgLogoHeight := x })
      (goUint 32 "uint32"),
    Field.of "base_domain" (·.BaseDomain) (fun p x => { p with BaseDomain := x }) goString,
    Field.of "billing_url" (·.BillingURL) (fun p x => { p with BillingURL := x }) goString,
    Field.of "terms_of_service" (·.TermsOfService)
      (fun p x => { p with TermsOfService := x }) goString,
    Field.of "org_logo" (·.OrgLogo) (fun p x => { p with OrgLogo := x }) goString ]

/-- The tagged fields of the organization struct. -/
def OrgOrganization.fields : List (Field OrgOrganization) :=
  [ Field.of "profile" (·.Profile) (fun o x => { o with Profile := x })
      (goStruct "struct" OrgProfile.fields),
    Field.of "id" (·.ID) (fun o x => { o with ID := x }) goString ]

/-- The tagged fields of `Org`. -/
def Org.fields : List (Field Org) :=
  [ Field.of "archived" (·.Archived) (fun o x => { o with Archived := x }) goBool,
    Field.of "id" (·.ID) (fun o x => { o with ID := x }) goString,
    Field.of "key" (·.Key) (fun o x => { o with Key := x }) goString,
    Field.of "role" (·.Role) (fun o x => { o with Role := x }) goString,
    Field.of "organization" (·.Organization) (fun o x => { o with Organization := x })
      (goStruct "struct" OrgOrganization.fields),
    Field.of "site_id" (·.SiteID) (fun o x => { o with SiteID := x }) goString,
    Field.of "user_id" (·.UserID) (fun o x => { o with UserID := x }) goString ]

/-- The Go type `Org`. -/
def goOrg : GoType Org := goStruct "pantheon.Org" Org.fields

/-- OrgList represents a grouping of Pantheon organizations. -/
structure OrgList where
  Orgs : GoSlice Org

/-- NewOrgList creates an OrgList: `&OrgList{}`, the slice is nil. -/
def NewOrgList : OrgList := { Orgs := .nil }

/-- JSON prepares the OrgList for HTTP transport: `json.Marshal(ol.Orgs)`. -/
def OrgList.JSON (ol : OrgList) : Except JSONError JValue :=
  marshalSlice goOrg.enc ol.Orgs

/-- Unmarshal converts a HTTP response into an OrgList:
`json.Unmarshal(data, &ol.Orgs)`. Returns the list afterwards and the error. -/
def OrgList.Unmarshal (ol : OrgList) (data : Payload) : OrgList × Option JSONError :=
  ({ ol with Orgs := (unmarshalSlice "[]pantheon.Org" goOrg.dec Org.zero data ol.Orgs).1 },
   (unmarshalSlice "[]pantheon.Org" goOrg.dec Org.zero data ol.Orgs).2)

/-! ## `site.go`: domains -/

/-- Domain is a representation of a domain for a deployed Pantheon site. -/
structure Domain where
  DNSZoneName : String
  DomainLookupRAX : Nat
  DomainLookupUSCL : Nat
  Environment : String
  SiteID : String
  Type_ : String
  ID : String
  Key : String
  Status : String
  StatusMessage : String
  Deleteable : Bool
deriving DecidableEq, Repr

/-- The zero value of `Domain`. -/
def Domain.zero : Domain :=
  { DNSZoneName := "", DomainLookupRAX := 0, DomainLookupUSCL := 0, Environment := "",
    SiteID := "", Type_ := "", ID := "", Key := "", Status := "", StatusMessage := "",
    Deleteable := false }

/-- The tagged fields of `Domain`, in declaration order. -/
def Domain.fields : List (Field Domain) :=
  [ Field.of "dns_zone_name" (·.DNSZoneName) (fun d x => { d with DNSZoneName := x }) goString,
    Field.of "domain_lookup_rax" (·.DomainLookupRAX)
      (fun d x => { d with DomainLookupRAX := x }) (goUint 64 "uint64"),
    Field.of "domain_lookup_usc1" (·.DomainLookupUSCL)
      (fun d x => { d with DomainLookupUSCL := x }) (goUint 64 "uint64"),
    Field.of "environment" (·.Environment) (fun d x => { d with Environment := x }) goString,
    Field.of "site_id" (·.SiteID) (fun d x => { d with SiteID := x }) goString,
    Field.of "type" (·.Type_) (fun d x => { d with Type_ := x }) goString,
    Field.of "id" (·.ID) (fun d x => { d with ID := x }) goString,
    Field.of "key" (·.Key) (fun d x => { d with Key := x }) goString,
    Field.of "status" (·.Status) (fun d x => { d with Status := x }) goString,
    Field.of "status_message" (·.StatusMessage)
      (fun d x => { d with StatusMessage := x }) goString,
    Field.of "deletable" (·.Deleteable) (fun d x => { d with Deleteable := x }) goBool ]

/-- The Go type `Domain`. -/
def goDomain : GoType Domain := goStruct "pantheon.Domain" Domain.fields

/-- SiteDomainList represents a grouping of domains for a deployed Pantheon site. -/
structure SiteDomainList where
  SiteID : String
  Environment : String
  Domains : GoSlice Domain

/-- NewSiteDomainList creates a SiteDomainList; the slice is `make([]Domain, 0)`. -/
def NewSiteDomainList (siteID : String) (env : String) : SiteDomainList :=
  { SiteID := siteID, Environment := env, Domains := GoSlice.empty }

/-- JSON prepares the list for HTTP transport: `json.Marshal(sdl.Domains)`. -/
def SiteDomainList.JSON (sdl : SiteDomainList) : Except JSONError JValue :=
  marshalSlice goDomain.enc sdl.Domains

/-- Unmarshal converts a HTTP response into a SiteDomainList:
`json.Unmarshal(data, &sdl.Domains)`. -/
def SiteDomainList.Unmarshal (sdl : SiteDomainList) (data : Payload) :
    SiteDomainList × Option JSONError :=
  ({ sdl with Domains :=
      (unmarshalSlice "[]pantheon.Domain" goDomain.dec Domain.zero data sdl.Domains).1 },
   (unmarshalSlice "[]pantheon.Domain" goDomain.dec Domain.zero data sdl.Domains).2)

/-! ## `site.go`, `org.go`: sites -/

/-- The anonymous struct of `Site.LastCodePush`. -/
structure LastCodePush (F : Type) where
  Timestamp : String
  UserUUID : GoAny F

/-- The anonymous struct of `Site.Product`. -/
structure Product where
  ID : String
  Longname : String
deriving DecidableEq, Repr

/-- The anonymous struct of `Site.Upstream`. -/
structure Upstream where
  Branch : String
  ProductID : String
  URL : String
deriving DecidableEq, Repr

/-- The anonymous struct of the field `Site` of both `Site` and `OrgSite` (the
two declarations are the same text). -/
structure SiteInfo (F : Type) where
  Created : jsonInt64
  CreatedByUserID : String
  Framework : String
  Frozen : Bool
  ID : String
  LastCodePush : LastCodePush F
  Name : String
  Owner : String
  PhpVersion : jsonInt64
  PreferredZone : String
  Product : Product
  ProductID : String
  ServiceLevel : String
  Upstream : Upstream

/-- Site is a representation of a deployed pantheon site. -/
structure Site (F : Type) where
  Archived : Bool
  ID : String
  Key : String
  Role : String
  Site : SiteInfo F
  SiteID : String
  UserID : String

/-- OrgSite is a representation of a deployed pantheon site for an organization. -/
structure OrgSite (F : Type) where
  Archived : Bool
  ID : String
  Key : String
  Role : String
  Site : SiteInfo F
  Organization : String
  SiteID : String

/-- The zero value of the last-code-push struct. -/
def LastCodePush.zero {F : Type} : LastCodePush F := { Timestamp := "", UserUUID := .nil }

/-- The zero value of the product struct. -/
def Product.zero : Product := { ID := "", Longname := "" }

/-- The zero value of the upstream struct. -/
def Upstream.zero : Upstream := { Branch := "", ProductID := "", URL := "" }

/-- The zero value of the site-details struct. -/
def SiteInfo.zero {F : Type} : SiteInfo F :=
  { Created := 0, CreatedByUserID := "", Framework := "", Frozen := false, ID := "",
    LastCodePush := LastCodePush.zero, Name := "", Owner := "", PhpVersion := 0,
    PreferredZone := "", Product := Product.zero, ProductID := "", ServiceLevel := "",
    Upstream := Upstream.zero }

/-- The zero value of `Site`. -/
def Site.zero {F : Type} : Pantheon.Site F :=
  { Archived := false, ID := "", Key := "", Role := "", Site := SiteInfo.zero, SiteID := "",
    UserID := "" }

/-- The zero value of `OrgSite`. -/
def OrgSite.zero {F : Type} : OrgSite F :=
  { Archived := false, ID := "", Key := "", Role := "", Site := SiteInfo.zero,
    Organization := "", SiteID := "" }

/-- The tagged fields of the last-code-push struct. -/
def LastCodePush.fields {F : Type} (pf : JNum → Option F) (ff : F → Option JNum) :
    List (Field (LastCodePush F)) :=
  [ Field.of "timestamp" (·.Timestamp) (fun p x => { p with Timestamp := x }) goString,
    Field.of "user_uuid" (·.UserUUID) (fun p x => { p with UserUUID := x }) (goAny pf ff) ]

/-- The tagged fields of the product struct. -/
def Product.fields : List (Field Product) :=
  [ Field.of "id" (·.ID) (fun p x => { p with ID := x }) goString,
    Field.of "longname" (·.Longname) (fun p x => { p with Longname := x }) goString ]

/-- The tagged fields of the upstream struct. -/
def Upstream.fields : List (Field Upstream) :=
  [ Field.of "branch" (·.Branch) (fun p x => { p with Branch := x }) goString,
    Field.of "product_id" (·.ProductID) (fun p x => { p with ProductID := x }) goString,
    Field.of "url" (·.URL) (fun p x => { p with URL := x }) goString ]

/-- The tagged fields of the site-details struct, in declaration order. -/
def SiteInfo.fields {F : Type} (pf : JNum → Option F) (ff : F → Option JNum) :
    List (Field (SiteInfo F)) :=
  [ Field.of "created" (·.Created) (fun p x => { p with Created := x }) goJsonInt64,
    Field.of "created_by_user_id" (·.CreatedByUserID)
      (fun p x => { p with CreatedByUserID := x }) goString,
    Field.of "framework" (·.Framework) (fun p x => { p with Framework := x }) goString,
    Field.of "frozen" (·.Frozen) (fun p x => { p with Frozen := x }) goBool,
    Field.of "id" (·.ID) (fun p x => { p with ID := x }) goString,
    Field.of "last_code_push" (·.LastCodePush) (fun p x => { p with LastCodePush := x })
      (goStruct "struct" (LastCodePush.fields pf ff)),
    Field.of "name" (·.Name) (fun p x => { p with Name := x }) goString,
    Field.of "owner" (·.Owner) (fun p x => { p with Owner := x }) goString,
    Field.of "php_version" (·.PhpVersion) (fun p x => { p with PhpVersion := x }) goJsonInt64,
    Field.of "preferred_zone" (·.PreferredZone)
      (fun p x => { p with PreferredZone := x }) goString,
    Field.of "product" (·.Product) (fun p x => { p with Product := x })
      (goStruct "struct" Product.fields),
    Field.of "product_id" (·.ProductID) (fun p x => { p with ProductID := x }) goString,
    Field.of "service_level" (·.ServiceLevel)
      (fun p x => { p with ServiceLevel := x }) goString,
    Field.of "upstream" (·.Upstream) (fun p x => { p with Upstream := x })
      (goStruct "struct" Upstream.fields) ]

/-- The tagged fields of `Site`. -/
def Site.fields {F : Type} (pf : JNum → Option F) (ff : F → Option JNum) :
    List (Field (Pantheon.Site F)) :=
  [ Field.of "archived" (·.Archived) (fun p x => { p with Archived := x }) goBool,
    Field.of "id" (·.ID) (fun p x => { p with ID := x }) goString,
    Field.of "key" (·.Key) (fun p x => { p with Key := x }) goString,
    Field.of "role" (·.Role) (fun p x => { p with Role := x }) goString,
    Field.of "site" (·.Site) (fun p x => { p with Site := x })
      (goStruct "struct" (SiteInfo.fields pf ff)),
    Field.of "site_id" (·.SiteID) (fun p x => { p with SiteID := x }) goString,
    Field.of "user_id" (·.UserID) (fun p x => { p with UserID := x }) goString ]

/-- The tagged fields of `OrgSite`. -/
def OrgSite.fields {F : Type} (pf : JNum → Option F) (ff : F → Option JNum) :
    List (Field (OrgSite F)) :=
  [ Field.of "archived" (·.Archived) (fun p x => { p with Archived := x }) goBool,
    Field.of "id" (·.ID) (fun p x => { p with ID := x }) goString,
    Field.of "key" (·.Key) (fun p x => { p with Key := x }) goString,
    Field.of "role" (·.Role) (fun p x => { p with Role := x }) goString,
    Field.of "site" (·.Site) (fun p x => { p with Site := x })
      (goStruct "struct" (SiteInfo.fields pf ff)),
    Field.of "organization_id" (·.Organization)
      (fun p x => { p with Organization := x }) goString,
    Field.of "site_id" (·.SiteID) (fun p x => { p with SiteID := x }) goString ]

/-- The Go type `Site`. -/
def goSite {F : Type} (pf : JNum → Option F) (ff : F → Option JNum) : GoType (Site F) :=
  goStruct "pantheon.Site" (Site.fields pf ff)

/-- The Go type `OrgSite`. -/
def goOrgSite {F : Type} (pf : JNum → Option F) (ff : F → Option JNum) : GoType (OrgSite F) :=
  goStruct "pantheon.OrgSite" (OrgSite.fields pf ff)

/-- SiteList represents a grouping of deployed Pantheon sites. -/
structure SiteList (F : Type) where
  Sites : GoSlice (Site F)

/-- NewSiteList creates a SiteList: `&SiteList{}`, the slice is nil. -/
def NewSiteList {F : Type} : SiteList F := { Sites := .nil }

/-- JSON prepares the SiteList for HTTP transport: `json.Marshal(sl.Sites)`. -/
def SiteList.JSON {F : Type} (pf : JNum → Option F) (ff : F → Option JNum) (sl : SiteList F) :
    Except JSONError JValue :=
  marshalSlice (goSite pf ff).enc sl.Sites

/-- Unmarshal converts a HTTP response into a SiteList:
`json.Unmarshal(data, &sl.Sites)`. -/
def SiteList.Unmarshal {F : Type} (pf : JNum → Option F) (ff : F → Option JNum)
    (sl : SiteList F) (data : Payload) : SiteList F × Option JSONError :=
  ({ sl with Sites :=
      (unmarshalSlice "[]pantheon.Site" (goSite pf ff).dec Site.zero data sl.Sites).1 },
   (unmarshalSlice "[]pantheon.Site" (goSite pf ff).dec Site.zero data sl.Sites).2)

/-- OrgSiteList represents a grouping of deployed Pantheon sites for an
organization. -/
structure OrgSiteList (F : Type) where
  Organization : String
  OrgSites : GoSlice (OrgSite F)

/-- NewOrgSiteList creates an OrgSiteList; the slice is `make([]OrgSite, 0)`. -/
def NewOrgSiteList {F : Type} (org : String) : OrgSiteList F :=
  { Organization := org, OrgSites := GoSlice.empty }

/-- JSON prepares the OrgSiteList for HTTP transport: `json.Marshal(osl.OrgSites)`. -/
def OrgSiteList.JSON {F : Type} (pf : JNum → Option F) (ff : F → Option JNum)
    (osl : OrgSiteList F) : Except JSONError JValue :=
  marshalSlice (goOrgSite pf ff).enc osl.OrgSites

/-- Unmarshal converts a HTTP response into an OrgSiteList:
`json.Unmarshal(data, &osl.OrgSites)`. -/
def OrgSiteList.Unmarshal {F : Type} (pf : JNum → Option F) (ff : F → Option JNum)
    (osl : OrgSiteList F) (data : Payload) : OrgSiteList F × Option JSONError :=
  ({ osl with OrgSites :=
      (unmarshalSlice "[]pantheon.OrgSite" (goOrgSite pf ff).dec OrgSite.zero data
        osl.OrgSites).1 },
   (unmarshalSlice "[]pantheon.OrgSite" (goOrgSite pf ff).dec OrgSite.zero data
        osl.OrgSites).2)

/-! ## Paths -/

/-- Modelled from the spec: the interface `AuthSession`, declared in a file of
the package that is not part of the sources at hand. Spec 4.2: it has one
operation, `GetUser() -> (string, error)`. A session has a state of type `σ`;
a call returns the user id or an error (given by its message) and the state
afterwards. -/
structure AuthSession (σ : Type) where
  GetUser : σ → Except String String × σ

/-- How a call ends: it returns a value to its caller, or the process exits
inside the call (`os.Exit(code)` after the message was logged). -/
inductive Outcome (α : Type) where
  | returned (a : α)
  | exited (code : Nat) (logged : String)
deriving DecidableEq, Repr

/-- Whether control comes back to the caller. -/
def Outcome.returnsToCaller {α : Type} : Outcome α → Bool
  | .returned _ => true
  | .exited _ _ => false

/-- The call `log.Fatalf("Could not determine user for request: %v", err)`: the
message is logged and the process exits with status 1. -/
def fatalNoUser {α : Type} (err : String) : Outcome α :=
  .exited 1 ("Could not determine user for request: " ++ err)

/-- Path returns the API endpoint which can be used to get an OrgList for the
current user. -/
def OrgList.Path {σ : Type} (_ol : OrgList) (_method : String) (auth : AuthSession σ)
    (st : σ) : Outcome String × σ :=
  match auth.GetUser st with
  | (.error err, st1) => (fatalNoUser err, st1)
  | (.ok userid, st1) => (.returned ("/users/" ++ userid ++ "/memberships/organizations"), st1)

/-- Path returns the API endpoint which can be used to get an OrgSiteList. -/
def OrgSiteList.Path {F σ : Type} (osl : OrgSiteList F) (_method : String)
    (_auth : AuthSession σ) (st : σ) : Outcome String × σ :=
  (.returned ("/organizations/" ++ osl.Organization ++ "/memberships/sites"), st)

/-- Path returns the API endpoint which can be used to get a SiteList for the
current user. -/
def SiteList.Path {F σ : Type} (_sl : SiteList F) (_method : String) (auth : AuthSession σ)
    (st : σ) : Outcome String × σ :=
  match auth.GetUser st with
  | (.error err, st1) => (fatalNoUser err, st1)
  | (.ok userid, st1) => (.returned ("/users/" ++ userid ++ "/memberships/sites"), st1)

/-- Path returns the API endpoint which can be used to get a SiteDomainList. -/
def SiteDomainList.Path {σ : Type} (sdl : SiteDomainList) (_method : String)
    (_auth : AuthSession σ) (st : σ) : Outcome String × σ :=
  (.returned ("/sites/" ++ sdl.SiteID ++ "/environments/" ++ sdl.Environment ++ "/domains"), st)

/-- A session that counts the calls of `GetUser` made on it: the second
component of its state is the number of calls so far. -/
def AuthSession.counted {σ : Type} (auth : AuthSession σ) : AuthSession (σ × Nat) :=
  { GetUser := fun st => ((auth.GetUser st.1).1, ((auth.GetUser st.1).2, st.2 + 1)) }

/-- A session with a logged-in user. -/
def sessionOf (user : String) : AuthSession Unit :=
  { GetUser := fun st => (.ok user, st) }

/-- A session without a user: `GetUser` fails with the given message. -/
def sessionFailing (msg : String) : AuthSession Unit :=
  { GetUser := fun st => (.error msg, st) }

/-! ## Properties of codecs (used to state and prove the theorems) -/

/-- Every well-formed document of the type is decoded without error, whatever
the value decoded into. -/
def GoType.Sound {β : Type} (ty : GoType β) : Prop :=
  ∀ (exact : Bool) (v : JValue) (b : β), ty.shape exact v = true → (ty.dec v b).2 = .ok

/-- Decoding an exactly well-formed document and encoding the result gives the
same document, whatever the value decoded into. -/
def GoType.RoundTrips {β : Type} (ty : GoType β) : Prop :=
  ∀ (v : JValue) (b : β), ty.shape true v = true →
    ∃ w, ty.enc (ty.dec v b).1 = .ok w ∧ w.sameAs v = true

/-- Every well-formed value of the field is decoded without error. -/
def Field.Sound {α : Type} (f : Field α) : Prop :=
  ∀ (exact : Bool) (v : JValue) (a : α), f.shape exact v = true → (f.dec v a).2 = .ok

/-- Decoding an exactly well-formed value into the field and encoding the field
gives the same document. -/
def Field.RoundTrips {α : Type} (f : Field α) : Prop :=
  ∀ (v : JValue) (a : α), f.shape true v = true →
    ∃ w, f.enc (f.dec v a).1 = .ok w ∧ w.sameAs v = true

/-- Decoding into one field leaves what is encoded for the other fields alone. -/
def FieldsIndependent {α : Type} (fields : List (Field α)) : Prop :=
  ∀ f ∈ fields, ∀ g ∈ fields, f.name ≠ g.name → ∀ (v : JValue) (a : α),
    f.enc (g.dec v a).1 = f.enc a

/-- Whether decoding a document fails does not depend on the value decoded
into. -/
def StatusFree {α : Type} (dec : Dec α) : Prop :=
  ∀ (v : JValue) (a b : α), (dec v a).2 = (dec v b).2

/-- The documents the type takes are exactly those decoded without error,
whatever the value decoded into. -/
def GoType.Decides {β : Type} (ty : GoType β) : Prop :=
  ∀ (v : JValue) (b : β), (ty.dec v b).2 = .ok ↔ ty.accepts v = true

/-- The documents the field takes are exactly those decoded into it without
error. -/
def Field.Decides {α : Type} (f : Field α) : Prop :=
  ∀ (v : JValue) (a : α), (f.dec v a).2 = .ok ↔ f.accepts v = true

/-! ## Looking into documents; values used in examples -/

/-- The value of a key of an object (of the first member with that key). -/
def JValue.member (key : String) : JValue → Option JValue
  | .obj kvs => kvs.lookup key
  | _ => none

/-- The string a key of an object holds; the empty string when the key is
absent. -/
def JValue.strAt (key : String) (x : JValue) : String :=
  match x.member key with
  | some (.str s) => s
  | _ => ""

/-- The boolean a key of an object holds; false when the key is absent. -/
def JValue.boolAt (key : String) (x : JValue) : Bool :=
  match x.member key with
  | some (.bool b) => b
  | _ => false

/-- Whether a document is an array. -/
def JValue.isArr : JValue → Bool
  | .arr _ => true
  | _ => false

/-- The object `json.Marshal` writes for an `Org`: field names and nesting. -/
def Org.wire (o : Org) : JValue :=
  .obj [ ("archived", .bool o.Archived),
         ("id", .str o.ID),
         ("key", .str o.Key),
         ("role", .str o.Role),
         ("organization",
           .obj [ ("profile",
                    .obj [ ("machine_name", .str o.Organization.Profile.MachineName),
                           ("change_service_url", .str o.Organization.Profile.ChangeServiceURL),
                           ("name", .str o.Organization.Profile.Name),
                           ("email_domain", .str o.Organization.Profile.EmailDomain),
                           ("org_logo_width",
                             .num (JNum.ofNat o.Organization.Profile.OrgLogoWidth)),
                           ("org_logo_height",
                             .num (JNum.ofNat o.Organization.Profile.OrgLogoHeight)),
                           ("base_domain", .str o.Organization.Profile.BaseDomain),
                           ("billing_url", .str o.Organization.Profile.BillingURL),
                           ("terms_of_service", .str o.Organization.Profile.TermsOfService),
                           ("org_logo", .str o.Organization.Profile.OrgLogo) ]),
                  ("id", .str o.Organization.ID) ]),
         ("site_id", .str o.SiteID),
         ("user_id", .str o.UserID) ]

/-- The object `json.Marshal` writes for a `Domain`. -/
def Domain.wire (d : Domain) : JValue :=
  .obj [ ("dns_zone_name", .str d.DNSZoneName),
         ("domain_lookup_rax", .num (JNum.ofNat d.DomainLookupRAX)),
         ("domain_lookup_usc1", .num (JNum.ofNat d.DomainLookupUSCL)),
         ("environment", .str d.Environment),
         ("site_id", .str d.SiteID),
         ("type", .str d.Type_),
         ("id", .str d.ID),
         ("key", .str d.Key),
         ("status", .str d.Status),
         ("status_message", .str d.StatusMessage),
         ("deletable", .bool d.Deleteable) ]

/-- The object written for the site-details struct, given the document written
for its `user_uuid`. -/
def SiteInfo.wire {F : Type} (s : SiteInfo F) (uuid : JValue) : JValue :=
  .obj [ ("created", .num (JNum.ofInt s.Created)),
         ("created_by_user_id", .str s.CreatedByUserID),
         ("framework", .str s.Framework),
         ("frozen", .bool s.Frozen),
         ("id", .str s.ID),
         ("last_code_push",
           .obj [("timestamp", .str s.LastCodePush.Timestamp), ("user_uuid", uuid)]),
         ("name", .str s.Name),
         ("owner", .str s.Owner),
         ("php_version", .num (JNum.ofInt s.PhpVersion)),
         ("preferred_zone", .str s.PreferredZone),
         ("product", .obj [("id", .str s.Product.ID), ("longname", .str s.Product.Longname)]),
         ("product_id", .str s.ProductID),
         ("service_level", .str s.ServiceLevel),
         ("upstream",
           .obj [ ("branch", .str s.Upstream.Branch),
                  ("product_id", .str s.Upstream.ProductID),
                  ("url", .str s.Upstream.URL) ]) ]

/-- The object written for a `Site`, given the document written for its
`user_uuid`. -/
def Site.wire {F : Type} (s : Pantheon.Site F) (uuid : JValue) : JValue :=
  .obj [ ("archived", .bool s.Archived),
         ("id", .str s.ID),
         ("key", .str s.Key),
         ("role", .str s.Role),
         ("site", s.Site.wire uuid),
         ("site_id", .str s.SiteID),
         ("user_id", .str s.UserID) ]

/-- The object written for an `OrgSite`, given the document written for its
`user_uuid`. -/
def OrgSite.wire {F : Type} (s : OrgSite F) (uuid : JValue) : JValue :=
  .obj [ ("archived", .bool s.Archived),
         ("id", .str s.ID),
         ("key", .str s.Key),
         ("role", .str s.Role),
         ("site", s.Site.wire uuid),
         ("organization_id", .str s.Organization),
         ("site_id", .str s.SiteID) ]

/-- A stand-in for float64 in examples: a value is a literal, or NaN (`none`). -/
abbrev ExampleFloat := Option JNum

/-- A stand-in for `strconv.ParseFloat` in examples: every literal has a value. -/
def exampleParseFloat : JNum → Option ExampleFloat := fun n => some (some n)

/-- A stand-in for the float64 encoder in examples: NaN has no JSON form. -/
def exampleFormatFloat : ExampleFloat → Option JNum := fun x => x

/-- An organization object with all its members, not in declaration order. -/
def exampleOrgObject : JValue :=
  .obj [ ("id", .str "1"),
         ("archived", .bool false),
         ("user_id", .str "u1"),
         ("site_id", .str "s1"),
         ("organization",
           .obj [ ("id", .str "org1"),
                  ("profile",
                    .obj [ ("name", .str "Acme"),
                           ("machine_name", .str "acme"),
                           ("change_service_url", .str ""),
                           ("email_domain", .str "acme.test"),
                           ("org_logo_width", .num (JNum.ofNat 120)),
                           ("org_logo_height", .num (JNum.ofNat 60)),
                           ("base_domain", .str "acme.test"),
                           ("billing_url", .str ""),
                           ("terms_of_service", .str ""),
                           ("org_logo", .str "logo.png") ]) ]),
         ("role", .str "admin"),
         ("key", .str "k1") ]

/-- A domain object with all its members. -/
def exampleDomainObject : JValue :=
  .obj [ ("id", .str "www.acme.test"),
         ("key", .str "www.acme.test"),
         ("dns_zone_name", .str "acme"),
         ("domain_lookup_rax", .num (JNum.ofNat 1)),
         ("domain_lookup_usc1", .num (JNum.ofNat 2)),
         ("environment", .str "live"),
         ("site_id", .str "abc123"),
         ("type", .str "custom"),
         ("status", .str "ok"),
         ("status_message", .str ""),
         ("deletable", .bool true) ]

/-- The members of `exampleDomainObject`. -/
def exampleDomainMembers : List (String × JValue) :=
  [ ("id", .str "www.acme.test"),
    ("key", .str "www.acme.test"),
    ("dns_zone_name", .str "acme"),
    ("domain_lookup_rax", .num (JNum.ofNat 1)),
    ("domain_lookup_usc1", .num (JNum.ofNat 2)),
    ("environment", .str "live"),
    ("site_id", .str "abc123"),
    ("type", .str "custom"),
    ("status", .str "ok"),
    ("status_message", .str ""),
    ("deletable", .bool true) ]

/-- A site-details object with all its members; `php` is the value of
`php_version`. -/
def exampleSiteInfoObject (php : JValue) : JValue :=
  .obj [ ("created", .num (JNum.ofNat 1500000000)),
         ("created_by_user_id", .str "u1"),
         ("framework", .str "drupal8"),
         ("frozen", .bool false),
         ("id", .str "abc123"),
         ("last_code_push", .obj [("timestamp", .str "2020-01-01"), ("user_uuid", .null)]),
         ("name", .str "acme"),
         ("owner", .str "u1"),
         ("php_version", php),
         ("preferred_zone", .str "us"),
         ("product", .obj [("id", .str "p1"), ("longname", .str "Drupal")]),
         ("product_id", .str "p1"),
         ("service_level", .str "free"),
         ("upstream",
           .obj [("branch", .str "master"), ("product_id", .str "p1"), ("url", .str "")]) ]

/-- A site object with all its members; `php` is the value of `php_version`. -/
def exampleSiteObject (php : JValue) : JValue :=
  .obj [ ("archived", .bool false),
         ("id", .str "abc123"),
         ("key", .str "abc123"),
         ("role", .str "team_member"),
         ("site", exampleSiteInfoObject php),
         ("site_id", .str "abc123"),
         ("user_id", .str "u1") ]

/-- An organization-site object with all its members. -/
def exampleOrgSiteObject : JValue :=
  .obj [ ("archived", .bool false),
         ("id", .str "abc123"),
         ("key", .str "abc123"),
         ("role", .str "team_member"),
         ("site", exampleSiteInfoObject (.num (JNum.ofNat 7))),
         ("organization_id", .str "org1"),
         ("site_id", .str "abc123") ]

/-! ## What an object leaves of a prior element

Written from the struct declarations field by field, without the decoder: the
value a field has after an object was stored into a struct. -/

/-- Whether an object has a member with the key. -/
def JValue.has (x : JValue) (key : String) : Bool := (x.member key).isSome

/-- The document under a key of an object; `null` when the key is absent. -/
def JValue.sub (x : JValue) (key : String) : JValue := (x.member key).getD .null

/-- The string under a key of an object; `prior` when the key is absent. -/
def JValue.strOr (x : JValue) (key : String) (prior : String) : String :=
  match x.member key with
  | some (.str s) => s
  | _ => prior

/-- The boolean under a key of an object; `prior` when the key is absent. -/
def JValue.boolOr (x : JValue) (key : String) (prior : Bool) : Bool :=
  match x.member key with
  | some (.bool b) => b
  | _ => prior

/-- The number under a key of an object, read from its digits; `prior` when the
key is absent. -/
def JValue.uintOr (x : JValue) (key : String) (prior : Nat) : Nat :=
  match x.member key with
  | some (.num n) => n.int
  | _ => prior

/-- The integer under a key of an object, written as a number or as a string of
signed digits; `prior` when the key is absent. -/
def JValue.intOr (x : JValue) (key : String) (prior : jsonInt64) : jsonInt64 :=
  match x.member key with
  | some (.num n) => if n.neg then -(n.int : Int) else (n.int : Int)
  | some (.str s) => (parseInt64 s).getD prior
  | _ => prior

/-- The `interface{}` value of the document under a key of an object; `prior`
when the key is absent. -/
def JValue.anyOr {F : Type} (pf : JNum → Option F) (x : JValue) (key : String)
    (prior : GoAny F) : GoAny F :=
  match x.member key with
  | some v => (decAnyValue pf v).1
  | none => prior

/-- What the object `x` leaves of the profile struct `p`:
each field takes the value under its key, and keeps the value it has in `p`
when `x` has no such key. -/
def OrgProfile.merged (x : JValue) (p : OrgProfile) :
    OrgProfile :=
  { MachineName := x.strOr "machine_name" p.MachineName,
    ChangeServiceURL := x.strOr "change_service_url" p.ChangeServiceURL,
    Name := x.strOr "name" p.Name,
    EmailDomain := x.strOr "email_domain" p.EmailDomain,
    OrgLogoWidth := x.uintOr "org_logo_width" p.OrgLogoWidth,
    OrgLogoHeight := x.uintOr "org_logo_height" p.OrgLogoHeight,
    BaseDomain := x.strOr "base_domain" p.BaseDomain,
    BillingURL := x.strOr "billing_url" p.BillingURL,
    TermsOfService := x.strOr "terms_of_service" p.TermsOfService,
    OrgLogo := x.strOr "org_logo" p.OrgLogo }

/-- What the object `x` leaves of the organization struct `p`:
each field takes the value under its key, and keeps the value it has in `p`
when `x` has no such key. -/
def OrgOrganization.merged (x : JValue) (p : OrgOrganization) :
    OrgOrganization :=
  { Profile := OrgProfile.merged (x.sub "profile") p.Profile,
    ID := x.strOr "id" p.ID }

/-- What the object `x` leaves of an `Org` `p`:
each field takes the value under its key, and keeps the value it has in `p`
when `x` has no such key. -/
def Org.merged (x : JValue) (p : Org) :
    Org :=
  { Archived := x.boolOr "archived" p.Archived,
    ID := x.strOr "id" p.ID,
    Key := x.strOr "key" p.Key,
    Role := x.strOr "role" p.Role,
    Organization := OrgOrganization.merged (x.sub "organization") p.Organization,
    SiteID := x.strOr "site_id" p.SiteID,
    UserID := x.strOr "user_id" p.UserID }

/-- What the object `x` leaves of a `Domain` `p`:
each field takes the value under its key, and keeps the value it has in `p`
when `x` has no such key. -/
def Domain.merged (x : JValue) (p : Domain) :
    Domain :=
  { DNSZoneName := x.strOr "dns_zone_name" p.DNSZoneName,
    DomainLookupRAX := x.uintOr "domain_lookup_rax" p.DomainLookupRAX,
    DomainLookupUSCL := x.uintOr "domain_lookup_usc1" p.DomainLookupUSCL,
    Environment := x.strOr "environment" p.Environment,
    SiteID := x.strOr "site_id" p.SiteID,
    Type_ := x.strOr "type" p.Type_,
    ID := x.strOr "id" p.ID,
    Key := x.strOr "key" p.Key,
    Status := x.strOr "status" p.Status,
    StatusMessage := x.strOr "status_message" p.StatusMessage,
    Deleteable := x.boolOr "deletable" p.Deleteable }

/-- What the object `x` leaves of the last-code-push struct `p`:
each field takes the value under its key, and keeps the value it has in `p`
when `x` has no such key. -/
def LastCodePush.merged {F : Type} (pf : JNum → Option F) (x : JValue) (p : LastCodePush F) :
    LastCodePush F :=
  { Timestamp := x.strOr "timestamp" p.Timestamp,
    UserUUID := x.anyOr pf "user_uuid" p.UserUUID }

/-- What the object `x` leaves of the product struct `p`:
each field takes the value under its key, and keeps the value it has in `p`
when `x` has no such key. -/
def Product.merged (x : JValue) (p : Product) :
    Product :=
  { ID := x.strOr "id" p.ID,
    Longname := x.strOr "longname" p.Longname }

/-- What the object `x` leaves of the upstream struct `p`:
each field takes the value under its key, and keeps the value it has in `p`
when `x` has no such key. -/
def Upstream.merged (x : JValue) (p : Upstream) :
    Upstream :=
  { Branch := x.strOr "branch" p.Branch,
    ProductID := x.strOr "product_id" p.ProductID,
    URL := x.strOr "url" p.URL }

/-- What the object `x` leaves of the site-details struct `p`:
each field takes the value under its key, and keeps the value it has in `p`
when `x` has no such key. -/
def SiteInfo.merged {F : Type} (pf : JNum → Option F) (x : JValue) (p : SiteInfo F) :
    SiteInfo F :=
  { Created := x.intOr "created" p.Created,
    CreatedByUserID := x.strOr "created_by_user_id" p.CreatedByUserID,
    Framework := x.strOr "framework" p.Framework,
    Frozen := x.boolOr "frozen" p.Frozen,
    ID := x.strOr "id" p.ID,
    LastCodePush := LastCodePush.merged pf (x.sub "last_code_push") p.LastCodePush,
    Name := x.strOr "name" p.Name,
    Owner := x.strOr "owner" p.Owner,
    PhpVersion := x.intOr "php_version" p.PhpVersion,
    PreferredZone := x.strOr "preferred_zone" p.PreferredZone,
    Product := Product.merged (x.sub "product") p.Product,
    ProductID := x.strOr "product_id" p.ProductID,
    ServiceLevel := x.strOr "service_level" p.ServiceLevel,
    Upstream := Upstream.merged (x.sub "upstream") p.Upstream }

/-- What the object `x` leaves of a `Site` `p`:
each field takes the value under its key, and keeps the value it has in `p`
when `x` has no such key. -/
def Site.merged {F : Type} (pf : JNum → Option F) (x : JValue) (p : Pantheon.Site F) :
    Pantheon.Site F :=
  { Archived := x.boolOr "archived" p.Archived,
    ID := x.strOr "id" p.ID,
    Key := x.strOr "key" p.Key,
    Role := x.strOr "role" p.Role,
    Site := SiteInfo.merged pf (x.sub "site") p.Site,
    SiteID := x.strOr "site_id" p.SiteID,
    UserID := x.strOr "user_id" p.UserID }

/-- What the object `x` leaves of an `OrgSite` `p`:
each field takes the value under its key, and keeps the value it has in `p`
when `x` has no such key. -/
def OrgSite.merged {F : Type} (pf : JNum → Option F) (x : JValue) (p : OrgSite F) :
    OrgSite F :=
  { Archived := x.boolOr "archived" p.Archived,
    ID := x.strOr "id" p.ID,
    Key := x.strOr "key" p.Key,
    Role := x.strOr "role" p.Role,
    Site := SiteInfo.merged pf (x.sub "site") p.Site,
    Organization := x.strOr "organization_id" p.Organization,
    SiteID := x.strOr "site_id" p.SiteID }

/-- Whether an object carries every key of the profile struct. -/
def OrgProfile.complete (x : JValue) : Bool :=
  x.has "machine_name"
  && x.has "change_service_url"
  && x.has "name"
  && x.has "email_domain"
  && x.has "org_logo_width"
  && x.has "org_logo_height"
  && x.has "base_domain"
  && x.has "billing_url"
  && x.has "terms_of_service"
  && x.has "org_logo"

/-- Whether an object carries every key of the organization struct, those of its nested
objects included. -/
def OrgOrganization.complete (x : JValue) : Bool :=
  OrgProfile.complete (x.sub "profile")
  && x.has "id"

/-- Whether an object carries every key of an `Org`, those of its nested
objects included. -/
def Org.complete (x : JValue) : Bool :=
  x.has "archived"
  && x.has "id"
  && x.has "key"
  && x.has "role"
  && OrgOrganization.complete (x.sub "organization")
  && x.has "site_id"
  && x.has "user_id"

/-- Whether an object carries every key of a `Domain`. -/
def Domain.complete (x : JValue) : Bool :=
  x.has "dns_zone_name"
  && x.has "domain_lookup_rax"
  && x.has "domain_lookup_usc1"
  && x.has "environment"
  && x.has "site_id"
  && x.has "type"
  && x.has "id"
  && x.has "key"
  && x.has "status"
  && x.has "status_message"
  && x.has "deletable"

/-- Whether an object carries every key of the last-code-push struct. -/
def LastCodePush.complete (x : JValue) : Bool :=
  x.has "timestamp"
  && x.has "user_uuid"

/-- Whether an object carries every key of the product struct. -/
def Product.complete (x : JValue) : Bool :=
  x.has "id"
  && x.has "longname"

/-- Whether an object carries every key of the upstream struct. -/
def Upstream.complete (x : JValue) : Bool :=
  x.has "branch"
  && x.has "product_id"
  && x.has "url"

/-- Whether an object carries every key of the site-details struct, those of its nested
objects included. -/
def SiteInfo.complete (x : JValue) : Bool :=
  x.has "created"
  && x.has "created_by_user_id"
  && x.has "framework"
  && x.has "frozen"
  && x.has "id"
  && LastCodePush.complete (x.sub "last_code_push")
  && x.has "name"
  && x.has "owner"
  && x.has "php_version"
  && x.has "preferred_zone"
  && Product.complete (x.sub "product")
  && x.has "product_id"
  && x.has "service_level"
  && Upstream.complete (x.sub "upstream")

/-- Whether an object carries every key of a `Site`, those of its nested
objects included. -/
def Site.complete (x : JValue) : Bool :=
  x.has "archived"
  && x.has "id"
  && x.has "key"
  && x.has "role"
  && SiteInfo.complete (x.sub "site")
  && x.has "site_id"
  && x.has "user_id"

/-- Whether an object carries every key of an `OrgSite`, those of its nested
objects included. -/
def OrgSite.complete (x : JValue) : Bool :=
  x.has "archived"
  && x.has "id"
  && x.has "key"
  && x.has "role"
  && SiteInfo.complete (x.sub "site")
  && x.has "organization_id"
  && x.has "site_id"

/-! ## Decoding status -/

theorem DecStatus.andThen_eq_ok {a b : DecStatus} : a.andThen b = .ok ↔ a = .ok ∧ b = .ok := by
  cases a <;> cases b <;> simp [DecStatus.andThen]

theorem DecStatus.err_eq_none {a : DecStatus} : a.err = none ↔ a = .ok := by
  cases a <;> simp [DecStatus.err]

/-! ## Structs: the member loop -/

theorem decodeFields_cons_none {α : Type} {fields : List (Field α)} {k : String} (v : JValue)
    (rest : List (String × JValue)) (cur : α) (h : findField fields k = none) :
    decodeFields fields ((k, v) :: rest) cur = decodeFields fields rest cur := by
  simp [decodeFields, h]

theorem decodeFields_cons_ok {α : Type} {fields : List (Field α)} {k : String} {f : Field α}
    (v : JValue) (rest : List (String × JValue)) (cur : α) (h : findField fields k = some f)
    (hok : (f.dec v cur).2 = .ok) :
    decodeFields fields ((k, v) :: rest) cur = decodeFields fields rest (f.dec v cur).1 := by
  simp [decodeFields, h, hok, DecStatus.andThen]

/-- The status of the member loop is `ok` exactly when every member that
selects a field is decoded without error, each into the struct as it stands
when its turn comes; `ok` for all structs is enough. -/
theorem decodeFields_ok_of_forall {α : Type} (fields : List (Field α)) :
    ∀ (kvs : List (String × JValue)) (cur : α),
      (∀ kv ∈ kvs, ∀ f, findField fields kv.1 = some f → ∀ a, (f.dec kv.2 a).2 = .ok) →
      (decodeFields fields kvs cur).2 = .ok
  | [], _, _ => rfl
  | (k, v) :: rest, cur, h => by
    cases hf : findField fields k with
    | none =>
      rw [decodeFields_cons_none v rest cur hf]
      exact decodeFields_ok_of_forall fields rest cur
        (fun kv hkv => h kv (List.mem_cons_of_mem _ hkv))
    | some f =>
      have h1 := h (k, v) (List.mem_cons_self _ _) f hf cur
      rw [decodeFields_cons_ok v rest cur hf h1]
      exact decodeFields_ok_of_forall fields rest _
        (fun kv hkv => h kv (List.mem_cons_of_mem _ hkv))

/-- No error is lost: when the member loop ends with status `ok`, every member
that selects a field was decoded without error into some struct. -/
theorem decodeFields_ok_forall {α : Type} (fields : List (Field α)) :
    ∀ (kvs : List (String × JValue)) (cur : α),
      (decodeFields fields kvs cur).2 = .ok →
      ∀ kv ∈ kvs, ∀ f, findField fields kv.1 = some f → ∃ a, (f.dec kv.2 a).2 = .ok
  | [], _, _ => by simp
  | (k, v) :: rest, cur, h => by
    intro kv hkv f hf
    cases hk : findField fields k with
    | none =>
      rw [decodeFields_cons_none v rest cur hk] at h
      rcases List.mem_cons.1 hkv with rfl | hmem
      · simp [hk] at hf
      · exact decodeFields_ok_forall fields rest cur h kv hmem f hf
    | some g =>
      have hstep : (g.dec v cur).2 = .ok ∧ (decodeFields fields rest (g.dec v cur).1).2 = .ok := by
        simp only [decodeFields, hk] at h
        cases hs : (g.dec v cur).2 with
        | ok => 
          rw [hs] at h
          simpa [DecStatus.andThen] using h
        | saved e =>
          rw [hs] at h
          simp only at h
          have := (DecStatus.andThen_eq_ok).1 h
          simp at this
        | abort e =>
          rw [hs] at h
          simp at h
      rcases List.mem_cons.1 hkv with rfl | hmem
      · simp only [hk, Option.some.injEq] at hf
        subst hf
        exact ⟨cur, hstep.1⟩
      · exact decodeFields_ok_forall fields rest _ hstep.2 kv hmem f hf

/-- A view of the struct that no decoded member touches is the same after the
member loop. -/
theorem decodeFields_obs_absent {α γ : Type} (obs : α → γ) (fields : List (Field α)) :
    ∀ (kvs : List (String × JValue)) (cur : α),
      (∀ kv ∈ kvs, ∀ f, findField fields kv.1 = some f → ∀ a, obs (f.dec kv.2 a).1 = obs a) →
      obs (decodeFields fields kvs cur).1 = obs cur
  | [], _, _ => rfl
  | (k, v) :: rest, cur, h => by
    have hrest : ∀ kv ∈ rest, ∀ f, findField fields kv.1 = some f →
        ∀ a, obs (f.dec kv.2 a).1 = obs a :=
      fun kv hkv => h kv (List.mem_cons_of_mem _ hkv)
    cases hf : findField fields k with
    | none =>
      rw [decodeFields_cons_none v rest cur hf]
      exact decodeFields_obs_absent obs fields rest cur hrest
    | some f =>
      have h1 := h (k, v) (List.mem_cons_self _ _) f hf cur
      simp only [decodeFields, hf]
      cases hs : (f.dec v cur).2 with
      | abort e => simpa using h1
      | ok =>
        simp only
        rw [decodeFields_obs_absent obs fields rest _ hrest]
        exact h1
      | saved e =>
        simp only
        rw [decodeFields_obs_absent obs fields rest _ hrest]
        exact h1

/-- A view of the struct after the member loop, for a key that occurs with one
value only: it is what decoding that value into the selected field leaves,
when the other members do not touch the view and no member fails. -/
theorem decodeFields_obs_present {α γ : Type} (obs : α → γ) (fields : List (Field α))
    (nm : String) (v : JValue) (f0 : Field α) (P : γ → Prop)
    (hsel : findField fields nm = some f0) (hP : ∀ a, P (obs (f0.dec v a).1)) :
    ∀ (kvs : List (String × JValue)) (cur : α),
      (nm, v) ∈ kvs →
      (∀ kv ∈ kvs, kv.1 = nm → kv.2 = v) →
      (∀ kv ∈ kvs, ∀ f, findField fields kv.1 = some f → ∀ a, (f.dec kv.2 a).2 = .ok) →
      (∀ kv ∈ kvs, kv.1 ≠ nm → ∀ f, findField fields kv.1 = some f →
        ∀ a, obs (f.dec kv.2 a).1 = obs a) →
      P (obs (decodeFields fields kvs cur).1)
  | [], _, hmem, _, _, _ => by simp at hmem
  | (k, v1) :: rest, cur, hmem, huniq, hok, hother => by
    have huniq1 : ∀ kv ∈ rest, kv.1 = nm → kv.2 = v :=
      fun kv hkv => huniq kv (List.mem_cons_of_mem _ hkv)
    have hok1 : ∀ kv ∈ rest, ∀ f, findField fields kv.1 = some f → ∀ a, (f.dec kv.2 a).2 = .ok :=
      fun kv hkv => hok kv (List.mem_cons_of_mem _ hkv)
    have hother1 : ∀ kv ∈ rest, kv.1 ≠ nm → ∀ f, findField fields kv.1 = some f →
        ∀ a, obs (f.dec kv.2 a).1 = obs a :=
      fun kv hkv => hother kv (List.mem_cons_of_mem _ hkv)
    by_cases hk : k = nm
    · subst hk
      have hv : v1 = v := huniq (k, v1) (List.mem_cons_self _ _) rfl
      subst hv
      rw [decodeFields_cons_ok v1 rest cur hsel (hok (k, v1) (List.mem_cons_self _ _) f0 hsel cur)]
      by_cases hin : (k, v1) ∈ rest
      · exact decodeFields_obs_present obs fields k v1 f0 P hsel hP rest _ hin huniq1 hok1 hother1
      · have hne : ∀ kv ∈ rest, kv.1 ≠ k := by
          intro kv hkv hkk
          apply hin
          have := huniq1 kv hkv hkk
          rcases kv with ⟨a, b⟩
          simp only at hkk this
          subst hkk; subst this
          exact hkv
        rw [decodeFields_obs_absent obs fields rest _
          (fun kv hkv f hf a => hother1 kv hkv (hne kv hkv) f hf a)]
        exact hP cur
    · have hin : (nm, v) ∈ rest := by
        rcases List.mem_cons.1 hmem with h | h
        · exact absurd (congrArg Prod.fst h).symm hk
        · exact h
      cases hf : findField fields k with
      | none =>
        rw [decodeFields_cons_none v1 rest cur hf]
        exact decodeFields_obs_present obs fields nm v f0 P hsel hP rest _ hin huniq1 hok1 hother1
      | some f =>
        rw [decodeFields_cons_ok v1 rest cur hf (hok (k, v1) (List.mem_cons_self _ _) f hf cur)]
        exact decodeFields_obs_present obs fields nm v f0 P hsel hP rest _ hin huniq1 hok1 hother1

/-! ## Structs: well-formed objects -/

theorem find_name {α : Type} {fields : List (Field α)} {k : String} {f : Field α}
    (h : fields.find? (fun g => g.name == k) = some f) : f ∈ fields ∧ f.name = k := by
  refine ⟨List.mem_of_find?_eq_some h, ?_⟩
  have := List.find?_some h
  simpa using this

theorem findField_of_find {α : Type} {fields : List (Field α)} {k : String} {f : Field α}
    (h : fields.find? (fun g => g.name == k) = some f) : findField fields k = some f := by
  simp [findField, h]

theorem find_self {α : Type} : ∀ (fields : List (Field α)),
    (fields.map (·.name)).Nodup → ∀ f ∈ fields, fields.find? (fun g => g.name == f.name) = some f
  | [], _, f, hf => by simp at hf
  | g :: rest, hnd, f, hf => by
    rw [List.map_cons, List.nodup_cons] at hnd
    rcases List.mem_cons.1 hf with rfl | hmem
    · simp [List.find?]
    · have hne : g.name ≠ f.name := by
        intro heq
        exact hnd.1 (heq ▸ List.mem_map_of_mem (·.name) hmem)
      have : (g.name == f.name) = false := by simpa using hne
      rw [List.find?_cons, this]
      exact find_self rest hnd.2 f hmem

theorem objectShape_obj {α : Type} {fields : List (Field α)} {exact : Bool}
    {kvs : List (String × JValue)} (h : objectShape fields exact (.obj kvs) = true) :
    (kvs.map (·.1)).Nodup
    ∧ (∀ kv ∈ kvs, (∃ f, fields.find? (fun g => g.name == kv.1) = some f
          ∧ f.shape exact kv.2 = true)
        ∨ (exact = false ∧ findField fields kv.1 = none))
    ∧ (exact = true → ∀ f ∈ fields, ∃ v, (f.name, v) ∈ kvs) := by
  simp only [objectShape, Bool.and_eq_true, decide_eq_true_eq, List.all_eq_true,
    Bool.or_eq_true, Bool.not_eq_true'] at h
  obtain ⟨⟨h1, h2⟩, h3⟩ := h
  refine ⟨h1, ?_, ?_⟩
  · intro kv hkv
    have := h2 kv hkv
    cases hf : fields.find? (fun g => g.name == kv.1) with
    | none =>
      right
      simpa [hf] using this
    | some f => exact Or.inl ⟨f, rfl, by simpa [hf] using this⟩
  · intro hex f hf
    subst hex
    rcases h3 with h3 | h3
    · simp at h3
    · have := h3 f hf
      simp only [List.any_eq_true, beq_iff_eq] at this
      obtain ⟨kv, hkv, hk⟩ := this
      exact ⟨kv.2, by rw [← hk]; exact hkv⟩

/-- In a well-formed object, a member that selects a field selects the field of
that exact name, and its value is well-formed for the field. -/
theorem objectShape_select {α : Type} {fields : List (Field α)} {exact : Bool}
    {kvs : List (String × JValue)} (h : objectShape fields exact (.obj kvs) = true) :
    ∀ kv ∈ kvs, ∀ f, findField fields kv.1 = some f →
      fields.find? (fun g => g.name == kv.1) = some f ∧ f ∈ fields ∧ f.name = kv.1
      ∧ f.shape exact kv.2 = true := by
  intro kv hkv f hf
  rcases (objectShape_obj h).2.1 kv hkv with ⟨g, hg, hsh⟩ | ⟨_, hnone⟩
  · rw [findField_of_find hg] at hf
    rw [← Option.some.inj hf]
    exact ⟨hg, (find_name hg).1, (find_name hg).2, hsh⟩
  · rw [hnone] at hf
    cases hf

/-- In an exactly well-formed object every key is the name of a field. -/
theorem objectShape_known {α : Type} {fields : List (Field α)}
    {kvs : List (String × JValue)} (h : objectShape fields true (.obj kvs) = true) :
    ∀ kv ∈ kvs, ∃ f, fields.find? (fun g => g.name == kv.1) = some f
      ∧ f.shape true kv.2 = true := by
  intro kv hkv
  rcases (objectShape_obj h).2.1 kv hkv with h1 | ⟨h1, _⟩
  · exact h1
  · cases h1

theorem objectShape_not_obj {α : Type} {fields : List (Field α)} {exact : Bool} {v : JValue}
    (h : objectShape fields exact v = true) : ∃ kvs, v = .obj kvs := by
  cases v <;> simp [objectShape] at h
  exact ⟨_, rfl⟩

/-- A struct whose fields are sound is sound. -/
theorem goStruct_sound {α : Type} (goType : String) (fields : List (Field α))
    (hs : ∀ f ∈ fields, f.Sound) : (goStruct goType fields).Sound := by
  intro exact v a hv
  obtain ⟨kvs, rfl⟩ := objectShape_not_obj hv
  show (decodeFields fields kvs a).2 = .ok
  apply decodeFields_ok_of_forall
  intro kv hkv f hf b
  obtain ⟨_, hmem, _, hsh⟩ := objectShape_select hv kv hkv f hf
  exact hs f hmem exact kv.2 b hsh

theorem lookup_of_mem_nodup {β : Type} : ∀ (kvs : List (String × β)) (k : String) (v : β),
    (kvs.map (·.1)).Nodup → (k, v) ∈ kvs → kvs.lookup k = some v
  | [], _, _, _, h => by simp at h
  | (k1, v1) :: rest, k, v, hnd, h => by
    rw [List.map_cons, List.nodup_cons] at hnd
    rcases List.mem_cons.1 h with heq | hmem
    · cases heq
      simp [List.lookup]
    · have hne : k ≠ k1 := by
        intro heq
        subst heq
        exact hnd.1 (List.mem_map_of_mem (·.1) hmem)
      have : (k == k1) = false := by simpa using hne
      simp only [List.lookup, this]
      exact lookup_of_mem_nodup rest k v hnd.2 hmem

theorem value_unique_of_nodup {β : Type} {kvs : List (String × β)} {k : String} {v : β}
    (hnd : (kvs.map (·.1)).Nodup) (hmem : (k, v) ∈ kvs) :
    ∀ kv ∈ kvs, kv.1 = k → kv.2 = v := by
  intro kv hkv hk
  have h1 := lookup_of_mem_nodup kvs k v hnd hmem
  have h2 := lookup_of_mem_nodup kvs kv.1 kv.2 hnd hkv
  rw [hk, h1] at h2
  exact (Option.some.inj h2).symm

theorem encodeMembers_same {α : Type} (a : α) (kvs : List (String × JValue)) :
    ∀ (fields : List (Field α)),
      (∀ f ∈ fields, ∃ w v, f.enc a = .ok w ∧ kvs.lookup f.name = some v ∧ w.sameAs v = true) →
      ∃ ms, encodeMembers (fields.map (fun f => (f.name, f.enc a))) = .ok ms
        ∧ ms.map (·.1) = fields.map (·.name) ∧ sameMembers ms kvs = true
  | [], _ => ⟨[], rfl, rfl, by simp [sameMembers]⟩
  | f :: rest, h => by
    obtain ⟨w, v, hw, hl, hs⟩ := h f (List.mem_cons_self _ _)
    obtain ⟨ms, hms, hlen, hsame⟩ :=
      encodeMembers_same a kvs rest (fun g hg => h g (List.mem_cons_of_mem _ hg))
    refine ⟨(f.name, w) :: ms, ?_, ?_, ?_⟩
    · simp [encodeMembers, hw, hms]
    · simp [hlen]
    · simp [sameMembers, hl, hs, hsame]

/-- A struct round-trips when its field names are distinct, its fields are
sound and round-trip, and decoding into one field leaves the others alone. -/
theorem goStruct_roundTrips {α : Type} (goType : String) (fields : List (Field α))
    (hnd : (fields.map (·.name)).Nodup) (hs : ∀ f ∈ fields, f.Sound)
    (hr : ∀ f ∈ fields, f.RoundTrips) (hi : FieldsIndependent fields) :
    (goStruct goType fields).RoundTrips := by
  intro v a hv
  obtain ⟨kvs, rfl⟩ := objectShape_not_obj hv
  obtain ⟨hkeys, _, h3⟩ := objectShape_obj hv
  have h2 := objectShape_known hv
  have hsel : ∀ kv ∈ kvs, ∀ f, findField fields kv.1 = some f →
      f ∈ fields ∧ f.name = kv.1 ∧ f.shape true kv.2 = true := by
    intro kv hkv f hf
    obtain ⟨_, hmem, hname, hsh⟩ := objectShape_select hv kv hkv f hf
    exact ⟨hmem, hname, hsh⟩
  have hok : ∀ kv ∈ kvs, ∀ f, findField fields kv.1 = some f → ∀ b, (f.dec kv.2 b).2 = .ok := by
    intro kv hkv f hf b
    obtain ⟨hmem, _, hsh⟩ := hsel kv hkv f hf
    exact hs f hmem true kv.2 b hsh
  have hfield : ∀ f ∈ fields, ∃ w v, f.enc (decodeFields fields kvs a).1 = .ok w
      ∧ kvs.lookup f.name = some v ∧ w.sameAs v = true := by
    intro f hf
    obtain ⟨v, hmem⟩ := h3 rfl f hf
    have hfind := find_self fields hnd f hf
    have hshape : f.shape true v = true := by
      obtain ⟨g, hg, hsh⟩ := h2 (f.name, v) hmem
      rw [hfind] at hg
      rw [Option.some.inj hg]
      exact hsh
    have := decodeFields_obs_present f.enc fields f.name v f
      (fun r => ∃ w, r = .ok w ∧ w.sameAs v = true) (findField_of_find hfind)
      (fun b => hr f hf v b hshape) kvs a hmem (value_unique_of_nodup hkeys hmem) hok
      (by
        intro kv hkv hne g hg b
        obtain ⟨hgm, hgn, _⟩ := hsel kv hkv g hg
        exact hi f hf g hgm (by rw [hgn]; exact fun h => hne h.symm) kv.2 b)
    obtain ⟨w, hw, hsame⟩ := this
    exact ⟨w, v, hw, lookup_of_mem_nodup kvs f.name v hkeys hmem, hsame⟩
  obtain ⟨ms, hms, hlen, hsame⟩ := encodeMembers_same (decodeFields fields kvs a).1 kvs fields hfield
  have hperm : (kvs.map (·.1)).Perm (fields.map (·.name)) := by
    refine (List.perm_ext_iff_of_nodup hkeys hnd).2 (fun k => ⟨?_, ?_⟩)
    · intro hk
      obtain ⟨kv, hkv, rfl⟩ := List.mem_map.1 hk
      obtain ⟨g, hg, _⟩ := h2 kv hkv
      exact List.mem_map.2 ⟨g, (find_name hg).1, (find_name hg).2⟩
    · intro hk
      obtain ⟨f, hf, rfl⟩ := List.mem_map.1 hk
      obtain ⟨v, hmem⟩ := h3 rfl f hf
      exact List.mem_map.2 ⟨(f.name, v), hmem, rfl⟩
  have hlen2 : kvs.length = fields.length := by
    simpa using hperm.length_eq
  have hlen3 : ms.length = fields.length := by
    simpa using congrArg List.length hlen
  refine ⟨.obj ms, ?_, ?_⟩
  · show encodeStruct fields (decodeFields fields kvs a).1 = .ok (.obj ms)
    simp [encodeStruct, hms]
  · have hms2 : (ms.map (·.1)).Nodup := by rw [hlen]; exact hnd
    simp [JValue.sameAs, hlen3, hlen2, hsame, hms2, hkeys]

/-! ## The Go types of the fields -/

theorem goString_sound : goString.Sound := by
  intro exact v b hv
  cases v <;> simp [goString, JValue.isStr] at hv
  rfl

theorem goString_roundTrips : goString.RoundTrips := by
  intro v b hv
  cases v <;> simp [goString, JValue.isStr] at hv
  exact ⟨_, rfl, by simp [JValue.sameAs, goString, decString]⟩

theorem goBool_sound : goBool.Sound := by
  intro exact v b hv
  cases v <;> simp [goBool, JValue.isBool] at hv
  rfl

theorem goBool_roundTrips : goBool.RoundTrips := by
  intro v b hv
  cases v <;> simp [goBool, JValue.isBool] at hv
  exact ⟨_, rfl, by simp [JValue.sameAs, goBool, decBool]⟩

theorem parseUint_some {bits : Nat} {n : JNum} {x : Nat} (h : parseUint bits n = some x) :
    n = JNum.ofNat x ∧ x < 2 ^ bits := by
  unfold parseUint at h
  split at h
  · rename_i hc
    cases h
    obtain ⟨h1, h2, h3, h4⟩ := hc
    refine ⟨?_, h4⟩
    cases n
    simp only [JNum.ofNat] at *
    simp [h1, h2, h3]
  · cases h

theorem goUint_sound (bits : Nat) (goType : String) : (goUint bits goType).Sound := by
  intro exact v b hv
  cases v <;> simp [goUint, JValue.isUint] at hv
  rename_i n
  cases hp : parseUint bits n with
  | none => simp [hp] at hv
  | some x => simp [goUint, decUint, hp]

theorem goUint_roundTrips (bits : Nat) (goType : String) : (goUint bits goType).RoundTrips := by
  intro v b hv
  cases v <;> simp [goUint, JValue.isUint] at hv
  rename_i n
  cases hp : parseUint bits n with
  | none => simp [hp] at hv
  | some x =>
    refine ⟨.num (JNum.ofNat x), by simp [goUint, decUint, hp], ?_⟩
    simp [JValue.sameAs, (parseUint_some hp).1]

theorem goJsonInt64_sound : goJsonInt64.Sound := by
  intro exact v b hv
  cases v <;> simp [goJsonInt64] at hv
  · rename_i n
    cases hp : parseInt64Lit n with
    | none => simp [hp] at hv
    | some x => simp [goJsonInt64, decJsonInt64, jsonInt64.UnmarshalJSON, hp]
  · rename_i s
    cases hp : parseInt64 s with
    | none => simp [hp] at hv
    | some x => simp [goJsonInt64, decJsonInt64, jsonInt64.UnmarshalJSON, hp]

theorem parseInt64Lit_ofInt {n : JNum} {x : Int} (h : parseInt64Lit n = some x)
    (hz : ¬ (n.neg = true ∧ n.int = 0)) : JNum.ofInt x = n := by
  unfold parseInt64Lit at h
  split at h
  · rename_i hc
    obtain ⟨h1, h2⟩ := hc
    cases n with
    | mk neg int frac exp =>
      simp only at h1 h2 h hz
      subst h1; subst h2
      cases neg
      · simp only [Bool.false_eq_true, ↓reduceIte] at h
        split at h
        · cases h
          simp [JNum.ofInt]
        · cases h
      · simp only [↓reduceIte] at h
        split at h
        · cases h
          have hpos : 0 < int := Nat.pos_of_ne_zero (fun h0 => hz ⟨rfl, h0⟩)
          simp [JNum.ofInt]
          omega
        · cases h
  · cases h

theorem goJsonInt64_roundTrips : goJsonInt64.RoundTrips := by
  intro v b hv
  cases v <;> simp [goJsonInt64] at hv
  rename_i n
  obtain ⟨h1, h2⟩ := hv
  cases hp : parseInt64Lit n with
  | none => simp [hp] at h1
  | some x =>
    refine ⟨.num (JNum.ofInt x), by
      simp [goJsonInt64, decJsonInt64, jsonInt64.UnmarshalJSON, hp, jsonInt64.MarshalJSON], ?_⟩
    have : JNum.ofInt x = n := parseInt64Lit_ofInt hp (by
      intro hc
      rcases h2 with h2 | h2
      · rw [hc.1] at h2
        cases h2
      · exact h2 hc.2)
    simp [JValue.sameAs, this]

mutual
theorem decAnyValue_ok {F : Type} (pf : JNum → Option F) :
    ∀ v, numbersFit pf v = true → (decAnyValue pf v).2 = .ok
  | .null, _ => rfl
  | .bool _, _ => rfl
  | .str _, _ => rfl
  | .num n, h => by
    simp only [numbersFit] at h
    cases hp : pf n with
    | none => simp [hp] at h
    | some x => simp [decAnyValue, hp]
  | .arr xs, h => by
    simp only [numbersFit] at h
    simp only [decAnyValue]
    exact decAnyList_ok pf xs h
  | .obj kvs, h => by
    simp only [numbersFit] at h
    simp only [decAnyValue]
    exact decAnyMembers_ok pf kvs h
theorem decAnyList_ok {F : Type} (pf : JNum → Option F) :
    ∀ xs, numbersFitList pf xs = true → (decAnyList pf xs).2 = .ok
  | [], _ => rfl
  | x :: xs, h => by
    simp only [numbersFitList, Bool.and_eq_true] at h
    simp only [decAnyList]
    rw [decAnyValue_ok pf x h.1, decAnyList_ok pf xs h.2]
    rfl
theorem decAnyMembers_ok {F : Type} (pf : JNum → Option F) :
    ∀ kvs, numbersFitMembers pf kvs = true → (decAnyMembers pf kvs).2 = .ok
  | [], _ => rfl
  | (_, v) :: kvs, h => by
    simp only [numbersFitMembers, Bool.and_eq_true] at h
    simp only [decAnyMembers]
    rw [decAnyValue_ok pf v h.1, decAnyMembers_ok pf kvs h.2]
    rfl
end

mutual
theorem comesBack_fit {F : Type} (pf : JNum → Option F) (ff : F → Option JNum) :
    ∀ v, comesBack pf ff v = true → numbersFit pf v = true
  | .null, _ => rfl
  | .bool _, _ => rfl
  | .str _, _ => rfl
  | .num n, h => by
    simp only [comesBack] at h
    simp only [numbersFit]
    cases hp : pf n with
    | none => simp [hp] at h
    | some x => rfl
  | .arr xs, h => by
    simp only [comesBack] at h
    simp only [numbersFit]
    exact comesBackList_fit pf ff xs h
  | .obj kvs, h => by
    simp only [comesBack, Bool.and_eq_true] at h
    simp only [numbersFit]
    exact comesBackMembers_fit pf ff kvs h.2
theorem comesBackList_fit {F : Type} (pf : JNum → Option F) (ff : F → Option JNum) :
    ∀ xs, comesBackList pf ff xs = true → numbersFitList pf xs = true
  | [], _ => rfl
  | x :: xs, h => by
    simp only [comesBackList, Bool.and_eq_true] at h
    simp only [numbersFitList, Bool.and_eq_true]
    exact ⟨comesBack_fit pf ff x h.1, comesBackList_fit pf ff xs h.2⟩
theorem comesBackMembers_fit {F : Type} (pf : JNum → Option F) (ff : F → Option JNum) :
    ∀ kvs, comesBackMembers pf ff kvs = true → numbersFitMembers pf kvs = true
  | [], _ => rfl
  | (_, v) :: kvs, h => by
    simp only [comesBackMembers, Bool.and_eq_true] at h
    simp only [numbersFitMembers, Bool.and_eq_true]
    exact ⟨comesBack_fit pf ff v h.1, comesBackMembers_fit pf ff kvs h.2⟩
end

theorem mem_mapInsert {β : Type} (k : String) (v : β) :
    ∀ (m : List (String × β)) (p : String × β), p ∈ mapInsert k v m → p = (k, v) ∨ p ∈ m
  | [], p, h => by
    simp only [mapInsert, List.mem_singleton] at h
    exact Or.inl h
  | (k1, v1) :: r, p, h => by
    simp only [mapInsert] at h
    split at h
    · rcases List.mem_cons.1 h with h | h
      · exact Or.inl h
      · exact Or.inr h
    · split at h
      · rcases List.mem_cons.1 h with h | h
        · exact Or.inl h
        · exact Or.inr (List.mem_cons_of_mem _ h)
      · rcases List.mem_cons.1 h with h | h
        · exact Or.inr (h ▸ List.mem_cons_self _ _)
        · rcases mem_mapInsert k v r p h with h | h
          · exact Or.inl h
          · exact Or.inr (List.mem_cons_of_mem _ h)

theorem length_mapInsert {β : Type} (k : String) (v : β) :
    ∀ (m : List (String × β)), (∀ p ∈ m, p.1 ≠ k) → (mapInsert k v m).length = m.length + 1
  | [], _ => rfl
  | (k1, v1) :: r, h => by
    have hne : k ≠ k1 := fun heq => h (k1, v1) (List.mem_cons_self _ _) heq.symm
    simp only [mapInsert]
    split
    · rfl
    · simp only [hne, ↓reduceIte, List.length_cons]
      rw [length_mapInsert k v r (fun p hp => h p (List.mem_cons_of_mem _ hp))]

theorem nodup_mapInsert {β : Type} (k : String) (v : β) :
    ∀ (m : List (String × β)), (m.map (·.1)).Nodup → (∀ p ∈ m, p.1 ≠ k) →
      ((mapInsert k v m).map (·.1)).Nodup
  | [], _, _ => by simp [mapInsert]
  | (k1, v1) :: r, hnd, h => by
    have hne : k ≠ k1 := fun heq => h (k1, v1) (List.mem_cons_self _ _) heq.symm
    have hr : ∀ p ∈ r, p.1 ≠ k := fun p hp => h p (List.mem_cons_of_mem _ hp)
    simp only [mapInsert]
    split
    · rw [List.map_cons, List.nodup_cons]
      refine ⟨?_, hnd⟩
      intro hk
      obtain ⟨p, hp, hpk⟩ := List.mem_map.1 hk
      exact h p hp hpk
    · rw [List.map_cons, List.nodup_cons] at hnd ⊢
      refine ⟨?_, nodup_mapInsert k v r hnd.2 hr⟩
      intro hk
      obtain ⟨p, hp, hpk⟩ := List.mem_map.1 hk
      rcases mem_mapInsert k v r p hp with rfl | hp
      · exact hne hpk
      · exact hnd.1 (List.mem_map.2 ⟨p, hp, hpk⟩)

theorem encAnyMembers_mapInsert {F : Type} (ff : F → Option JNum) (k : String) (x : GoAny F)
    (w : JValue) (hx : encAny ff x = .ok w) :
    ∀ (m : List (String × GoAny F)) (ms : List (String × JValue)),
      encAnyMembers ff m = .ok ms → encAnyMembers ff (mapInsert k x m) = .ok (mapInsert k w ms)
  | [], ms, h => by
    simp only [encAnyMembers] at h
    cases h
    simp [mapInsert, encAnyMembers, hx]
  | (k1, x1) :: r, ms, h => by
    simp only [encAnyMembers] at h
    cases h1 : encAny ff x1 with
    | error e => simp [h1] at h
    | ok w1 =>
      cases h2 : encAnyMembers ff r with
      | error e => simp [h1, h2] at h
      | ok ms1 =>
        simp only [h1, h2] at h
        cases h
        simp only [mapInsert]
        split
        · simp [encAnyMembers, hx, h1, h2]
        · split
          · simp [encAnyMembers, hx, h2]
          · simp [encAnyMembers, h1, encAnyMembers_mapInsert ff k x w hx r ms1 h2]

theorem decAnyMembers_keys {F : Type} (pf : JNum → Option F) :
    ∀ (kvs : List (String × JValue)) (p : String × GoAny F),
      p ∈ (decAnyMembers pf kvs).1 → ∃ v, (p.1, v) ∈ kvs
  | [], p, h => by simp [decAnyMembers] at h
  | (k, v) :: kvs, p, h => by
    simp only [decAnyMembers] at h
    split at h
    · obtain ⟨v1, hv1⟩ := decAnyMembers_keys pf kvs p h
      exact ⟨v1, List.mem_cons_of_mem _ hv1⟩
    · rcases mem_mapInsert _ _ _ p h with h | h
      · exact ⟨v, by rw [h]; exact List.mem_cons_self _ _⟩
      · obtain ⟨v1, hv1⟩ := decAnyMembers_keys pf kvs p h
        exact ⟨v1, List.mem_cons_of_mem _ hv1⟩

theorem encAnyMembers_keys {F : Type} (ff : F → Option JNum) :
    ∀ (m : List (String × GoAny F)) (ms : List (String × JValue)),
      encAnyMembers ff m = .ok ms → ∀ p ∈ ms, ∃ x, (p.1, x) ∈ m
  | [], ms, h, p, hp => by
    simp only [encAnyMembers] at h
    cases h
    simp at hp
  | (k1, x1) :: r, ms, h, p, hp => by
    simp only [encAnyMembers] at h
    cases h1 : encAny ff x1 with
    | error e => simp [h1] at h
    | ok w1 =>
      cases h2 : encAnyMembers ff r with
      | error e => simp [h1, h2] at h
      | ok ms1 =>
        simp only [h1, h2] at h
        cases h
        rcases List.mem_cons.1 hp with hp | hp
        · exact ⟨x1, by rw [hp]; exact List.mem_cons_self _ _⟩
        · obtain ⟨x, hx⟩ := encAnyMembers_keys ff r ms1 h2 p hp
          exact ⟨x, List.mem_cons_of_mem _ hx⟩

theorem sameMembers_iff (ms kvs : List (String × JValue)) :
    sameMembers ms kvs = true ↔
      ∀ p ∈ ms, ∃ v, kvs.lookup p.1 = some v ∧ p.2.sameAs v = true := by
  induction ms with
  | nil => simp [sameMembers]
  | cons p ms ih =>
    obtain ⟨k, w⟩ := p
    simp only [sameMembers, Bool.and_eq_true, ih, List.mem_cons, forall_eq_or_imp]
    constructor
    · rintro ⟨h1, h2⟩
      refine ⟨?_, h2⟩
      cases hl : kvs.lookup k with
      | none => simp [hl] at h1
      | some v => exact ⟨v, rfl, by simpa [hl] using h1⟩
    · rintro ⟨⟨v, hl, hs⟩, h2⟩
      exact ⟨by simp [hl, hs], h2⟩

mutual
theorem comesBack_value {F : Type} (pf : JNum → Option F) (ff : F → Option JNum) :
    ∀ v, comesBack pf ff v = true →
      ∃ w, encAny ff (decAnyValue pf v).1 = .ok w ∧ w.sameAs v = true
  | .null, _ => ⟨.null, by simp [decAnyValue, encAny], by simp [JValue.sameAs]⟩
  | .bool b, _ => ⟨.bool b, by simp [decAnyValue, encAny], by simp [JValue.sameAs]⟩
  | .str s, _ => ⟨.str s, by simp [decAnyValue, encAny], by simp [JValue.sameAs]⟩
  | .num n, h => by
    simp only [comesBack] at h
    cases hp : pf n with
    | none => simp [hp] at h
    | some x =>
      have hx : ff x = some n := by simpa [hp] using h
      exact ⟨.num n, by simp [decAnyValue, encAny, hp, hx], by simp [JValue.sameAs]⟩
  | .arr xs, h => by
    simp only [comesBack] at h
    obtain ⟨ws, hws, hs⟩ := comesBack_list pf ff xs h
    exact ⟨.arr ws, by simp [decAnyValue, encAny, hws], by simpa [JValue.sameAs] using hs⟩
  | .obj kvs, h => by
    simp only [comesBack, Bool.and_eq_true, decide_eq_true_eq] at h
    obtain ⟨ms, hms, hlen, hnd, hs⟩ := comesBack_members pf ff kvs h.1 h.2
    exact ⟨.obj ms, by simp [decAnyValue, encAny, hms],
      by simp [JValue.sameAs, hlen, hnd, h.1, (sameMembers_iff ms kvs).2 hs]⟩
theorem comesBack_list {F : Type} (pf : JNum → Option F) (ff : F → Option JNum) :
    ∀ xs, comesBackList pf ff xs = true →
      ∃ ws, encAnyList ff (decAnyList pf xs).1 = .ok ws ∧ sameList ws xs = true
  | [], _ => ⟨[], by simp [decAnyList, encAnyList], by simp [sameList]⟩
  | x :: xs, h => by
    simp only [comesBackList, Bool.and_eq_true] at h
    obtain ⟨w, hw, hs⟩ := comesBack_value pf ff x h.1
    obtain ⟨ws, hws, hss⟩ := comesBack_list pf ff xs h.2
    exact ⟨w :: ws, by simp [decAnyList, encAnyList, hw, hws], by simp [sameList, hs, hss]⟩
theorem comesBack_members {F : Type} (pf : JNum → Option F) (ff : F → Option JNum) :
    ∀ kvs, (kvs.map (·.1)).Nodup → comesBackMembers pf ff kvs = true →
      ∃ ms, encAnyMembers ff (decAnyMembers pf kvs).1 = .ok ms ∧ ms.length = kvs.length
        ∧ (ms.map (·.1)).Nodup
        ∧ ∀ p ∈ ms, ∃ v, kvs.lookup p.1 = some v ∧ p.2.sameAs v = true
  | [], _, _ => ⟨[], by simp [decAnyMembers, encAnyMembers], rfl, by simp, by simp⟩
  | (k, v) :: kvs, hnd, h => by
    simp only [comesBackMembers, Bool.and_eq_true] at h
    rw [List.map_cons, List.nodup_cons] at hnd
    obtain ⟨w, hw, hs⟩ := comesBack_value pf ff v h.1
    obtain ⟨ms, hms, hlen, hmsnd, hall⟩ := comesBack_members pf ff kvs hnd.2 h.2
    have hnotin : ∀ p ∈ (decAnyMembers pf kvs).1, p.1 ≠ k := by
      intro p hp heq
      obtain ⟨v1, hv1⟩ := decAnyMembers_keys pf kvs p hp
      exact hnd.1 (heq ▸ List.mem_map_of_mem (·.1) hv1)
    have hany : ((decAnyMembers pf kvs).1.any (fun kv => kv.1 == k)) = false := by
      rw [Bool.eq_false_iff]
      intro hc
      simp only [List.any_eq_true, beq_iff_eq] at hc
      obtain ⟨p, hp, hpk⟩ := hc
      exact hnotin p hp hpk
    have hnotin2 : ∀ p ∈ ms, p.1 ≠ k := by
      intro p hp heq
      obtain ⟨x, hx⟩ := encAnyMembers_keys ff _ ms hms p hp
      exact hnotin (p.1, x) hx heq
    refine ⟨mapInsert k w ms, ?_, ?_, nodup_mapInsert k w ms hmsnd hnotin2, ?_⟩
    · simp only [decAnyMembers, hany, Bool.false_eq_true, ↓reduceIte]
      exact encAnyMembers_mapInsert ff k _ w hw _ ms hms
    · rw [length_mapInsert k w ms hnotin2, hlen, List.length_cons]
    · intro p hp
      rcases mem_mapInsert k w ms p hp with rfl | hp
      · exact ⟨v, by simp [List.lookup], hs⟩
      · obtain ⟨v1, hl, hs1⟩ := hall p hp
        have hne : (p.1 == k) = false := by simpa using hnotin2 p hp
        exact ⟨v1, by simp only [List.lookup, hne, hl], hs1⟩
end

theorem decAny_eq {F : Type} (pf : JNum → Option F) (v : JValue) (b : GoAny F)
    (h : numbersFit pf v = true) : decAny pf v b = decAnyValue pf v := by
  cases v <;> try rfl
  rename_i n
  simp only [numbersFit] at h
  cases hp : pf n with
  | none => simp [hp] at h
  | some x => simp [decAny, decAnyValue, hp]

theorem goAny_sound {F : Type} (pf : JNum → Option F) (ff : F → Option JNum) :
    (goAny pf ff).Sound := by
  intro exact v b hv
  have hfit : numbersFit pf v = true := by
    cases exact
    · simpa [goAny] using hv
    · exact comesBack_fit pf ff v (by simpa [goAny] using hv)
  show (decAny pf v b).2 = .ok
  rw [decAny_eq pf v b hfit]
  exact decAnyValue_ok pf v hfit

theorem goAny_roundTrips {F : Type} (pf : JNum → Option F) (ff : F → Option JNum) :
    (goAny pf ff).RoundTrips := by
  intro v b hv
  have hv : comesBack pf ff v = true := by simpa [goAny] using hv
  show ∃ w, encAny ff (decAny pf v b).1 = .ok w ∧ w.sameAs v = true
  rw [decAny_eq pf v b (comesBack_fit pf ff v hv)]
  exact comesBack_value pf ff v hv

/-! ## Fields built with `Field.of` -/

theorem Field.of_sound {α β : Type} (name : String) (get : α → β) (set : α → β → α)
    (ty : GoType β) (h : ty.Sound) : (Field.of name get set ty).Sound :=
  fun exact v a hv => h exact v (get a) hv

theorem Field.of_roundTrips {α β : Type} (name : String) (get : α → β) (set : α → β → α)
    (ty : GoType β) (h : ty.RoundTrips) (hgs : ∀ a b, get (set a b) = b) :
    (Field.of name get set ty).RoundTrips := by
  intro v a hv
  obtain ⟨w, hw, hsame⟩ := h v (get a) hv
  refine ⟨w, ?_, hsame⟩
  show ty.enc (get (set a (ty.dec v (get a)).1)) = .ok w
  rw [hgs]
  exact hw

/-! ## Decimal digits -/

theorem digitVal_digitChar (d : Nat) (h : d < 10) : digitVal (Nat.digitChar d) = some d := by
  interval_cases d <;> decide

theorem parseDigits_toDigitsCore : ∀ (fuel n : Nat) (acc : List Char), n < fuel →
    parseDigits (Nat.toDigitsCore 10 fuel n acc) 0 = parseDigits acc n
  | 0, _, _, h => by omega
  | fuel + 1, n, acc, h => by
    have hd : digitVal (Nat.digitChar (n % 10)) = some (n % 10) :=
      digitVal_digitChar _ (Nat.mod_lt _ (by decide))
    simp only [Nat.toDigitsCore]
    split
    · rename_i h0
      simp only [parseDigits, hd]
      congr 1
      omega
    · rename_i h0
      rw [parseDigits_toDigitsCore fuel (n / 10) _ (by omega)]
      simp only [parseDigits, hd]
      congr 1
      omega

theorem toDigitsCore_ne_nil : ∀ (fuel n : Nat) (acc : List Char), (0 < fuel ∨ acc ≠ []) →
    Nat.toDigitsCore 10 fuel n acc ≠ []
  | 0, _, acc, h => by
    rcases h with h | h
    · omega
    · simpa [Nat.toDigitsCore] using h
  | fuel + 1, n, acc, _ => by
    simp only [Nat.toDigitsCore]
    split
    · simp
    · exact toDigitsCore_ne_nil fuel _ _ (Or.inr (by simp))

/-- Reading back the decimal digits of a natural number gives the number. -/
theorem parseDecimal_repr (n : Nat) : parseDecimal (Nat.repr n).toList = some n := by
  have h1 : (Nat.repr n).toList = Nat.toDigitsCore 10 (n + 1) n [] := rfl
  have h2 := toDigitsCore_ne_nil (n + 1) n [] (Or.inl (by omega))
  have h3 := parseDigits_toDigitsCore (n + 1) n [] (by omega)
  rw [h1]
  unfold parseDecimal
  split
  · rename_i heq
    exact absurd heq h2
  · rw [h3]
    rfl

theorem parseDigits_all : ∀ (cs : List Char) (acc n : Nat), parseDigits cs acc = some n →
    cs.all (fun c => (digitVal c).isSome) = true
  | [], _, _, _ => rfl
  | c :: cs, acc, n, h => by
    simp only [parseDigits] at h
    cases hd : digitVal c with
    | none => simp [hd] at h
    | some d =>
      rw [hd] at h
      simp only [List.all_cons, hd, Option.isSome_some, Bool.true_and]
      exact parseDigits_all cs _ n h

theorem parseDecimal_digits (cs : List Char) (n : Nat) (h : parseDecimal cs = some n) :
    (!cs.isEmpty && cs.all (fun c => (digitVal c).isSome)) = true := by
  cases cs with
  | nil => simp [parseDecimal] at h
  | cons c cs =>
    simp only [parseDecimal] at h
    simpa using parseDigits_all (c :: cs) 0 n h

theorem signOf_digits (cs : List Char) (n : Nat) (h : parseDecimal cs = some n) :
    signOf cs = (false, cs) := by
  cases cs with
  | nil => rfl
  | cons c cs =>
    have hall := parseDecimal_digits (c :: cs) n h
    simp only [List.isEmpty_cons, Bool.not_false, List.all_cons, Bool.true_and,
      Bool.and_eq_true] at hall
    unfold signOf
    split
    · rename_i heq
      cases heq
      have : digitVal '-' = none := by decide
      simp [this] at hall
    · rename_i heq
      cases heq
      have : digitVal '+' = none := by decide
      simp [this] at hall
    · rfl

/-- A string that is not an optionally signed run of digits is not read as an
integer. -/
theorem parseInt64_not_digits (s : String) (h : isSignedDigits s = false) :
    parseInt64 s = none := by
  unfold parseInt64
  cases hp : parseDecimal (signOf s.toList).2 with
  | none => rfl
  | some n =>
    have := parseDecimal_digits _ n hp
    unfold isSignedDigits at h
    rw [this] at h
    cases h

/-- The decimal digits of a 64-bit integer are read back as that integer. -/
theorem parseInt64_decimalString (n : Int) (hlo : -(2 : Int) ^ 63 ≤ n) (hhi : n < 2 ^ 63) :
    parseInt64 (decimalString n) = some n := by
  unfold parseInt64 decimalString
  by_cases hn : n < 0
  · have hl : ("-" ++ Nat.repr n.natAbs).toList = '-' :: (Nat.repr n.natAbs).toList := by
      simp [String.toList]
    simp only [hn, ↓reduceIte, hl, signOf, parseDecimal_repr]
    have : n.natAbs ≤ 2 ^ 63 := by omega
    simp only [this, ↓reduceIte]
    congr 1
    omega
  · have hs := signOf_digits _ _ (parseDecimal_repr n.natAbs)
    simp only [hn, ↓reduceIte, hs, parseDecimal_repr]
    have : n.natAbs < 2 ^ 63 := by omega
    simp only [Bool.false_eq_true, ↓reduceIte, this]
    congr 1
    omega

/-- A plus sign before the digits of a non-negative 64-bit integer is accepted. -/
theorem parseInt64_plus (n : Int) (hlo : 0 ≤ n) (hhi : n < 2 ^ 63) :
    parseInt64 ("+" ++ decimalString n) = some n := by
  unfold parseInt64 decimalString
  have hn : ¬ n < 0 := by omega
  have hl : ("+" ++ Nat.repr n.natAbs).toList = '+' :: (Nat.repr n.natAbs).toList := by
    simp [String.toList]
  simp only [hn, ↓reduceIte, hl, signOf, parseDecimal_repr]
  have : n.natAbs < 2 ^ 63 := by omega
  simp only [Bool.false_eq_true, ↓reduceIte, this]
  congr 1
  omega

theorem parseInt64Lit_ofInt_self (n : Int) (hlo : -(2 : Int) ^ 63 ≤ n) (hhi : n < 2 ^ 63) :
    parseInt64Lit (JNum.ofInt n) = some n := by
  unfold parseInt64Lit JNum.ofInt
  by_cases hn : n < 0
  · have : n.natAbs ≤ 2 ^ 63 := by omega
    simp only [and_self, ↓reduceIte, hn, decide_True, this]
    congr 1
    omega
  · have : n.natAbs < 2 ^ 63 := by omega
    simp only [and_self, ↓reduceIte, hn, decide_False, Bool.false_eq_true, this]
    congr 1
    omega

/-! ## Slices: the element loop -/

theorem decodeElems_cons_ok {α : Type} (dec : Dec α) (zero : α) (x : JValue) (xs : List JValue)
    (backing : List α) (h : (dec x (backing.headD zero)).2 = .ok) :
    decodeElems dec zero (x :: xs) backing
      = ((dec x (backing.headD zero)).1 :: (decodeElems dec zero xs backing.tail).1,
         (decodeElems dec zero xs backing.tail).2.1,
         (decodeElems dec zero xs backing.tail).2.2) := by
  simp only [decodeElems, h, DecStatus.andThen]

theorem decodeElems_cons_status {α : Type} (dec : Dec α) (zero : α) (x : JValue)
    (xs : List JValue) (backing : List α) :
    (decodeElems dec zero (x :: xs) backing).2.2 = .ok ↔
      (dec x (backing.headD zero)).2 = .ok ∧ (decodeElems dec zero xs backing.tail).2.2 = .ok := by
  simp only [decodeElems]
  cases hs : (dec x (backing.headD zero)).2 with
  | ok => simp [DecStatus.andThen]
  | saved e =>
    simp only
    constructor
    · intro h
      have := (DecStatus.andThen_eq_ok).1 h
      simp at this
    · intro h
      simp at h
  | abort e => simp

/-- The element loop ends with status `ok` exactly when every entry is decoded
without error into the entry of the backing array at its index. -/
theorem decodeElems_ok_iff {α : Type} (dec : Dec α) (zero : α) :
    ∀ (xs : List JValue) (backing : List α),
      (decodeElems dec zero xs backing).2.2 = .ok ↔
        ∀ (i : Nat) (x : JValue), xs[i]? = some x → (dec x (backing.getD i zero)).2 = .ok
  | [], _ => by simp [decodeElems]
  | x :: xs, backing => by
    rw [decodeElems_cons_status, decodeElems_ok_iff dec zero xs backing.tail]
    constructor
    · rintro ⟨h0, hrest⟩ i y hy
      cases i with
      | zero =>
        simp only [List.getElem?_cons_zero, Option.some.injEq] at hy
        subst hy
        cases backing <;> simpa using h0
      | succ j =>
        simp only [List.getElem?_cons_succ] at hy
        have := hrest j y hy
        cases backing <;> simpa using this
    · intro h
      refine ⟨?_, ?_⟩
      · have := h 0 x (by simp)
        cases backing <;> simpa using this
      · intro j y hy
        have := h (j + 1) y (by simpa using hy)
        cases backing <;> simpa using this

/-- On success the i-th decoded entry is the i-th array entry decoded into the
i-th entry of the backing array (into the zero value behind its end), and the
rest of the backing array is left behind the decoded entries. -/
theorem decodeElems_values {α : Type} (dec : Dec α) (zero : α) :
    ∀ (xs : List JValue) (backing : List α),
      (decodeElems dec zero xs backing).2.2 = .ok →
      (∀ i : Nat, (decodeElems dec zero xs backing).1[i]?
          = xs[i]?.map (fun x => (dec x (backing.getD i zero)).1))
      ∧ (decodeElems dec zero xs backing).2.1 = backing.drop xs.length
  | [], _, _ => by simp [decodeElems]
  | x :: xs, backing, h => by
    obtain ⟨h0, hrest⟩ := (decodeElems_cons_status dec zero x xs backing).1 h
    obtain ⟨ih1, ih2⟩ := decodeElems_values dec zero xs backing.tail hrest
    rw [decodeElems_cons_ok dec zero x xs backing h0]
    refine ⟨?_, ?_⟩
    · intro i
      cases i with
      | zero => cases backing <;> simp
      | succ j =>
        simp only [List.getElem?_cons_succ]
        rw [ih1 j]
        cases backing <;> simp
    · simp only
      rw [ih2]
      cases backing <;> simp

theorem decodeElems_length {α : Type} (dec : Dec α) (zero : α) (xs : List JValue)
    (backing : List α) (h : (decodeElems dec zero xs backing).2.2 = .ok) :
    (decodeElems dec zero xs backing).1.length = xs.length := by
  have h1 := (decodeElems_values dec zero xs backing h).1
  apply Nat.le_antisymm
  · by_contra hlt
    have := h1 xs.length
    rw [List.getElem?_eq_getElem (by omega)] at this
    simp at this
  · by_contra hlt
    have hlt : (decodeElems dec zero xs backing).1.length < xs.length := by omega
    have := h1 (decodeElems dec zero xs backing).1.length
    rw [List.getElem?_eq_getElem hlt] at this
    simp at this

/-- On an empty backing array every entry is decoded into the zero value. -/
theorem decodeElems_fresh {α : Type} (dec : Dec α) (zero : α) :
    ∀ (xs : List JValue), (∀ x ∈ xs, (dec x zero).2 = .ok) →
      decodeElems dec zero xs [] = (xs.map (fun x => (dec x zero).1), [], .ok)
  | [], _ => rfl
  | x :: xs, h => by
    have h0 : (dec x (([] : List α).headD zero)).2 = .ok := h x (List.mem_cons_self _ _)
    rw [decodeElems_cons_ok dec zero x xs [] h0]
    simp only [List.tail_nil]
    rw [decodeElems_fresh dec zero xs (fun y hy => h y (List.mem_cons_of_mem _ hy))]
    rfl

theorem encodeElems_same {α : Type} (enc : α → Except JSONError JValue) (g : JValue → α) :
    ∀ (xs : List JValue), (∀ x ∈ xs, ∃ w, enc (g x) = .ok w ∧ w.sameAs x = true) →
      ∃ ws, encodeElems enc (xs.map g) = .ok ws ∧ sameList ws xs = true
  | [], _ => ⟨[], rfl, by simp [sameList]⟩
  | x :: xs, h => by
    obtain ⟨w, hw, hs⟩ := h x (List.mem_cons_self _ _)
    obtain ⟨ws, hws, hss⟩ := encodeElems_same enc g xs (fun y hy => h y (List.mem_cons_of_mem _ hy))
    exact ⟨w :: ws, by simp [encodeElems, hw, hws], by simp [sameList, hs, hss]⟩

/-! ## Failure does not depend on the value decoded into -/

theorem decString_statusFree : StatusFree decString := by
  intro v a b
  cases v <;> rfl

theorem decBool_statusFree : StatusFree decBool := by
  intro v a b
  cases v <;> rfl

theorem decUint_statusFree (bits : Nat) (goType : String) : StatusFree (decUint bits goType) := by
  intro v a b
  cases v <;> try rfl
  rename_i n
  simp only [decUint]
  cases parseUint bits n <;> rfl

theorem decJsonInt64_statusFree : StatusFree decJsonInt64 := by
  intro v a b
  simp only [decJsonInt64]
  cases jsonInt64.UnmarshalJSON v <;> rfl

theorem decAny_statusFree {F : Type} (pf : JNum → Option F) : StatusFree (decAny pf) := by
  intro v a b
  cases v <;> try rfl
  rename_i n
  simp only [decAny]
  cases pf n <;> rfl

theorem decodeFields_statusFree {α : Type} (fields : List (Field α))
    (h : ∀ f ∈ fields, StatusFree f.dec) :
    ∀ (kvs : List (String × JValue)) (a b : α),
      (decodeFields fields kvs a).2 = (decodeFields fields kvs b).2
  | [], _, _ => rfl
  | (k, v) :: rest, a, b => by
    cases hf : findField fields k with
    | none =>
      rw [decodeFields_cons_none v rest a hf, decodeFields_cons_none v rest b hf]
      exact decodeFields_statusFree fields h rest a b
    | some f =>
      have hmem : f ∈ fields := by
        unfold findField at hf
        split at hf
        · rename_i g hg
          cases hf
          exact List.mem_of_find?_eq_some hg
        · exact List.mem_of_find?_eq_some hf
      have hs := h f hmem v a b
      have ih := decodeFields_statusFree fields h rest (f.dec v a).1 (f.dec v b).1
      simp only [decodeFields, hf]
      rw [← hs]
      cases (f.dec v a).2 with
      | abort e => rfl
      | ok => simp only [ih]
      | saved e => simp only [ih]

theorem decodeStruct_statusFree {α : Type} (goType : String) (fields : List (Field α))
    (h : ∀ f ∈ fields, StatusFree f.dec) : StatusFree (goStruct goType fields).dec := by
  intro v a b
  cases v <;> try rfl
  exact decodeFields_statusFree fields h _ a b

theorem Field.of_statusFree {α β : Type} (name : String) (get : α → β) (set : α → β → α)
    (ty : GoType β) (h : StatusFree ty.dec) : StatusFree (Field.of name get set ty).dec :=
  fun v a b => h v (get a) (get b)

/-! ## Slices: `json.Unmarshal` -/

theorem decodeSlice_arr_status {α : Type} (goType : String) (dec : Dec α) (zero : α)
    (xs : List JValue) (cur : GoSlice α) :
    (decodeSlice goType dec zero (.arr xs) cur).2 = (decodeElems dec zero xs cur.backing).2.2 := by
  cases xs with
  | nil => rfl
  | cons x xs =>
    simp only [decodeSlice]
    split
    · rename_i done rest e heq
      rw [heq]
    · rename_i done rest st _ heq
      rw [heq]

theorem decodeSlice_arr_ok {α : Type} (goType : String) (dec : Dec α) (zero : α)
    (xs : List JValue) (cur : GoSlice α)
    (h : (decodeElems dec zero xs cur.backing).2.2 = .ok) :
    (decodeSlice goType dec zero (.arr xs) cur).1.isNil = false
    ∧ (decodeSlice goType dec zero (.arr xs) cur).1.toList
        = (decodeElems dec zero xs cur.backing).1 := by
  cases xs with
  | nil => exact ⟨rfl, rfl⟩
  | cons x xs =>
    simp only [decodeSlice]
    split
    · rename_i done rest e heq
      rw [heq] at h
      cases h
    · rename_i done rest st _ heq
      rw [heq]
      exact ⟨rfl, rfl⟩

/-- `json.Unmarshal` into a slice returns nil exactly for the payload `null` and
for an array each of whose entries is, by itself, decoded without error. -/
theorem unmarshalSlice_none_iff {α : Type} (goType : String) (dec : Dec α) (zero : α)
    (hfree : StatusFree dec) (data : Payload) (cur : GoSlice α) :
    (unmarshalSlice goType dec zero data cur).2 = none ↔
      data = .valid .null ∨ ∃ xs, data = .valid (.arr xs) ∧ ∀ x ∈ xs, (dec x zero).2 = .ok := by
  cases data with
  | invalid => simp [unmarshalSlice]
  | valid v =>
    simp only [unmarshalSlice, DecStatus.err_eq_none]
    cases v with
    | null => simp [decodeSlice]
    | bool b => simp [decodeSlice]
    | num n => simp [decodeSlice]
    | str s => simp [decodeSlice]
    | obj kvs => simp [decodeSlice]
    | arr xs =>
      rw [decodeSlice_arr_status, decodeElems_ok_iff]
      simp only [Payload.valid.injEq, JValue.arr.injEq, exists_eq_left', false_or, reduceCtorEq]
      constructor
      · intro h x hx
        obtain ⟨i, hi, rfl⟩ := List.getElem_of_mem hx
        have := h i xs[i] (List.getElem?_eq_getElem hi)
        rw [hfree _ _ zero] at this
        exact this
      · intro h i x hx
        rw [hfree _ _ zero]
        exact h x (List.getElem?_mem hx)

/-- On success with an array the slice is not nil and its i-th element is the
i-th entry decoded into what the backing array held at index i. -/
theorem unmarshalSlice_arr_values {α : Type} (goType : String) (dec : Dec α) (zero : α)
    (xs : List JValue) (cur : GoSlice α)
    (h : (unmarshalSlice goType dec zero (.valid (.arr xs)) cur).2 = none) :
    (unmarshalSlice goType dec zero (.valid (.arr xs)) cur).1.isNil = false
    ∧ (unmarshalSlice goType dec zero (.valid (.arr xs)) cur).1.toList.length = xs.length
    ∧ ∀ i : Nat, (unmarshalSlice goType dec zero (.valid (.arr xs)) cur).1.toList[i]?
        = xs[i]?.map (fun x => (dec x (cur.backing.getD i zero)).1) := by
  simp only [unmarshalSlice, DecStatus.err_eq_none] at h ⊢
  rw [decodeSlice_arr_status] at h
  obtain ⟨h1, h2⟩ := decodeSlice_arr_ok goType dec zero xs cur h
  rw [h2]
  exact ⟨h1, decodeElems_length dec zero xs cur.backing h,
    (decodeElems_values dec zero xs cur.backing h).1⟩

/-- For an array or `null`, a slice whose backing array is empty (nil, or
`make([]T, 0)`) ends like the nil slice. -/
theorem unmarshalSlice_fresh {α : Type} (goType : String) (dec : Dec α) (zero : α)
    (v : JValue) (hv : v = .null ∨ ∃ xs, v = .arr xs) (cur : GoSlice α)
    (hcur : cur.backing = []) :
    unmarshalSlice goType dec zero (.valid v) cur
      = unmarshalSlice goType dec zero (.valid v) .nil := by
  have hlen : cur.toList.length = 0 := by
    cases cur with
    | nil => rfl
    | mk elems spare =>
      simp only [GoSlice.backing, List.append_eq_nil] at hcur
      simp [GoSlice.toList, hcur.1]
  rcases hv with rfl | ⟨xs, rfl⟩
  · rfl
  · cases xs with
    | nil => rfl
    | cons x xs =>
      simp only [unmarshalSlice, decodeSlice, hcur, hlen]
      rfl

theorem findField_mem {α : Type} {fields : List (Field α)} {k : String} {f : Field α}
    (hf : findField fields k = some f) : f ∈ fields := by
  unfold findField at hf
  split at hf
  · rename_i g hg
    cases hf
    exact List.mem_of_find?_eq_some hg
  · exact List.mem_of_find?_eq_some hf

/-- An object with a member whose key selects a field and whose value that
field cannot decode is not decoded without error. -/
theorem decodeStruct_bad_member {α : Type} (goType : String) (fields : List (Field α))
    (kvs : List (String × JValue)) (k : String) (v : JValue) (f : Field α)
    (hmem : (k, v) ∈ kvs) (hf : findField fields k = some f)
    (hbad : ∀ a, (f.dec v a).2 ≠ .ok) (cur : α) :
    ((goStruct goType fields).dec (.obj kvs) cur).2 ≠ .ok := by
  intro h
  obtain ⟨a, ha⟩ := decodeFields_ok_forall fields kvs cur h (k, v) hmem f hf
  exact hbad a ha

/-! ## Structs: the value a field ends with -/

theorem lookup_none_ne {β : Type} : ∀ (kvs : List (String × β)) (k : String),
    kvs.lookup k = none → ∀ kv ∈ kvs, kv.1 ≠ k
  | [], _, _ => by simp
  | (k1, v1) :: rest, k, h => by
    simp only [List.lookup] at h
    cases hk : (k == k1) with
    | true => simp [hk] at h
    | false =>
      rw [hk] at h
      intro kv hkv
      rcases List.mem_cons.1 hkv with rfl | hmem
      · intro heq
        simp only at heq
        subst heq
        simp at hk
      · exact lookup_none_ne rest k h kv hmem

theorem lookup_some_mem {β : Type} : ∀ (kvs : List (String × β)) (k : String) (v : β),
    kvs.lookup k = some v → (k, v) ∈ kvs
  | [], _, _, h => by simp at h
  | (k1, v1) :: rest, k, v, h => by
    simp only [List.lookup] at h
    cases hk : (k == k1) with
    | true =>
      rw [hk] at h
      have hkk : k = k1 := by simpa using hk
      cases h
      subst hkk
      exact List.mem_cons_self _ _
    | false =>
      rw [hk] at h
      exact List.mem_cons_of_mem _ (lookup_some_mem rest k v h)

/-- In a well-formed object, what one sees of a field after decoding: when the
key is absent the field is as before; when the key holds `v`, the value is
well-formed for the field and the field is as after decoding `v` into it. -/
theorem decodeFields_field {α γ : Type} (fields : List (Field α)) (exact : Bool)
    (kvs : List (String × JValue)) (hshape : objectShape fields exact (.obj kvs) = true)
    (hs : ∀ f ∈ fields, f.Sound) (obs : α → γ) (nm : String) (f0 : Field α)
    (hf0 : fields.find? (fun g => g.name == nm) = some f0)
    (hind : ∀ f ∈ fields, f.name ≠ nm → ∀ v a, obs (f.dec v a).1 = obs a) (cur : α) :
    (kvs.lookup nm = none → obs (decodeFields fields kvs cur).1 = obs cur)
    ∧ (∀ v, kvs.lookup nm = some v →
        f0.shape exact v = true ∧ ∃ a, obs (decodeFields fields kvs cur).1 = obs (f0.dec v a).1) := by
  obtain ⟨hkeys, _, _⟩ := objectShape_obj hshape
  have hsel : ∀ kv ∈ kvs, ∀ f, findField fields kv.1 = some f →
      f ∈ fields ∧ f.name = kv.1 ∧ f.shape exact kv.2 = true := by
    intro kv hkv f hf
    obtain ⟨_, hmem, hname, hsh⟩ := objectShape_select hshape kv hkv f hf
    exact ⟨hmem, hname, hsh⟩
  refine ⟨?_, ?_⟩
  · intro hnone
    apply decodeFields_obs_absent
    intro kv hkv f hf a
    obtain ⟨hmem, hname, _⟩ := hsel kv hkv f hf
    exact hind f hmem (by rw [hname]; exact lookup_none_ne kvs nm hnone kv hkv) kv.2 a
  · intro v hv
    have hmem := lookup_some_mem kvs nm v hv
    have hshape0 : f0.shape exact v = true :=
      (hsel (nm, v) hmem f0 (findField_of_find hf0)).2.2
    refine ⟨hshape0, ?_⟩
    exact decodeFields_obs_present obs fields nm v f0
      (fun r => ∃ a, r = obs (f0.dec v a).1) (findField_of_find hf0) (fun a => ⟨a, rfl⟩)
      kvs cur hmem (value_unique_of_nodup hkeys hmem)
      (fun kv hkv f hf b => hs f (hsel kv hkv f hf).1 exact kv.2 b (hsel kv hkv f hf).2.2)
      (fun kv hkv hne f hf b =>
        hind f (hsel kv hkv f hf).1 (by rw [(hsel kv hkv f hf).2.1]; exact hne) kv.2 b)

/-- A `string` field of a well-formed object ends with the string its key
holds, and is as before when the key is absent. -/
theorem decodeFields_string {α : Type} (fields : List (Field α)) (exact : Bool)
    (kvs : List (String × JValue)) (hshape : objectShape fields exact (.obj kvs) = true)
    (hs : ∀ f ∈ fields, f.Sound) (get : α → String) (set : α → String → α) (nm : String)
    (hf0 : fields.find? (fun g => g.name == nm) = some (Field.of nm get set goString))
    (hgs : ∀ a b, get (set a b) = b)
    (hind : ∀ f ∈ fields, f.name ≠ nm → ∀ v a, get (f.dec v a).1 = get a) (cur : α)
    (hcur : get cur = "") :
    get (decodeFields fields kvs cur).1 = (JValue.obj kvs).strAt nm := by
  obtain ⟨h1, h2⟩ := decodeFields_field fields exact kvs hshape hs get nm _ hf0 hind cur
  show _ = (match kvs.lookup nm with | some (.str s) => s | _ => "")
  cases hl : kvs.lookup nm with
  | none => rw [h1 hl, hcur]
  | some v =>
    obtain ⟨hsh, a, ha⟩ := h2 v hl
    cases v <;> simp [Field.of, goString, JValue.isStr] at hsh
    rw [ha]
    exact hgs _ _

/-- A `bool` field of a well-formed object ends with the boolean its key
holds, and is as before when the key is absent. -/
theorem decodeFields_bool {α : Type} (fields : List (Field α)) (exact : Bool)
    (kvs : List (String × JValue)) (hshape : objectShape fields exact (.obj kvs) = true)
    (hs : ∀ f ∈ fields, f.Sound) (get : α → Bool) (set : α → Bool → α) (nm : String)
    (hf0 : fields.find? (fun g => g.name == nm) = some (Field.of nm get set goBool))
    (hgs : ∀ a b, get (set a b) = b)
    (hind : ∀ f ∈ fields, f.name ≠ nm → ∀ v a, get (f.dec v a).1 = get a) (cur : α)
    (hcur : get cur = false) :
    get (decodeFields fields kvs cur).1 = (JValue.obj kvs).boolAt nm := by
  obtain ⟨h1, h2⟩ := decodeFields_field fields exact kvs hshape hs get nm _ hf0 hind cur
  show _ = (match kvs.lookup nm with | some (.bool b) => b | _ => false)
  cases hl : kvs.lookup nm with
  | none => rw [h1 hl, hcur]
  | some v =>
    obtain ⟨hsh, a, ha⟩ := h2 v hl
    cases v <;> simp [Field.of, goBool, JValue.isBool] at hsh
    rw [ha]
    exact hgs _ _

/-! ## Equality of documents is symmetric -/

theorem keys_subset_of_sameMembers {ms kvs : List (String × JValue)}
    (h : sameMembers ms kvs = true) : ms.map (·.1) ⊆ kvs.map (·.1) := by
  intro k hk
  obtain ⟨p, hp, rfl⟩ := List.mem_map.1 hk
  obtain ⟨v, hl, _⟩ := (sameMembers_iff ms kvs).1 h p hp
  exact List.mem_map.2 ⟨(p.1, v), lookup_some_mem kvs p.1 v hl, rfl⟩

/-- Two objects with distinct keys and as many members, all members of the
first found in the second, have the same keys. -/
theorem keys_perm_of_sameMembers {ms kvs : List (String × JValue)}
    (h1 : (ms.map (·.1)).Nodup) (hlen : ms.length = kvs.length)
    (h : sameMembers ms kvs = true) : (ms.map (·.1)).Perm (kvs.map (·.1)) := by
  apply (List.subperm_of_subset h1 (keys_subset_of_sameMembers h)).perm_of_length_le
  simp [hlen]

mutual
theorem JValue.sameAs_symm : ∀ (v w : JValue), v.sameAs w = true → w.sameAs v = true
  | .null, w, h => by cases w <;> simp_all [JValue.sameAs]
  | .bool a, w, h => by
    cases w <;> simp_all [JValue.sameAs]
  | .num a, w, h => by
    cases w <;> simp_all [JValue.sameAs]
  | .str a, w, h => by
    cases w <;> simp_all [JValue.sameAs]
  | .arr xs, w, h => by
    cases w <;> simp only [JValue.sameAs, Bool.false_eq_true] at h
    simp only [JValue.sameAs]
    exact sameList_symm xs _ h
  | .obj kvs, w, h => by
    cases w <;> simp only [JValue.sameAs, Bool.false_eq_true] at h
    rename_i kvs2
    simp only [Bool.and_eq_true, decide_eq_true_eq, beq_iff_eq] at h
    obtain ⟨⟨⟨h1, h2⟩, hlen⟩, hm⟩ := h
    have hperm := keys_perm_of_sameMembers h1 hlen hm
    have hfw := (sameMembers_iff kvs kvs2).1 hm
    simp only [JValue.sameAs, Bool.and_eq_true, decide_eq_true_eq, beq_iff_eq]
    refine ⟨⟨⟨h2, h1⟩, hlen.symm⟩, (sameMembers_iff kvs2 kvs).2 ?_⟩
    intro p hp
    have hk : p.1 ∈ kvs.map (·.1) := hperm.symm.subset (List.mem_map_of_mem (·.1) hp)
    obtain ⟨q, hq, hqk⟩ := List.mem_map.1 hk
    obtain ⟨v2, hl2, hs⟩ := hfw q hq
    have hl2b : kvs2.lookup q.1 = some p.2 := by
      rw [hqk]
      exact lookup_of_mem_nodup kvs2 p.1 p.2 h2 hp
    rw [hl2] at hl2b
    cases hl2b
    refine ⟨q.2, ?_, sameMembers_symm kvs q hq p.2 hs⟩
    rw [← hqk]
    exact lookup_of_mem_nodup kvs q.1 q.2 h1 hq
theorem sameList_symm : ∀ (xs ys : List JValue), sameList xs ys = true → sameList ys xs = true
  | [], ys, h => by cases ys <;> simp_all [sameList]
  | x :: xs, ys, h => by
    cases ys with
    | nil => simp [sameList] at h
    | cons y ys =>
      simp only [sameList, Bool.and_eq_true] at h ⊢
      exact ⟨JValue.sameAs_symm x y h.1, sameList_symm xs ys h.2⟩
theorem sameMembers_symm : ∀ (kvs : List (String × JValue)), ∀ q ∈ kvs, ∀ (w : JValue),
    q.2.sameAs w = true → w.sameAs q.2 = true
  | [], q, hq, _, _ => by simp at hq
  | (k, v) :: r, q, hq, w, h => by
    rcases List.mem_cons.1 hq with rfl | hq
    · exact JValue.sameAs_symm v w h
    · exact sameMembers_symm r q hq w h
end

/-! ## The documents a type takes -/

theorem goString_decides : goString.Decides := by
  intro v b
  cases v <;> simp [goString, decString, JValue.isStr, JValue.isNull]

theorem goBool_decides : goBool.Decides := by
  intro v b
  cases v <;> simp [goBool, decBool, JValue.isBool, JValue.isNull]

theorem goUint_decides (bits : Nat) (goType : String) : (goUint bits goType).Decides := by
  intro v b
  cases v <;> simp [goUint, decUint, JValue.isUint, JValue.isNull]
  rename_i n
  cases hp : parseUint bits n <;> simp

theorem goJsonInt64_decides : goJsonInt64.Decides := by
  intro v b
  cases v <;> simp [goJsonInt64, decJsonInt64, jsonInt64.UnmarshalJSON]
  · rename_i n
    cases hp : parseInt64Lit n <;> simp
  · rename_i s
    cases hp : parseInt64 s <;> simp

mutual
theorem decAnyValue_fit {F : Type} (pf : JNum → Option F) :
    ∀ v, (decAnyValue pf v).2 = .ok → numbersFit pf v = true
  | .null, _ => rfl
  | .bool _, _ => rfl
  | .str _, _ => rfl
  | .num n, h => by
    simp only [decAnyValue] at h
    simp only [numbersFit]
    cases hp : pf n with
    | none => simp [hp] at h
    | some x => rfl
  | .arr xs, h => by
    simp only [decAnyValue] at h
    simp only [numbersFit]
    exact decAnyList_fit pf xs h
  | .obj kvs, h => by
    simp only [decAnyValue] at h
    simp only [numbersFit]
    exact decAnyMembers_fit pf kvs h
theorem decAnyList_fit {F : Type} (pf : JNum → Option F) :
    ∀ xs, (decAnyList pf xs).2 = .ok → numbersFitList pf xs = true
  | [], _ => rfl
  | x :: xs, h => by
    simp only [decAnyList] at h
    obtain ⟨h1, h2⟩ := (DecStatus.andThen_eq_ok).1 h
    simp only [numbersFitList, Bool.and_eq_true]
    exact ⟨decAnyValue_fit pf x h1, decAnyList_fit pf xs h2⟩
theorem decAnyMembers_fit {F : Type} (pf : JNum → Option F) :
    ∀ kvs, (decAnyMembers pf kvs).2 = .ok → numbersFitMembers pf kvs = true
  | [], _ => rfl
  | (_, v) :: kvs, h => by
    simp only [decAnyMembers] at h
    obtain ⟨h1, h2⟩ := (DecStatus.andThen_eq_ok).1 h
    simp only [numbersFitMembers, Bool.and_eq_true]
    exact ⟨decAnyValue_fit pf v h1, decAnyMembers_fit pf kvs h2⟩
end

theorem goAny_decides {F : Type} (pf : JNum → Option F) (ff : F → Option JNum) :
    (goAny pf ff).Decides := by
  intro v b
  show (decAny pf v b).2 = .ok ↔ numbersFit pf v = true
  constructor
  · intro h
    cases v with
    | num n =>
      simp only [decAny] at h
      simp only [numbersFit]
      cases hp : pf n with
      | none => simp [hp] at h
      | some x => rfl
    | null => rfl
    | bool _ => rfl
    | str _ => rfl
    | arr xs => exact decAnyValue_fit pf _ h
    | obj kvs => exact decAnyValue_fit pf _ h
  · intro h
    rw [decAny_eq pf v b h]
    exact decAnyValue_ok pf v h

theorem Field.of_decides {α β : Type} (name : String) (get : α → β) (set : α → β → α)
    (ty : GoType β) (h : ty.Decides) : (Field.of name get set ty).Decides :=
  fun v a => h v (get a)

/-- A struct takes exactly the documents it decodes without error when each of
its fields does. -/
theorem goStruct_decides {α : Type} (goType : String) (fields : List (Field α))
    (hd : ∀ f ∈ fields, f.Decides) : (goStruct goType fields).Decides := by
  intro v a
  cases v with
  | null => simp [goStruct, decodeStruct, objectAccepts]
  | bool _ => simp [goStruct, decodeStruct, objectAccepts]
  | num _ => simp [goStruct, decodeStruct, objectAccepts]
  | str _ => simp [goStruct, decodeStruct, objectAccepts]
  | arr _ => simp [goStruct, decodeStruct, objectAccepts]
  | obj kvs =>
    show (decodeFields fields kvs a).2 = .ok ↔ objectAccepts fields (.obj kvs) = true
    simp only [objectAccepts, List.all_eq_true]
    constructor
    · intro h kv hkv
      cases hf : findField fields kv.1 with
      | none => rfl
      | some f =>
        obtain ⟨b, hb⟩ := decodeFields_ok_forall fields kvs a h kv hkv f hf
        exact (hd f (findField_mem hf) kv.2 b).1 hb
    · intro h
      apply decodeFields_ok_of_forall
      intro kv hkv f hf b
      have := h kv hkv
      rw [hf] at this
      exact (hd f (findField_mem hf) kv.2 b).2 this

/-- `json.Unmarshal` into a slice of a type that takes exactly what it decodes
without error returns nil exactly for `null` and for an array of documents the
type takes. -/
theorem unmarshalSlice_none_iff_accepts {α : Type} (goType : String) (ty : GoType α) (zero : α)
    (hd : ty.Decides) (data : Payload) (cur : GoSlice α) :
    (unmarshalSlice goType ty.dec zero data cur).2 = none ↔
      data = .valid .null ∨ ∃ xs, data = .valid (.arr xs) ∧ ∀ x ∈ xs, ty.accepts x = true := by
  cases data with
  | invalid => simp [unmarshalSlice]
  | valid v =>
    simp only [unmarshalSlice, DecStatus.err_eq_none]
    cases v with
    | null => simp [decodeSlice]
    | bool b => simp [decodeSlice]
    | num n => simp [decodeSlice]
    | str s => simp [decodeSlice]
    | obj kvs => simp [decodeSlice]
    | arr xs =>
      rw [decodeSlice_arr_status, decodeElems_ok_iff]
      simp only [Payload.valid.injEq, JValue.arr.injEq, exists_eq_left', false_or, reduceCtorEq]
      constructor
      · intro h x hx
        obtain ⟨i, hi, rfl⟩ := List.getElem_of_mem hx
        exact (hd _ _).1 (h i xs[i] (List.getElem?_eq_getElem hi))
      · intro h i x hx
        exact (hd _ _).2 (h x (List.getElem?_mem hx))

/-! ## Structs: the value a field ends with, as a function of its prior value -/

/-- In an object with distinct keys, a view of the struct after the member
loop, for a key that is present: it is what decoding the value of the key
makes of the view before the loop, when the other members do not touch the
view and no member fails. -/
theorem decodeFields_obs_at {α γ : Type} (obs : α → γ) (fields : List (Field α))
    (nm : String) (v : JValue) (f0 : Field α) (g : γ → γ)
    (hsel : findField fields nm = some f0) (hg : ∀ a, obs (f0.dec v a).1 = g (obs a)) :
    ∀ (kvs : List (String × JValue)) (cur : α),
      (nm, v) ∈ kvs →
      (kvs.map (·.1)).Nodup →
      (∀ kv ∈ kvs, ∀ f, findField fields kv.1 = some f → ∀ a, (f.dec kv.2 a).2 = .ok) →
      (∀ kv ∈ kvs, kv.1 ≠ nm → ∀ f, findField fields kv.1 = some f →
        ∀ a, obs (f.dec kv.2 a).1 = obs a) →
      obs (decodeFields fields kvs cur).1 = g (obs cur)
  | [], _, hmem, _, _, _ => by simp at hmem
  | (k, v1) :: rest, cur, hmem, hnd, hok, hother => by
    rw [List.map_cons, List.nodup_cons] at hnd
    have hok1 : ∀ kv ∈ rest, ∀ f, findField fields kv.1 = some f → ∀ a, (f.dec kv.2 a).2 = .ok :=
      fun kv hkv => hok kv (List.mem_cons_of_mem _ hkv)
    have hother1 : ∀ kv ∈ rest, kv.1 ≠ nm → ∀ f, findField fields kv.1 = some f →
        ∀ a, obs (f.dec kv.2 a).1 = obs a :=
      fun kv hkv => hother kv (List.mem_cons_of_mem _ hkv)
    by_cases hk : k = nm
    · subst hk
      have hne : ∀ kv ∈ rest, kv.1 ≠ k :=
        fun kv hkv heq => hnd.1 (heq ▸ List.mem_map_of_mem (·.1) hkv)
      have hv : v1 = v := by
        rcases List.mem_cons.1 hmem with h | h
        · exact (congrArg Prod.snd h).symm
        · exact absurd rfl (hne _ h)
      subst hv
      rw [decodeFields_cons_ok v1 rest cur hsel (hok (k, v1) (List.mem_cons_self _ _) f0 hsel cur)]
      rw [decodeFields_obs_absent obs fields rest _
        (fun kv hkv f hf a => hother1 kv hkv (hne kv hkv) f hf a)]
      exact hg cur
    · have hin : (nm, v) ∈ rest := by
        rcases List.mem_cons.1 hmem with h | h
        · exact absurd (congrArg Prod.fst h).symm hk
        · exact h
      cases hf : findField fields k with
      | none =>
        rw [decodeFields_cons_none v1 rest cur hf]
        exact decodeFields_obs_at obs fields nm v f0 g hsel hg rest _ hin hnd.2 hok1 hother1
      | some f =>
        rw [decodeFields_cons_ok v1 rest cur hf (hok (k, v1) (List.mem_cons_self _ _) f hf cur)]
        rw [decodeFields_obs_at obs fields nm v f0 g hsel hg rest _ hin hnd.2 hok1 hother1]
        rw [hother (k, v1) (List.mem_cons_self _ _) hk f hf cur]

/-- In a well-formed object, the value under the name of a field is well-formed
for the field. -/
theorem objectShape_lookup {α : Type} {fields : List (Field α)} {exact : Bool}
    {kvs : List (String × JValue)} (h : objectShape fields exact (.obj kvs) = true)
    {nm : String} {f0 : Field α} (hf0 : fields.find? (fun g => g.name == nm) = some f0)
    {v : JValue} (hl : kvs.lookup nm = some v) : f0.shape exact v = true :=
  (objectShape_select h (nm, v) (lookup_some_mem kvs nm v hl) f0 (findField_of_find hf0)).2.2.2

/-- In a well-formed object, a field after the member loop: as before when its
key is absent, and the value under its key decoded into the field as it was
when the key is present. -/
theorem decodeFields_get {α β : Type} (fields : List (Field α)) (exact : Bool)
    (kvs : List (String × JValue)) (hshape : objectShape fields exact (.obj kvs) = true)
    (hs : ∀ f ∈ fields, f.Sound) (get : α → β) (set : α → β → α) (nm : String) (ty : GoType β)
    (hf0 : fields.find? (fun g => g.name == nm) = some (Field.of nm get set ty))
    (hgs : ∀ a b, get (set a b) = b)
    (hind : ∀ f ∈ fields, f.name ≠ nm → ∀ v a, get (f.dec v a).1 = get a) (cur : α) :
    (kvs.lookup nm = none → get (decodeFields fields kvs cur).1 = get cur)
    ∧ (∀ v, kvs.lookup nm = some v →
        ty.shape exact v = true
        ∧ get (decodeFields fields kvs cur).1 = (ty.dec v (get cur)).1) := by
  obtain ⟨hkeys, _, _⟩ := objectShape_obj hshape
  have hsel : ∀ kv ∈ kvs, ∀ f, findField fields kv.1 = some f →
      f ∈ fields ∧ f.name = kv.1 ∧ f.shape exact kv.2 = true := by
    intro kv hkv f hf
    obtain ⟨_, hmem, hname, hsh⟩ := objectShape_select hshape kv hkv f hf
    exact ⟨hmem, hname, hsh⟩
  refine ⟨(decodeFields_field fields exact kvs hshape hs get nm _ hf0 hind cur).1, ?_⟩
  intro v hv
  refine ⟨objectShape_lookup hshape hf0 hv, ?_⟩
  exact decodeFields_obs_at get fields nm v _ (fun b => (ty.dec v b).1) (findField_of_find hf0)
    (fun a => hgs _ _) kvs cur (lookup_some_mem kvs nm v hv) hkeys
    (fun kv hkv f hf b => hs f (hsel kv hkv f hf).1 exact kv.2 b (hsel kv hkv f hf).2.2)
    (fun kv hkv hne f hf b =>
      hind f (hsel kv hkv f hf).1 (by rw [(hsel kv hkv f hf).2.1]; exact hne) kv.2 b)

/-- A `string` field after a well-formed object was decoded into a struct. -/
theorem decodeFields_get_str {α : Type} (fields : List (Field α)) (exact : Bool)
    (kvs : List (String × JValue)) (hshape : objectShape fields exact (.obj kvs) = true)
    (hs : ∀ f ∈ fields, f.Sound) (get : α → String) (set : α → String → α) (nm : String)
    (hf0 : fields.find? (fun g => g.name == nm) = some (Field.of nm get set goString))
    (hgs : ∀ a b, get (set a b) = b)
    (hind : ∀ f ∈ fields, f.name ≠ nm → ∀ v a, get (f.dec v a).1 = get a) (cur : α) :
    get (decodeFields fields kvs cur).1 = (JValue.obj kvs).strOr nm (get cur) := by
  obtain ⟨h1, h2⟩ := decodeFields_get fields exact kvs hshape hs get set nm _ hf0 hgs hind cur
  show _ = (match kvs.lookup nm with | some (.str s) => s | _ => get cur)
  cases hl : kvs.lookup nm with
  | none => rw [h1 hl]
  | some v =>
    obtain ⟨hsh, hv⟩ := h2 v hl
    rw [hv]
    cases v <;> simp [goString, JValue.isStr] at hsh
    rfl

/-- A `bool` field after a well-formed object was decoded into a struct. -/
theorem decodeFields_get_bool {α : Type} (fields : List (Field α)) (exact : Bool)
    (kvs : List (String × JValue)) (hshape : objectShape fields exact (.obj kvs) = true)
    (hs : ∀ f ∈ fields, f.Sound) (get : α → Bool) (set : α → Bool → α) (nm : String)
    (hf0 : fields.find? (fun g => g.name == nm) = some (Field.of nm get set goBool))
    (hgs : ∀ a b, get (set a b) = b)
    (hind : ∀ f ∈ fields, f.name ≠ nm → ∀ v a, get (f.dec v a).1 = get a) (cur : α) :
    get (decodeFields fields kvs cur).1 = (JValue.obj kvs).boolOr nm (get cur) := by
  obtain ⟨h1, h2⟩ := decodeFields_get fields exact kvs hshape hs get set nm _ hf0 hgs hind cur
  show _ = (match kvs.lookup nm with | some (.bool b) => b | _ => get cur)
  cases hl : kvs.lookup nm with
  | none => rw [h1 hl]
  | some v =>
    obtain ⟨hsh, hv⟩ := h2 v hl
    rw [hv]
    cases v <;> simp [goBool, JValue.isBool] at hsh
    rfl

/-- A `uint32` or `uint64` field after a well-formed object was decoded into a
struct. -/
theorem decodeFields_get_uint {α : Type} (fields : List (Field α)) (exact : Bool)
    (kvs : List (String × JValue)) (hshape : objectShape fields exact (.obj kvs) = true)
    (hs : ∀ f ∈ fields, f.Sound) (get : α → Nat) (set : α → Nat → α) (nm : String)
    (bits : Nat) (goType : String)
    (hf0 : fields.find? (fun g => g.name == nm)
      = some (Field.of nm get set (goUint bits goType)))
    (hgs : ∀ a b, get (set a b) = b)
    (hind : ∀ f ∈ fields, f.name ≠ nm → ∀ v a, get (f.dec v a).1 = get a) (cur : α) :
    get (decodeFields fields kvs cur).1 = (JValue.obj kvs).uintOr nm (get cur) := by
  obtain ⟨h1, h2⟩ := decodeFields_get fields exact kvs hshape hs get set nm _ hf0 hgs hind cur
  show _ = (match kvs.lookup nm with | some (.num n) => n.int | _ => get cur)
  cases hl : kvs.lookup nm with
  | none => rw [h1 hl]
  | some v =>
    obtain ⟨hsh, hv⟩ := h2 v hl
    rw [hv]
    cases v <;> simp [goUint, JValue.isUint] at hsh
    rename_i n
    cases hp : parseUint bits n with
    | none => simp [hp] at hsh
    | some x =>
      have hn := (parseUint_some hp).1
      simp only [goUint, decUint, hp]
      rw [hn]
      rfl

theorem parseInt64Lit_value {n : JNum} {x : Int} (h : parseInt64Lit n = some x) :
    x = if n.neg then -(n.int : Int) else (n.int : Int) := by
  unfold parseInt64Lit at h
  split at h
  · cases hneg : n.neg
    · simp only [hneg, Bool.false_eq_true, ↓reduceIte] at h ⊢
      split at h
      · exact (Option.some.inj h).symm
      · cases h
    · simp only [hneg, ↓reduceIte] at h ⊢
      split at h
      · exact (Option.some.inj h).symm
      · cases h
  · cases h

/-- A `jsonInt64` field after a well-formed object was decoded into a struct. -/
theorem decodeFields_get_int {α : Type} (fields : List (Field α)) (exact : Bool)
    (kvs : List (String × JValue)) (hshape : objectShape fields exact (.obj kvs) = true)
    (hs : ∀ f ∈ fields, f.Sound) (get : α → jsonInt64) (set : α → jsonInt64 → α) (nm : String)
    (hf0 : fields.find? (fun g => g.name == nm) = some (Field.of nm get set goJsonInt64))
    (hgs : ∀ a b, get (set a b) = b)
    (hind : ∀ f ∈ fields, f.name ≠ nm → ∀ v a, get (f.dec v a).1 = get a) (cur : α) :
    get (decodeFields fields kvs cur).1 = (JValue.obj kvs).intOr nm (get cur) := by
  obtain ⟨h1, h2⟩ := decodeFields_get fields exact kvs hshape hs get set nm _ hf0 hgs hind cur
  show _ = (match kvs.lookup nm with
    | some (.num n) => if n.neg then -(n.int : Int) else (n.int : Int)
    | some (.str s) => (parseInt64 s).getD (get cur)
    | _ => get cur)
  cases hl : kvs.lookup nm with
  | none => rw [h1 hl]
  | some v =>
    obtain ⟨hsh, hv⟩ := h2 v hl
    rw [hv]
    cases v <;> simp [goJsonInt64] at hsh
    · rename_i n
      cases hp : parseInt64Lit n with
      | none => simp [hp] at hsh
      | some x =>
        simp only [goJsonInt64, decJsonInt64, jsonInt64.UnmarshalJSON, hp]
        exact parseInt64Lit_value hp
    · rename_i s
      cases hp : parseInt64 s with
      | none => simp [hp] at hsh
      | some x =>
        simp only [goJsonInt64, decJsonInt64, jsonInt64.UnmarshalJSON, hp]
        rfl

/-- An `interface{}` field after a well-formed object was decoded into a
struct. -/
theorem decodeFields_get_any {α F : Type} (pf : JNum → Option F) (ff : F → Option JNum)
    (fields : List (Field α)) (exact : Bool)
    (kvs : List (String × JValue)) (hshape : objectShape fields exact (.obj kvs) = true)
    (hs : ∀ f ∈ fields, f.Sound) (get : α → GoAny F) (set : α → GoAny F → α) (nm : String)
    (hf0 : fields.find? (fun g => g.name == nm) = some (Field.of nm get set (goAny pf ff)))
    (hgs : ∀ a b, get (set a b) = b)
    (hind : ∀ f ∈ fields, f.name ≠ nm → ∀ v a, get (f.dec v a).1 = get a) (cur : α) :
    get (decodeFields fields kvs cur).1 = (JValue.obj kvs).anyOr pf nm (get cur) := by
  obtain ⟨h1, h2⟩ := decodeFields_get fields exact kvs hshape hs get set nm _ hf0 hgs hind cur
  show _ = (match kvs.lookup nm with | some v => (decAnyValue pf v).1 | none => get cur)
  cases hl : kvs.lookup nm with
  | none => rw [h1 hl]
  | some v =>
    obtain ⟨hsh, hv⟩ := h2 v hl
    rw [hv]
    have hfit : numbersFit pf v = true := by
      cases exact
      · simpa [goAny] using hsh
      · exact comesBack_fit pf ff v (by simpa [goAny] using hsh)
    show (decAny pf v (get cur)).1 = _
    rw [decAny_eq pf v _ hfit]

/-- A struct field after a well-formed object was decoded into a struct, given
what a well-formed object leaves of the nested struct. -/
theorem decodeFields_get_struct {α β : Type} (fields : List (Field α)) (exact : Bool)
    (kvs : List (String × JValue)) (hshape : objectShape fields exact (.obj kvs) = true)
    (hs : ∀ f ∈ fields, f.Sound) (get : α → β) (set : α → β → α) (nm : String)
    (ty : GoType β) (M : JValue → β → β)
    (hf0 : fields.find? (fun g => g.name == nm) = some (Field.of nm get set ty))
    (hgs : ∀ a b, get (set a b) = b)
    (hind : ∀ f ∈ fields, f.name ≠ nm → ∀ v a, get (f.dec v a).1 = get a)
    (hM : ∀ v q, ty.shape exact v = true → (ty.dec v q).1 = M v q)
    (hnull : ∀ q, M .null q = q) (cur : α) :
    get (decodeFields fields kvs cur).1 = M ((JValue.obj kvs).sub nm) (get cur) := by
  obtain ⟨h1, h2⟩ := decodeFields_get fields exact kvs hshape hs get set nm _ hf0 hgs hind cur
  show _ = M ((kvs.lookup nm).getD .null) (get cur)
  cases hl : kvs.lookup nm with
  | none =>
    rw [h1 hl]
    exact (hnull _).symm
  | some v =>
    obtain ⟨hsh, hv⟩ := h2 v hl
    rw [hv]
    exact hM v _ hsh

/-! ## Complete objects leave nothing of the prior value -/

theorem strOr_indep {α : Type} {fields : List (Field α)} {exact : Bool}
    {kvs : List (String × JValue)} (h : objectShape fields exact (.obj kvs) = true)
    (nm : String) (f0 : Field α) (hf0 : fields.find? (fun g => g.name == nm) = some f0)
    (hk : ∀ v, f0.shape exact v = true → v.isStr = true)
    (hc : (JValue.obj kvs).has nm = true) (a b : String) :
    (JValue.obj kvs).strOr nm a = (JValue.obj kvs).strOr nm b := by
  simp only [JValue.has, JValue.member, JValue.strOr] at hc ⊢
  cases hl : kvs.lookup nm with
  | none => simp [hl] at hc
  | some v =>
    have := hk v (objectShape_lookup h hf0 hl)
    cases v <;> simp [JValue.isStr] at this
    rfl

theorem boolOr_indep {α : Type} {fields : List (Field α)} {exact : Bool}
    {kvs : List (String × JValue)} (h : objectShape fields exact (.obj kvs) = true)
    (nm : String) (f0 : Field α) (hf0 : fields.find? (fun g => g.name == nm) = some f0)
    (hk : ∀ v, f0.shape exact v = true → v.isBool = true)
    (hc : (JValue.obj kvs).has nm = true) (a b : Bool) :
    (JValue.obj kvs).boolOr nm a = (JValue.obj kvs).boolOr nm b := by
  simp only [JValue.has, JValue.member, JValue.boolOr] at hc ⊢
  cases hl : kvs.lookup nm with
  | none => simp [hl] at hc
  | some v =>
    have := hk v (objectShape_lookup h hf0 hl)
    cases v <;> simp [JValue.isBool] at this
    rfl

theorem uintOr_indep {α : Type} {fields : List (Field α)} {exact : Bool}
    {kvs : List (String × JValue)} (h : objectShape fields exact (.obj kvs) = true)
    (nm : String) (f0 : Field α) (hf0 : fields.find? (fun g => g.name == nm) = some f0)
    (bits : Nat) (hk : ∀ v, f0.shape exact v = true → v.isUint bits = true)
    (hc : (JValue.obj kvs).has nm = true) (a b : Nat) :
    (JValue.obj kvs).uintOr nm a = (JValue.obj kvs).uintOr nm b := by
  simp only [JValue.has, JValue.member, JValue.uintOr] at hc ⊢
  cases hl : kvs.lookup nm with
  | none => simp [hl] at hc
  | some v =>
    have := hk v (objectShape_lookup h hf0 hl)
    cases v <;> simp [JValue.isUint] at this
    rfl

theorem intOr_indep {α : Type} {fields : List (Field α)} {exact : Bool}
    {kvs : List (String × JValue)} (h : objectShape fields exact (.obj kvs) = true)
    (nm : String) (f0 : Field α) (hf0 : fields.find? (fun g => g.name == nm) = some f0)
    (hk : ∀ v, f0.shape exact v = true → goJsonInt64.shape false v = true)
    (hc : (JValue.obj kvs).has nm = true) (a b : jsonInt64) :
    (JValue.obj kvs).intOr nm a = (JValue.obj kvs).intOr nm b := by
  simp only [JValue.has, JValue.member, JValue.intOr] at hc ⊢
  cases hl : kvs.lookup nm with
  | none => simp [hl] at hc
  | some v =>
    have := hk v (objectShape_lookup h hf0 hl)
    cases v <;> simp [goJsonInt64] at this
    · rfl
    · rename_i s
      cases hp : parseInt64 s with
      | none => simp [hp] at this
      | some x => simp only [hp, Option.getD_some]

theorem anyOr_indep {F : Type} (pf : JNum → Option F) (x : JValue) (nm : String)
    (hc : x.has nm = true) (a b : GoAny F) : x.anyOr pf nm a = x.anyOr pf nm b := by
  simp only [JValue.has, JValue.anyOr] at hc ⊢
  cases hl : x.member nm with
  | none => simp [hl] at hc
  | some v => rfl

/-- The document under the key of a nested struct that is complete is
well-formed for the nested struct. -/
theorem sub_shape {α : Type} {fields : List (Field α)} {exact : Bool}
    {kvs : List (String × JValue)} (h : objectShape fields exact (.obj kvs) = true)
    (nm : String) (f0 : Field α) (hf0 : fields.find? (fun g => g.name == nm) = some f0)
    (C : JValue → Bool) (hnull : C .null = false)
    (hc : C ((JValue.obj kvs).sub nm) = true) :
    f0.shape exact ((JValue.obj kvs).sub nm) = true := by
  simp only [JValue.sub, JValue.member] at hc ⊢
  cases hl : kvs.lookup nm with
  | none =>
    rw [hl] at hc
    simp only [Option.getD_none] at hc
    rw [hnull] at hc
    cases hc
  | some v => exact objectShape_lookup h hf0 hl

theorem goJsonInt64_shape_false {exact : Bool} {v : JValue}
    (h : goJsonInt64.shape exact v = true) : goJsonInt64.shape false v = true := by
  cases exact
  · exact h
  · cases v <;> simp [goJsonInt64] at h ⊢
    exact h.1

/-! ## The field tables -/

theorem orgProfile_names_nodup : ((OrgProfile.fields).map (·.name)).Nodup := by
  simp only [OrgProfile.fields, Field.of, List.map_cons, List.map_nil]
  decide

theorem orgProfile_fields_sound : ∀ f ∈ OrgProfile.fields, f.Sound := by
  intro f hf
  simp only [OrgProfile.fields, List.mem_cons, List.mem_singleton, List.not_mem_nil, or_false] at hf
  rcases hf with rfl | rfl | rfl | rfl | rfl | rfl | rfl | rfl | rfl | rfl <;>
    first
    | exact Field.of_sound _ _ _ _ goString_sound
    | exact Field.of_sound _ _ _ _ (goUint_sound _ _)

theorem orgProfile_fields_roundTrips : ∀ f ∈ OrgProfile.fields, f.RoundTrips := by
  intro f hf
  simp only [OrgProfile.fields, List.mem_cons, List.mem_singleton, List.not_mem_nil, or_false] at hf
  rcases hf with rfl | rfl | rfl | rfl | rfl | rfl | rfl | rfl | rfl | rfl <;>
    first
    | exact Field.of_roundTrips _ _ _ _ goString_roundTrips (fun _ _ => rfl)
    | exact Field.of_roundTrips _ _ _ _ (goUint_roundTrips _ _) (fun _ _ => rfl)

theorem orgProfile_fields_statusFree : ∀ f ∈ OrgProfile.fields, StatusFree f.dec := by
  intro f hf
  simp only [OrgProfile.fields, List.mem_cons, List.mem_singleton, List.not_mem_nil, or_false] at hf
  rcases hf with rfl | rfl | rfl | rfl | rfl | rfl | rfl | rfl | rfl | rfl <;>
    first
    | exact Field.of_statusFree _ _ _ _ decString_statusFree
    | exact Field.of_statusFree _ _ _ _ (decUint_statusFree _ _)

theorem orgProfile_fields_decides : ∀ f ∈ OrgProfile.fields, f.Decides := by
  intro f hf
  simp only [OrgProfile.fields, List.mem_cons, List.mem_singleton, List.not_mem_nil, or_false] at hf
  rcases hf with rfl | rfl | rfl | rfl | rfl | rfl | rfl | rfl | rfl | rfl <;>
    first
    | exact Field.of_decides _ _ _ _ goString_decides
    | exact Field.of_decides _ _ _ _ (goUint_decides _ _)

theorem orgProfile_fields_independent : FieldsIndependent (OrgProfile.fields) := by
  intro f hf g hg hne v a
  simp only [OrgProfile.fields, List.mem_cons, List.mem_singleton, List.not_mem_nil, or_false] at hf hg
  rcases hf with rfl | rfl | rfl | rfl | rfl | rfl | rfl | rfl | rfl | rfl <;> rcases hg with rfl | rfl | rfl | rfl | rfl | rfl | rfl | rfl | rfl | rfl <;>
    first
    | exact absurd rfl hne
    | rfl

theorem orgProfile_struct_sound (goType : String) : (goStruct goType (OrgProfile.fields)).Sound :=
  goStruct_sound goType _ (orgProfile_fields_sound)

theorem orgProfile_struct_roundTrips (goType : String) :
    (goStruct goType (OrgProfile.fields)).RoundTrips :=
  goStruct_roundTrips goType _ (orgProfile_names_nodup) (orgProfile_fields_sound)
    (orgProfile_fields_roundTrips) (orgProfile_fields_independent)

theorem orgProfile_struct_statusFree (goType : String) :
    StatusFree (goStruct goType (OrgProfile.fields)).dec :=
  decodeStruct_statusFree goType _ (orgProfile_fields_statusFree)

theorem orgProfile_struct_decides (goType : String) :
    (goStruct goType (OrgProfile.fields)).Decides :=
  goStruct_decides goType _ (orgProfile_fields_decides)

theorem orgOrganization_names_nodup : ((OrgOrganization.fields).map (·.name)).Nodup := by
  simp only [OrgOrganization.fields, Field.of, List.map_cons, List.map_nil]
  decide

theorem orgOrganization_fields_sound : ∀ f ∈ OrgOrganization.fields, f.Sound := by
  intro f hf
  simp only [OrgOrganization.fields, List.mem_cons, List.mem_singleton, List.not_mem_nil, or_false] at hf
  rcases hf with rfl | rfl <;>
    first
    | exact Field.of_sound _ _ _ _ goString_sound
    | exact Field.of_sound _ _ _ _ (orgProfile_struct_sound _)

theorem orgOrganization_fields_roundTrips : ∀ f ∈ OrgOrganization.fields, f.RoundTrips := by
  intro f hf
  simp only [OrgOrganization.fields, List.mem_cons, List.mem_singleton, List.not_mem_nil, or_false] at hf
  rcases hf with rfl | rfl <;>
    first
    | exact Field.of_roundTrips _ _ _ _ goString_roundTrips (fun _ _ => rfl)
    | exact Field.of_roundTrips _ _ _ _ (orgProfile_struct_roundTrips _) (fun _ _ => rfl)

theorem orgOrganization_fields_statusFree : ∀ f ∈ OrgOrganization.fields, StatusFree f.dec := by
  intro f hf
  simp only [OrgOrganization.fields, List.mem_cons, List.mem_singleton, List.not_mem_nil, or_false] at hf
  rcases hf with rfl | rfl <;>
    first
    | exact Field.of_statusFree _ _ _ _ decString_statusFree
    | exact Field.of_statusFree _ _ _ _ (orgProfile_struct_statusFree _)

theorem orgOrganization_fields_decides : ∀ f ∈ OrgOrganization.fields, f.Decides := by
  intro f hf
  simp only [OrgOrganization.fields, List.mem_cons, List.mem_singleton, List.not_mem_nil, or_false] at hf
  rcases hf with rfl | rfl <;>
    first
    | exact Field.of_decides _ _ _ _ goString_decides
    | exact Field.of_decides _ _ _ _ (orgProfile_struct_decides _)

theorem orgOrganization_fields_independent : FieldsIndependent (OrgOrganization.fields) := by
  intro f hf g hg hne v a
  simp only [OrgOrganization.fields, List.mem_cons, List.mem_singleton, List.not_mem_nil, or_false] at hf hg
  rcases hf with rfl | rfl <;> rcases hg with rfl | rfl <;>
    first
    | exact absurd rfl hne
    | rfl

theorem orgOrganization_struct_sound (goType : String) : (goStruct goType (OrgOrganization.fields)).Sound :=
  goStruct_sound goType _ (orgOrganization_fields_sound)

theorem orgOrganization_struct_roundTrips (goType : String) :
    (goStruct goType (OrgOrganization.fields)).RoundTrips :=
  goStruct_roundTrips goType _ (orgOrganization_names_nodup) (orgOrganization_fields_sound)
    (orgOrganization_fields_roundTrips) (orgOrganization_fields_independent)

theorem orgOrganization_struct_statusFree (goType : String) :
    StatusFree (goStruct goType (OrgOrganization.fields)).dec :=
  decodeStruct_statusFree goType _ (orgOrganization_fields_statusFree)

theorem orgOrganization_struct_decides (goType : String) :
    (goStruct goType (OrgOrganization.fields)).Decides :=
  goStruct_decides goType _ (orgOrganization_fields_decides)

theorem org_names_nodup : ((Org.fields).map (·.name)).Nodup := by
  simp only [Org.fields, Field.of, List.map_cons, List.map_nil]
  decide

theorem org_fields_sound : ∀ f ∈ Org.fields, f.Sound := by
  intro f hf
  simp only [Org.fields, List.mem_cons, List.mem_singleton, List.not_mem_nil, or_false] at hf
  rcases hf with rfl | rfl | rfl | rfl | rfl | rfl | rfl <;>
    first
    | exact Field.of_sound _ _ _ _ goBool_sound
    | exact Field.of_sound _ _ _ _ goString_sound
    | exact Field.of_sound _ _ _ _ (orgOrganization_struct_sound _)

theorem org_fields_roundTrips : ∀ f ∈ Org.fields, f.RoundTrips := by
  intro f hf
  simp only [Org.fields, List.mem_cons, List.mem_singleton, List.not_mem_nil, or_false] at hf
  rcases hf with rfl | rfl | rfl | rfl | rfl | rfl | rfl <;>
    first
    | exact Field.of_roundTrips _ _ _ _ goBool_roundTrips (fun _ _ => rfl)
    | exact Field.of_roundTrips _ _ _ _ goString_roundTrips (fun _ _ => rfl)
    | exact Field.of_roundTrips _ _ _ _ (orgOrganization_struct_roundTrips _) (fun _ _ => rfl)

theorem org_fields_statusFree : ∀ f ∈ Org.fields, StatusFree f.dec := by
  intro f hf
  simp only [Org.fields, List.mem_cons, List.mem_singleton, List.not_mem_nil, or_false] at hf
  rcases hf with rfl | rfl | rfl | rfl | rfl | rfl | rfl <;>
    first
    | exact Field.of_statusFree _ _ _ _ decBool_statusFree
    | exact Field.of_statusFree _ _ _ _ decString_statusFree
    | exact Field.of_statusFree _ _ _ _ (orgOrganization_struct_statusFree _)

theorem org_fields_decides : ∀ f ∈ Org.fields, f.Decides := by
  intro f hf
  simp only [Org.fields, List.mem_cons, List.mem_singleton, List.not_mem_nil, or_false] at hf
  rcases hf with rfl | rfl | rfl | rfl | rfl | rfl | rfl <;>
    first
    | exact Field.of_decides _ _ _ _ goBool_decides
    | exact Field.of_decides _ _ _ _ goString_decides
    | exact Field.of_decides _ _ _ _ (orgOrganization_struct_decides _)

theorem org_fields_independent : FieldsIndependent (Org.fields) := by
  intro f hf g hg hne v a
  simp only [Org.fields, List.mem_cons, List.mem_singleton, List.not_mem_nil, or_false] at hf hg
  rcases hf with rfl | rfl | rfl | rfl | rfl | rfl | rfl <;> rcases hg with rfl | rfl | rfl | rfl | rfl | rfl | rfl <;>
    first
    | exact absurd rfl hne
    | rfl

theorem org_struct_sound (goType : String) : (goStruct goType (Org.fields)).Sound :=
  goStruct_sound goType _ (org_fields_sound)

theorem org_struct_roundTrips (goType : String) :
    (goStruct goType (Org.fields)).RoundTrips :=
  goStruct_roundTrips goType _ (org_names_nodup) (org_fields_sound)
    (org_fields_roundTrips) (org_fields_independent)

theorem org_struct_statusFree (goType : String) :
    StatusFree (goStruct goType (Org.fields)).dec :=
  decodeStruct_statusFree goType _ (org_fields_statusFree)

theorem org_struct_decides (goType : String) :
    (goStruct goType (Org.fields)).Decides :=
  goStruct_decides goType _ (org_fields_decides)

theorem domain_names_nodup : ((Domain.fields).map (·.name)).Nodup := by
  simp only [Domain.fields, Field.of, List.map_cons, List.map_nil]
  decide

theorem domain_fields_sound : ∀ f ∈ Domain.fields, f.Sound := by
  intro f hf
  simp only [Domain.fields, List.mem_cons, List.mem_singleton, List.not_mem_nil, or_false] at hf
  rcases hf with rfl | rfl | rfl | rfl | rfl | rfl | rfl | rfl | rfl | rfl | rfl <;>
    first
    | exact Field.of_sound _ _ _ _ goString_sound
    | exact Field.of_sound _ _ _ _ (goUint_sound _ _)
    | exact Field.of_sound _ _ _ _ goBool_sound

theorem domain_fields_roundTrips : ∀ f ∈ Domain.fields, f.RoundTrips := by
  intro f hf
  simp only [Domain.fields, List.mem_cons, List.mem_singleton, List.not_mem_nil, or_false] at hf
  rcases hf with rfl | rfl | rfl | rfl | rfl | rfl | rfl | rfl | rfl | rfl | rfl <;>
    first
    | exact Field.of_roundTrips _ _ _ _ goString_roundTrips (fun _ _ => rfl)
    | exact Field.of_roundTrips _ _ _ _ (goUint_roundTrips _ _) (fun _ _ => rfl)
    | exact Field.of_roundTrips _ _ _ _ goBool_roundTrips (fun _ _ => rfl)

theorem domain_fields_statusFree : ∀ f ∈ Domain.fields, StatusFree f.dec := by
  intro f hf
  simp only [Domain.fields, List.mem_cons, List.mem_singleton, List.not_mem_nil, or_false] at hf
  rcases hf with rfl | rfl | rfl | rfl | rfl | rfl | rfl | rfl | rfl | rfl | rfl <;>
    first
    | exact Field.of_statusFree _ _ _ _ decString_statusFree
    | exact Field.of_statusFree _ _ _ _ (decUint_statusFree _ _)
    | exact Field.of_statusFree _ _ _ _ decBool_statusFree

theorem domain_fields_decides : ∀ f ∈ Domain.fields, f.Decides := by
  intro f hf
  simp only [Domain.fields, List.mem_cons, List.mem_singleton, List.not_mem_nil, or_false] at hf
  rcases hf with rfl | rfl | rfl | rfl | rfl | rfl | rfl | rfl | rfl | rfl | rfl <;>
    first
    | exact Field.of_decides _ _ _ _ goString_decides
    | exact Field.of_decides _ _ _ _ (goUint_decides _ _)
    | exact Field.of_decides _ _ _ _ goBool_decides

theorem domain_fields_independent : FieldsIndependent (Domain.fields) := by
  intro f hf g hg hne v a
  simp only [Domain.fields, List.mem_cons, List.mem_singleton, List.not_mem_nil, or_false] at hf hg
  rcases hf with rfl | rfl | rfl | rfl | rfl | rfl | rfl | rfl | rfl | rfl | rfl <;> rcases hg with rfl | rfl | rfl | rfl | rfl | rfl | rfl | rfl | rfl | rfl | rfl <;>
    first
    | exact absurd rfl hne
    | rfl

theorem domain_struct_sound (goType : String) : (goStruct goType (Domain.fields)).Sound :=
  goStruct_sound goType _ (domain_fields_sound)

theorem domain_struct_roundTrips (goType : String) :
    (goStruct goType (Domain.fields)).RoundTrips :=
  goStruct_roundTrips goType _ (domain_names_nodup) (domain_fields_sound)
    (domain_fields_roundTrips) (domain_fields_independent)

theorem domain_struct_statusFree (goType : String) :
    StatusFree (goStruct goType (Domain.fields)).dec :=
  decodeStruct_statusFree goType _ (domain_fields_statusFree)

theorem domain_struct_decides (goType : String) :
    (goStruct goType (Domain.fields)).Decides :=
  goStruct_decides goType _ (domain_fields_decides)

theorem lastCodePush_names_nodup {F : Type} (pf : JNum → Option F) (ff : F → Option JNum) : ((LastCodePush.fields pf ff).map (·.name)).Nodup := by
  simp only [LastCodePush.fields, Field.of, List.map_cons, List.map_nil]
  decide

theorem lastCodePush_fields_sound {F : Type} (pf : JNum → Option F) (ff : F → Option JNum) : ∀ f ∈ LastCodePush.fields pf ff, f.Sound := by
  intro f hf
  simp only [LastCodePush.fields, List.mem_cons, List.mem_singleton, List.not_mem_nil, or_false] at hf
  rcases hf with rfl | rfl <;>
    first
    | exact Field.of_sound _ _ _ _ goString_sound
    | exact Field.of_sound _ _ _ _ (goAny_sound _ _)

theorem lastCodePush_fields_roundTrips {F : Type} (pf : JNum → Option F) (ff : F → Option JNum) : ∀ f ∈ LastCodePush.fields pf ff, f.RoundTrips := by
  intro f hf
  simp only [LastCodePush.fields, List.mem_cons, List.mem_singleton, List.not_mem_nil, or_false] at hf
  rcases hf with rfl | rfl <;>
    first
    | exact Field.of_roundTrips _ _ _ _ goString_roundTrips (fun _ _ => rfl)
    | exact Field.of_roundTrips _ _ _ _ (goAny_roundTrips _ _) (fun _ _ => rfl)

theorem lastCodePush_fields_statusFree {F : Type} (pf : JNum → Option F) (ff : F → Option JNum) : ∀ f ∈ LastCodePush.fields pf ff, StatusFree f.dec := by
  intro f hf
  simp only [LastCodePush.fields, List.mem_cons, List.mem_singleton, List.not_mem_nil, or_false] at hf
  rcases hf with rfl | rfl <;>
    first
    | exact Field.of_statusFree _ _ _ _ decString_statusFree
    | exact Field.of_statusFree _ _ _ _ (decAny_statusFree _)

theorem lastCodePush_fields_decides {F : Type} (pf : JNum → Option F) (ff : F → Option JNum) : ∀ f ∈ LastCodePush.fields pf ff, f.Decides := by
  intro f hf
  simp only [LastCodePush.fields, List.mem_cons, List.mem_singleton, List.not_mem_nil, or_false] at hf
  rcases hf with rfl | rfl <;>
    first
    | exact Field.of_decides _ _ _ _ goString_decides
    | exact Field.of_decides _ _ _ _ (goAny_decides _ _)

theorem lastCodePush_fields_independent {F : Type} (pf : JNum → Option F) (ff : F → Option JNum) : FieldsIndependent (LastCodePush.fields pf ff) := by
  intro f hf g hg hne v a
  simp only [LastCodePush.fields, List.mem_cons, List.mem_singleton, List.not_mem_nil, or_false] at hf hg
  rcases hf with rfl | rfl <;> rcases hg with rfl | rfl <;>
    first
    | exact absurd rfl hne
    | rfl

theorem lastCodePush_struct_sound {F : Type} (pf : JNum → Option F) (ff : F → Option JNum) (goType : String) : (goStruct goType (LastCodePush.fields pf ff)).Sound :=
  goStruct_sound goType _ (lastCodePush_fields_sound pf ff)

theorem lastCodePush_struct_roundTrips {F : Type} (pf : JNum → Option F) (ff : F → Option JNum) (goType : String) :
    (goStruct goType (LastCodePush.fields pf ff)).RoundTrips :=
  goStruct_roundTrips goType _ (lastCodePush_names_nodup pf ff) (lastCodePush_fields_sound pf ff)
    (lastCodePush_fields_roundTrips pf ff) (lastCodePush_fields_independent pf ff)

theorem lastCodePush_struct_statusFree {F : Type} (pf : JNum → Option F) (ff : F → Option JNum) (goType : String) :
    StatusFree (goStruct goType (LastCodePush.fields pf ff)).dec :=
  decodeStruct_statusFree goType _ (lastCodePush_fields_statusFree pf ff)

theorem lastCodePush_struct_decides {F : Type} (pf : JNum → Option F) (ff : F → Option JNum) (goType : String) :
    (goStruct goType (LastCodePush.fields pf ff)).Decides :=
  goStruct_decides goType _ (lastCodePush_fields_decides pf ff)

theorem product_names_nodup : ((Product.fields).map (·.name)).Nodup := by
  simp only [Product.fields, Field.of, List.map_cons, List.map_nil]
  decide

theorem product_fields_sound : ∀ f ∈ Product.fields, f.Sound := by
  intro f hf
  simp only [Product.fields, List.mem_cons, List.mem_singleton, List.not_mem_nil, or_false] at hf
  rcases hf with rfl | rfl <;>
    exact Field.of_sound _ _ _ _ goString_sound

theorem product_fields_roundTrips : ∀ f ∈ Product.fields, f.RoundTrips := by
  intro f hf
  simp only [Product.fields, List.mem_cons, List.mem_singleton, List.not_mem_nil, or_false] at hf
  rcases hf with rfl | rfl <;>
    exact Field.of_roundTrips _ _ _ _ goString_roundTrips (fun _ _ => rfl)

theorem product_fields_statusFree : ∀ f ∈ Product.fields, StatusFree f.dec := by
  intro f hf
  simp only [Product.fields, List.mem_cons, List.mem_singleton, List.not_mem_nil, or_false] at hf
  rcases hf with rfl | rfl <;>
    exact Field.of_statusFree _ _ _ _ decString_statusFree

theorem product_fields_decides : ∀ f ∈ Product.fields, f.Decides := by
  intro f hf
  simp only [Product.fields, List.mem_cons, List.mem_singleton, List.not_mem_nil, or_false] at hf
  rcases hf with rfl | rfl <;>
    exact Field.of_decides _ _ _ _ goString_decides

theorem product_fields_independent : FieldsIndependent (Product.fields) := by
  intro f hf g hg hne v a
  simp only [Product.fields, List.mem_cons, List.mem_singleton, List.not_mem_nil, or_false] at hf hg
  rcases hf with rfl | rfl <;> rcases hg with rfl | rfl <;>
    first
    | exact absurd rfl hne
    | rfl

theorem product_struct_sound (goType : String) : (goStruct goType (Product.fields)).Sound :=
  goStruct_sound goType _ (product_fields_sound)

theorem product_struct_roundTrips (goType : String) :
    (goStruct goType (Product.fields)).RoundTrips :=
  goStruct_roundTrips goType _ (product_names_nodup) (product_fields_sound)
    (product_fields_roundTrips) (product_fields_independent)

theorem product_struct_statusFree (goType : String) :
    StatusFree (goStruct goType (Product.fields)).dec :=
  decodeStruct_statusFree goType _ (product_fields_statusFree)

theorem product_struct_decides (goType : String) :
    (goStruct goType (Product.fields)).Decides :=
  goStruct_decides goType _ (product_fields_decides)

theorem upstream_names_nodup : ((Upstream.fields).map (·.name)).Nodup := by
  simp only [Upstream.fields, Field.of, List.map_cons, List.map_nil]
  decide

theorem upstream_fields_sound : ∀ f ∈ Upstream.fields, f.Sound := by
  intro f hf
  simp only [Upstream.fields, List.mem_cons, List.mem_singleton, List.not_mem_nil, or_false] at hf
  rcases hf with rfl | rfl | rfl <;>
    exact Field.of_sound _ _ _ _ goString_sound

theorem upstream_fields_roundTrips : ∀ f ∈ Upstream.fields, f.RoundTrips := by
  intro f hf
  simp only [Upstream.fields, List.mem_cons, List.mem_singleton, List.not_mem_nil, or_false] at hf
  rcases hf with rfl | rfl | rfl <;>
    exact Field.of_roundTrips _ _ _ _ goString_roundTrips (fun _ _ => rfl)

theorem upstream_fields_statusFree : ∀ f ∈ Upstream.fields, StatusFree f.dec := by
  intro f hf
  simp only [Upstream.fields, List.mem_cons, List.mem_singleton, List.not_mem_nil, or_false] at hf
  rcases hf with rfl | rfl | rfl <;>
    exact Field.of_statusFree _ _ _ _ decString_statusFree

theorem upstream_fields_decides : ∀ f ∈ Upstream.fields, f.Decides := by
  intro f hf
  simp only [Upstream.fields, List.mem_cons, List.mem_singleton, List.not_mem_nil, or_false] at hf
  rcases hf with rfl | rfl | rfl <;>
    exact Field.of_decides _ _ _ _ goString_decides

theorem upstream_fields_independent : FieldsIndependent (Upstream.fields) := by
  intro f hf g hg hne v a
  simp only [Upstream.fields, List.mem_cons, List.mem_singleton, List.not_mem_nil, or_false] at hf hg
  rcases hf with rfl | rfl | rfl <;> rcases hg with rfl | rfl | rfl <;>
    first
    | exact absurd rfl hne
    | rfl

theorem upstream_struct_sound (goType : String) : (goStruct goType (Upstream.fields)).Sound :=
  goStruct_sound goType _ (upstream_fields_sound)

theorem upstream_struct_roundTrips (goType : String) :
    (goStruct goType (Upstream.fields)).RoundTrips :=
  goStruct_roundTrips goType _ (upstream_names_nodup) (upstream_fields_sound)
    (upstream_fields_roundTrips) (upstream_fields_independent)

theorem upstream_struct_statusFree (goType : String) :
    StatusFree (goStruct goType (Upstream.fields)).dec :=
  decodeStruct_statusFree goType _ (upstream_fields_statusFree)

theorem upstream_struct_decides (goType : String) :
    (goStruct goType (Upstream.fields)).Decides :=
  goStruct_decides goType _ (upstream_fields_decides)

theorem siteInfo_names_nodup {F : Type} (pf : JNum → Option F) (ff : F → Option JNum) : ((SiteInfo.fields pf ff).map (·.name)).Nodup := by
  simp only [SiteInfo.fields, Field.of, List.map_cons, List.map_nil]
  decide

theorem siteInfo_fields_sound {F : Type} (pf : JNum → Option F) (ff : F → Option JNum) : ∀ f ∈ SiteInfo.fields pf ff, f.Sound := by
  intro f hf
  simp only [SiteInfo.fields, List.mem_cons, List.mem_singleton, List.not_mem_nil, or_false] at hf
  rcases hf with rfl | rfl | rfl | rfl | rfl | rfl | rfl | rfl | rfl | rfl | rfl | rfl | rfl | rfl <;>
    first
    | exact Field.of_sound _ _ _ _ goJsonInt64_sound
    | exact Field.of_sound _ _ _ _ goString_sound
    | exact Field.of_sound _ _ _ _ goBool_sound
    | exact Field.of_sound _ _ _ _ (lastCodePush_struct_sound pf ff _)
    | exact Field.of_sound _ _ _ _ (product_struct_sound _)
    | exact Field.of_sound _ _ _ _ (upstream_struct_sound _)

theorem siteInfo_fields_roundTrips {F : Type} (pf : JNum → Option F) (ff : F → Option JNum) : ∀ f ∈ SiteInfo.fields pf ff, f.RoundTrips := by
  intro f hf
  simp only [SiteInfo.fields, List.mem_cons, List.mem_singleton, List.not_mem_nil, or_false] at hf
  rcases hf with rfl | rfl | rfl | rfl | rfl | rfl | rfl | rfl | rfl | rfl | rfl | rfl | rfl | rfl <;>
    first
    | exact Field.of_roundTrips _ _ _ _ goJsonInt64_roundTrips (fun _ _ => rfl)
    | exact Field.of_roundTrips _ _ _ _ goString_roundTrips (fun _ _ => rfl)
    | exact Field.of_roundTrips _ _ _ _ goBool_roundTrips (fun _ _ => rfl)
    | exact Field.of_roundTrips _ _ _ _ (lastCodePush_struct_roundTrips pf ff _) (fun _ _ => rfl)
    | exact Field.of_roundTrips _ _ _ _ (product_struct_roundTrips _) (fun _ _ => rfl)
    | exact Field.of_roundTrips _ _ _ _ (upstream_struct_roundTrips _) (fun _ _ => rfl)

theorem siteInfo_fields_statusFree {F : Type} (pf : JNum → Option F) (ff : F → Option JNum) : ∀ f ∈ SiteInfo.fields pf ff, StatusFree f.dec := by
  intro f hf
  simp only [SiteInfo.fields, List.mem_cons, List.mem_singleton, List.not_mem_nil, or_false] at hf
  rcases hf with rfl | rfl | rfl | rfl | rfl | rfl | rfl | rfl | rfl | rfl | rfl | rfl | rfl | rfl <;>
    first
    | exact Field.of_statusFree _ _ _ _ decJsonInt64_statusFree
    | exact Field.of_statusFree _ _ _ _ decString_statusFree
    | exact Field.of_statusFree _ _ _ _ decBool_statusFree
    | exact Field.of_statusFree _ _ _ _ (lastCodePush_struct_statusFree pf ff _)
    | exact Field.of_statusFree _ _ _ _ (product_struct_statusFree _)
    | exact Field.of_statusFree _ _ _ _ (upstream_struct_statusFree _)

theorem siteInfo_fields_decides {F : Type} (pf : JNum → Option F) (ff : F → Option JNum) : ∀ f ∈ SiteInfo.fields pf ff, f.Decides := by
  intro f hf
  simp only [SiteInfo.fields, List.mem_cons, List.mem_singleton, List.not_mem_nil, or_false] at hf
  rcases hf with rfl | rfl | rfl | rfl | rfl | rfl | rfl | rfl | rfl | rfl | rfl | rfl | rfl | rfl <;>
    first
    | exact Field.of_decides _ _ _ _ goJsonInt64_decides
    | exact Field.of_decides _ _ _ _ goString_decides
    | exact Field.of_decides _ _ _ _ goBool_decides
    | exact Field.of_decides _ _ _ _ (lastCodePush_struct_decides pf ff _)
    | exact Field.of_decides _ _ _ _ (product_struct_decides _)
    | exact Field.of_decides _ _ _ _ (upstream_struct_decides _)

theorem siteInfo_fields_independent {F : Type} (pf : JNum → Option F) (ff : F → Option JNum) : FieldsIndependent (SiteInfo.fields pf ff) := by
  intro f hf g hg hne v a
  simp only [SiteInfo.fields, List.mem_cons, List.mem_singleton, List.not_mem_nil, or_false] at hf hg
  rcases hf with rfl | rfl | rfl | rfl | rfl | rfl | rfl | rfl | rfl | rfl | rfl | rfl | rfl | rfl <;> rcases hg with rfl | rfl | rfl | rfl | rfl | rfl | rfl | rfl | rfl | rfl | rfl | rfl | rfl | rfl <;>
    first
    | exact absurd rfl hne
    | rfl

theorem siteInfo_struct_sound {F : Type} (pf : JNum → Option F) (ff : F → Option JNum) (goType : String) : (goStruct goType (SiteInfo.fields pf ff)).Sound :=
  goStruct_sound goType _ (siteInfo_fields_sound pf ff)

theorem siteInfo_struct_roundTrips {F : Type} (pf : JNum → Option F) (ff : F → Option JNum) (goType : String) :
    (goStruct goType (SiteInfo.fields pf ff)).RoundTrips :=
  goStruct_roundTrips goType _ (siteInfo_names_nodup pf ff) (siteInfo_fields_sound pf ff)
    (siteInfo_fields_roundTrips pf ff) (siteInfo_fields_independent pf ff)

theorem siteInfo_struct_statusFree {F : Type} (pf : JNum → Option F) (ff : F → Option JNum) (goType : String) :
    StatusFree (goStruct goType (SiteInfo.fields pf ff)).dec :=
  decodeStruct_statusFree goType _ (siteInfo_fields_statusFree pf ff)

theorem siteInfo_struct_decides {F : Type} (pf : JNum → Option F) (ff : F → Option JNum) (goType : String) :
    (goStruct goType (SiteInfo.fields pf ff)).Decides :=
  goStruct_decides goType _ (siteInfo_fields_decides pf ff)

theorem site_names_nodup {F : Type} (pf : JNum → Option F) (ff : F → Option JNum) : ((Site.fields pf ff).map (·.name)).Nodup := by
  simp only [Site.fields, Field.of, List.map_cons, List.map_nil]
  decide

theorem site_fields_sound {F : Type} (pf : JNum → Option F) (ff : F → Option JNum) : ∀ f ∈ Site.fields pf ff, f.Sound := by
  intro f hf
  simp only [Site.fields, List.mem_cons, List.mem_singleton, List.not_mem_nil, or_false] at hf
  rcases hf with rfl | rfl | rfl | rfl | rfl | rfl | rfl <;>
    first
    | exact Field.of_sound _ _ _ _ goBool_sound
    | exact Field.of_sound _ _ _ _ goString_sound
    | exact Field.of_sound _ _ _ _ (siteInfo_struct_sound pf ff _)

theorem site_fields_roundTrips {F : Type} (pf : JNum → Option F) (ff : F → Option JNum) : ∀ f ∈ Site.fields pf ff, f.RoundTrips := by
  intro f hf
  simp only [Site.fields, List.mem_cons, List.mem_singleton, List.not_mem_nil, or_false] at hf
  rcases hf with rfl | rfl | rfl | rfl | rfl | rfl | rfl <;>
    first
    | exact Field.of_roundTrips _ _ _ _ goBool_roundTrips (fun _ _ => rfl)
    | exact Field.of_roundTrips _ _ _ _ goString_roundTrips (fun _ _ => rfl)
    | exact Field.of_roundTrips _ _ _ _ (siteInfo_struct_roundTrips pf ff _) (fun _ _ => rfl)

theorem site_fields_statusFree {F : Type} (pf : JNum → Option F) (ff : F → Option JNum) : ∀ f ∈ Site.fields pf ff, StatusFree f.dec := by
  intro f hf
  simp only [Site.fields, List.mem_cons, List.mem_singleton, List.not_mem_nil, or_false] at hf
  rcases hf with rfl | rfl | rfl | rfl | rfl | rfl | rfl <;>
    first
    | exact Field.of_statusFree _ _ _ _ decBool_statusFree
    | exact Field.of_statusFree _ _ _ _ decString_statusFree
    | exact Field.of_statusFree _ _ _ _ (siteInfo_struct_statusFree pf ff _)

theorem site_fields_decides {F : Type} (pf : JNum → Option F) (ff : F → Option JNum) : ∀ f ∈ Site.fields pf ff, f.Decides := by
  intro f hf
  simp only [Site.fields, List.mem_cons, List.mem_singleton, List.not_mem_nil, or_false] at hf
  rcases hf with rfl | rfl | rfl | rfl | rfl | rfl | rfl <;>
    first
    | exact Field.of_decides _ _ _ _ goBool_decides
    | exact Field.of_decides _ _ _ _ goString_decides
    | exact Field.of_decides _ _ _ _ (siteInfo_struct_decides pf ff _)

theorem site_fields_independent {F : Type} (pf : JNum → Option F) (ff : F → Option JNum) : FieldsIndependent (Site.fields pf ff) := by
  intro f hf g hg hne v a
  simp only [Site.fields, List.mem_cons, List.mem_singleton, List.not_mem_nil, or_false] at hf hg
  rcases hf with rfl | rfl | rfl | rfl | rfl | rfl | rfl <;> rcases hg with rfl | rfl | rfl | rfl | rfl | rfl | rfl <;>
    first
    | exact absurd rfl hne
    | rfl

theorem site_struct_sound {F : Type} (pf : JNum → Option F) (ff : F → Option JNum) (goType : String) : (goStruct goType (Site.fields pf ff)).Sound :=
  goStruct_sound goType _ (site_fields_sound pf ff)

theorem site_struct_roundTrips {F : Type} (pf : JNum → Option F) (ff : F → Option JNum) (goType : String) :
    (goStruct goType (Site.fields pf ff)).RoundTrips :=
  goStruct_roundTrips goType _ (site_names_nodup pf ff) (site_fields_sound pf ff)
    (site_fields_roundTrips pf ff) (site_fields_independent pf ff)

theorem site_struct_statusFree {F : Type} (pf : JNum → Option F) (ff : F → Option JNum) (goType : String) :
    StatusFree (goStruct goType (Site.fields pf ff)).dec :=
  decodeStruct_statusFree goType _ (site_fields_statusFree pf ff)

theorem site_struct_decides {F : Type} (pf : JNum → Option F) (ff : F → Option JNum) (goType : String) :
    (goStruct goType (Site.fields pf ff)).Decides :=
  goStruct_decides goType _ (site_fields_decides pf ff)

theorem orgSite_names_nodup {F : Type} (pf : JNum → Option F) (ff : F → Option JNum) : ((OrgSite.fields pf ff).map (·.name)).Nodup := by
  simp only [OrgSite.fields, Field.of, List.map_cons, List.map_nil]
  decide

theorem orgSite_fields_sound {F : Type} (pf : JNum → Option F) (ff : F → Option JNum) : ∀ f ∈ OrgSite.fields pf ff, f.Sound := by
  intro f hf
  simp only [OrgSite.fields, List.mem_cons, List.mem_singleton, List.not_mem_nil, or_false] at hf
  rcases hf with rfl | rfl | rfl | rfl | rfl | rfl | rfl <;>
    first
    | exact Field.of_sound _ _ _ _ goBool_sound
    | exact Field.of_sound _ _ _ _ goString_sound
    | exact Field.of_sound _ _ _ _ (siteInfo_struct_sound pf ff _)

theorem orgSite_fields_roundTrips {F : Type} (pf : JNum → Option F) (ff : F → Option JNum) : ∀ f ∈ OrgSite.fields pf ff, f.RoundTrips := by
  intro f hf
  simp only [OrgSite.fields, List.mem_cons, List.mem_singleton, List.not_mem_nil, or_false] at hf
  rcases hf with rfl | rfl | rfl | rfl | rfl | rfl | rfl <;>
    first
    | exact Field.of_roundTrips _ _ _ _ goBool_roundTrips (fun _ _ => rfl)
    | exact Field.of_roundTrips _ _ _ _ goString_roundTrips (fun _ _ => rfl)
    | exact Field.of_roundTrips _ _ _ _ (siteInfo_struct_roundTrips pf ff _) (fun _ _ => rfl)

theorem orgSite_fields_statusFree {F : Type} (pf : JNum → Option F) (ff : F → Option JNum) : ∀ f ∈ OrgSite.fields pf ff, StatusFree f.dec := by
  intro f hf
  simp only [OrgSite.fields, List.mem_cons, List.mem_singleton, List.not_mem_nil, or_false] at hf
  rcases hf with rfl | rfl | rfl | rfl | rfl | rfl | rfl <;>
    first
    | exact Field.of_statusFree _ _ _ _ decBool_statusFree
    | exact Field.of_statusFree _ _ _ _ decString_statusFree
    | exact Field.of_statusFree _ _ _ _ (siteInfo_struct_statusFree pf ff _)

theorem orgSite_fields_decides {F : Type} (pf : JNum → Option F) (ff : F → Option JNum) : ∀ f ∈ OrgSite.fields pf ff, f.Decides := by
  intro f hf
  simp only [OrgSite.fields, List.mem_cons, List.mem_singleton, List.not_mem_nil, or_false] at hf
  rcases hf with rfl | rfl | rfl | rfl | rfl | rfl | rfl <;>
    first
    | exact Field.of_decides _ _ _ _ goBool_decides
    | exact Field.of_decides _ _ _ _ goString_decides
    | exact Field.of_decides _ _ _ _ (siteInfo_struct_decides pf ff _)

theorem orgSite_fields_independent {F : Type} (pf : JNum → Option F) (ff : F → Option JNum) : FieldsIndependent (OrgSite.fields pf ff) := by
  intro f hf g hg hne v a
  simp only [OrgSite.fields, List.mem_cons, List.mem_singleton, List.not_mem_nil, or_false] at hf hg
  rcases hf with rfl | rfl | rfl | rfl | rfl | rfl | rfl <;> rcases hg with rfl | rfl | rfl | rfl | rfl | rfl | rfl <;>
    first
    | exact absurd rfl hne
    | rfl

theorem orgSite_struct_sound {F : Type} (pf : JNum → Option F) (ff : F → Option JNum) (goType : String) : (goStruct goType (OrgSite.fields pf ff)).Sound :=
  goStruct_sound goType _ (orgSite_fields_sound pf ff)

theorem orgSite_struct_roundTrips {F : Type} (pf : JNum → Option F) (ff : F → Option JNum) (goType : String) :
    (goStruct goType (OrgSite.fields pf ff)).RoundTrips :=
  goStruct_roundTrips goType _ (orgSite_names_nodup pf ff) (orgSite_fields_sound pf ff)
    (orgSite_fields_roundTrips pf ff) (orgSite_fields_independent pf ff)

theorem orgSite_struct_statusFree {F : Type} (pf : JNum → Option F) (ff : F → Option JNum) (goType : String) :
    StatusFree (goStruct goType (OrgSite.fields pf ff)).dec :=
  decodeStruct_statusFree goType _ (orgSite_fields_statusFree pf ff)

theorem orgSite_struct_decides {F : Type} (pf : JNum → Option F) (ff : F → Option JNum) (goType : String) :
    (goStruct goType (OrgSite.fields pf ff)).Decides :=
  goStruct_decides goType _ (orgSite_fields_decides pf ff)

/-! ## The field tables: what a well-formed object leaves of a prior struct -/

theorem orgProfile_ext (a b : OrgProfile)
    (h0 : a.MachineName = b.MachineName) (h1 : a.ChangeServiceURL = b.ChangeServiceURL)
    (h2 : a.Name = b.Name) (h3 : a.EmailDomain = b.EmailDomain)
    (h4 : a.OrgLogoWidth = b.OrgLogoWidth) (h5 : a.OrgLogoHeight = b.OrgLogoHeight)
    (h6 : a.BaseDomain = b.BaseDomain) (h7 : a.BillingURL = b.BillingURL)
    (h8 : a.TermsOfService = b.TermsOfService) (h9 : a.OrgLogo = b.OrgLogo) :
    a = b := by
  cases a
  cases b
  simp only at *
  simp [*]

theorem orgProfile_merged_null (p : OrgProfile) : OrgProfile.merged .null p = p := rfl

theorem orgProfile_complete_null : OrgProfile.complete .null = false := rfl

theorem orgProfile_dec_merged (goType : String) (exact : Bool)
    (x : JValue) (p : OrgProfile)
    (h : (goStruct goType (OrgProfile.fields)).shape exact x = true) :
    ((goStruct goType (OrgProfile.fields)).dec x p).1 = OrgProfile.merged x p := by
  obtain ⟨kvs, rfl⟩ := objectShape_not_obj h
  apply orgProfile_ext
  · exact decodeFields_get_str (OrgProfile.fields) exact kvs h
      (orgProfile_fields_sound) (·.MachineName) _ "machine_name" rfl (fun _ _ => rfl)
      (fun f hf hne v a => by
      simp only [OrgProfile.fields, List.mem_cons, List.mem_singleton, List.not_mem_nil,
        or_false] at hf
      rcases hf with rfl | rfl | rfl | rfl | rfl | rfl | rfl | rfl | rfl | rfl <;>
        first
        | exact absurd rfl hne
        | rfl) p
  · exact decodeFields_get_str (OrgProfile.fields) exact kvs h
      (orgProfile_fields_sound) (·.ChangeServiceURL) _ "change_service_url" rfl (fun _ _ => rfl)
      (fun f hf hne v a => by
      simp only [OrgProfile.fields, List.mem_cons, List.mem_singleton, List.not_mem_nil,
        or_false] at hf
      rcases hf with rfl | rfl | rfl | rfl | rfl | rfl | rfl | rfl | rfl | rfl <;>
        first
        | exact absurd rfl hne
        | rfl) p
  · exact decodeFields_get_str (OrgProfile.fields) exact kvs h
      (orgProfile_fields_sound) (·.Name) _ "name" rfl (fun _ _ => rfl)
      (fun f hf hne v a => by
      simp only [OrgProfile.fields, List.mem_cons, List.mem_singleton, List.not_mem_nil,
        or_false] at hf
      rcases hf with rfl | rfl | rfl | rfl | rfl | rfl | rfl | rfl | rfl | rfl <;>
        first
        | exact absurd rfl hne
        | rfl) p
  · exact decodeFields_get_str (OrgProfile.fields) exact kvs h
      (orgProfile_fields_sound) (·.EmailDomain) _ "email_domain" rfl (fun _ _ => rfl)
      (fun f hf hne v a => by
      simp only [OrgProfile.fields, List.mem_cons, List.mem_singleton, List.not_mem_nil,
        or_false] at hf
      rcases hf with rfl | rfl | rfl | rfl | rfl | rfl | rfl | rfl | rfl | rfl <;>
        first
        | exact absurd rfl hne
        | rfl) p
  · exact decodeFields_get_uint (OrgProfile.fields) exact kvs h
      (orgProfile_fields_sound) (·.OrgLogoWidth) _ "org_logo_width" _ _ rfl (fun _ _ => rfl)
      (fun f hf hne v a => by
      simp only [OrgProfile.fields, List.mem_cons, List.mem_singleton, List.not_mem_nil,
        or_false] at hf
      rcases hf with rfl | rfl | rfl | rfl | rfl | rfl | rfl | rfl | rfl | rfl <;>
        first
        | exact absurd rfl hne
        | rfl) p
  · exact decodeFields_get_uint (OrgProfile.fields) exact kvs h
      (orgProfile_fields_sound) (·.OrgLogoHeight) _ "org_logo_height" _ _ rfl (fun _ _ => rfl)
      (fun f hf hne v a => by
      simp only [OrgProfile.fields, List.mem_cons, List.mem_singleton, List.not_mem_nil,
        or_false] at hf
      rcases hf with rfl | rfl | rfl | rfl | rfl | rfl | rfl | rfl | rfl | rfl <;>
        first
        | exact absurd rfl hne
        | rfl) p
  · exact decodeFields_get_str (OrgProfile.fields) exact kvs h
      (orgProfile_fields_sound) (·.BaseDomain) _ "base_domain" rfl (fun _ _ => rfl)
      (fun f hf hne v a => by
      simp only [OrgProfile.fields, List.mem_cons, List.mem_singleton, List.not_mem_nil,
        or_false] at hf
      rcases hf with rfl | rfl | rfl | rfl | rfl | rfl | rfl | rfl | rfl | rfl <;>
        first
        | exact absurd rfl hne
        | rfl) p
  · exact decodeFields_get_str (OrgProfile.fields) exact kvs h
      (orgProfile_fields_sound) (·.BillingURL) _ "billing_url" rfl (fun _ _ => rfl)
      (fun f hf hne v a => by
      simp only [OrgProfile.fields, List.mem_cons, List.mem_singleton, List.not_mem_nil,
        or_false] at hf
      rcases hf with rfl | rfl | rfl | rfl | rfl | rfl | rfl | rfl | rfl | rfl <;>
        first
        | exact absurd rfl hne
        | rfl) p
  · exact decodeFields_get_str (OrgProfile.fields) exact kvs h
      (orgProfile_fields_sound) (·.TermsOfService) _ "terms_of_service" rfl (fun _ _ => rfl)
      (fun f hf hne v a => by
      simp only [OrgProfile.fields, List.mem_cons, List.mem_singleton, List.not_mem_nil,
        or_false] at hf
      rcases hf with rfl | rfl | rfl | rfl | rfl | rfl | rfl | rfl | rfl | rfl <;>
        first
        | exact absurd rfl hne
        | rfl) p
  · exact decodeFields_get_str (OrgProfile.fields) exact kvs h
      (orgProfile_fields_sound) (·.OrgLogo) _ "org_logo" rfl (fun _ _ => rfl)
      (fun f hf hne v a => by
      simp only [OrgProfile.fields, List.mem_cons, List.mem_singleton, List.not_mem_nil,
        or_false] at hf
      rcases hf with rfl | rfl | rfl | rfl | rfl | rfl | rfl | rfl | rfl | rfl <;>
        first
        | exact absurd rfl hne
        | rfl) p

theorem orgProfile_merged_complete (exact : Bool) (x : JValue)
    (p q : OrgProfile) (h : objectShape (OrgProfile.fields) exact x = true)
    (hc : OrgProfile.complete x = true) :
    OrgProfile.merged x p = OrgProfile.merged x q := by
  obtain ⟨kvs, rfl⟩ := objectShape_not_obj h
  simp only [OrgProfile.complete, Bool.and_eq_true] at hc
  obtain ⟨⟨⟨⟨⟨⟨⟨⟨⟨c0, c1⟩, c2⟩, c3⟩, c4⟩, c5⟩, c6⟩, c7⟩, c8⟩, c9⟩ := hc
  apply orgProfile_ext
  · exact strOr_indep h "machine_name" _ rfl (fun _ hv => hv) c0 _ _
  · exact strOr_indep h "change_service_url" _ rfl (fun _ hv => hv) c1 _ _
  · exact strOr_indep h "name" _ rfl (fun _ hv => hv) c2 _ _
  · exact strOr_indep h "email_domain" _ rfl (fun _ hv => hv) c3 _ _
  · exact uintOr_indep h "org_logo_width" _ rfl 32 (fun _ hv => hv) c4 _ _
  · exact uintOr_indep h "org_logo_height" _ rfl 32 (fun _ hv => hv) c5 _ _
  · exact strOr_indep h "base_domain" _ rfl (fun _ hv => hv) c6 _ _
  · exact strOr_indep h "billing_url" _ rfl (fun _ hv => hv) c7 _ _
  · exact strOr_indep h "terms_of_service" _ rfl (fun _ hv => hv) c8 _ _
  · exact strOr_indep h "org_logo" _ rfl (fun _ hv => hv) c9 _ _

theorem orgOrganization_ext (a b : OrgOrganization)
    (h0 : a.Profile = b.Profile) (h1 : a.ID = b.ID) :
    a = b := by
  cases a
  cases b
  simp only at *
  simp [*]

theorem orgOrganization_merged_null (p : OrgOrganization) : OrgOrganization.merged .null p = p := rfl

theorem orgOrganization_complete_null : OrgOrganization.complete .null = false := rfl

theorem orgOrganization_dec_merged (goType : String) (exact : Bool)
    (x : JValue) (p : OrgOrganization)
    (h : (goStruct goType (OrgOrganization.fields)).shape exact x = true) :
    ((goStruct goType (OrgOrganization.fields)).dec x p).1 = OrgOrganization.merged x p := by
  obtain ⟨kvs, rfl⟩ := objectShape_not_obj h
  apply orgOrganization_ext
  · exact decodeFields_get_struct (OrgOrganization.fields) exact kvs h
      (orgOrganization_fields_sound) (·.Profile) _ "profile" _
      (OrgProfile.merged) rfl (fun _ _ => rfl)
      (fun f hf hne v a => by
      simp only [OrgOrganization.fields, List.mem_cons, List.mem_singleton, List.not_mem_nil,
        or_false] at hf
      rcases hf with rfl | rfl <;>
        first
        | exact absurd rfl hne
        | rfl)
      (fun v q hv => orgProfile_dec_merged "struct" exact v q hv)
      (fun q => orgProfile_merged_null q) p
  · exact decodeFields_get_str (OrgOrganization.fields) exact kvs h
      (orgOrganization_fields_sound) (·.ID) _ "id" rfl (fun _ _ => rfl)
      (fun f hf hne v a => by
      simp only [OrgOrganization.fields, List.mem_cons, List.mem_singleton, List.not_mem_nil,
        or_false] at hf
      rcases hf with rfl | rfl <;>
        first
        | exact absurd rfl hne
        | rfl) p

theorem orgOrganization_merged_complete (exact : Bool) (x : JValue)
    (p q : OrgOrganization) (h : objectShape (OrgOrganization.fields) exact x = true)
    (hc : OrgOrganization.complete x = true) :
    OrgOrganization.merged x p = OrgOrganization.merged x q := by
  obtain ⟨kvs, rfl⟩ := objectShape_not_obj h
  simp only [OrgOrganization.complete, Bool.and_eq_true] at hc
  obtain ⟨c0, c1⟩ := hc
  apply orgOrganization_ext
  · exact orgProfile_merged_complete exact _ _ _
      (sub_shape h "profile" _ rfl OrgProfile.complete orgProfile_complete_null c0) c0
  · exact strOr_indep h "id" _ rfl (fun _ hv => hv) c1 _ _

theorem org_ext (a b : Org)
    (h0 : a.Archived = b.Archived) (h1 : a.ID = b.ID) (h2 : a.Key = b.Key) (h3 : a.Role = b.Role)
    (h4 : a.Organization = b.Organization) (h5 : a.SiteID = b.SiteID) (h6 : a.UserID = b.UserID) :
    a = b := by
  cases a
  cases b
  simp only at *
  simp [*]

theorem org_merged_null (p : Org) : Org.merged .null p = p := rfl

theorem org_complete_null : Org.complete .null = false := rfl

theorem org_dec_merged (goType : String) (exact : Bool)
    (x : JValue) (p : Org)
    (h : (goStruct goType (Org.fields)).shape exact x = true) :
    ((goStruct goType (Org.fields)).dec x p).1 = Org.merged x p := by
  obtain ⟨kvs, rfl⟩ := objectShape_not_obj h
  apply org_ext
  · exact decodeFields_get_bool (Org.fields) exact kvs h
      (org_fields_sound) (·.Archived) _ "archived" rfl (fun _ _ => rfl)
      (fun f hf hne v a => by
      simp only [Org.fields, List.mem_cons, List.mem_singleton, List.not_mem_nil,
        or_false] at hf
      rcases hf with rfl | rfl | rfl | rfl | rfl | rfl | rfl <;>
        first
        | exact absurd rfl hne
        | rfl) p
  · exact decodeFields_get_str (Org.fields) exact kvs h
      (org_fields_sound) (·.ID) _ "id" rfl (fun _ _ => rfl)
      (fun f hf hne v a => by
      simp only [Org.fields, List.mem_cons, List.mem_singleton, List.not_mem_nil,
        or_false] at hf
      rcases hf with rfl | rfl | rfl | rfl | rfl | rfl | rfl <;>
        first
        | exact absurd rfl hne
        | rfl) p
  · exact decodeFields_get_str (Org.fields) exact kvs h
      (org_fields_sound) (·.Key) _ "key" rfl (fun _ _ => rfl)
      (fun f hf hne v a => by
      simp only [Org.fields, List.mem_cons, List.mem_singleton, List.not_mem_nil,
        or_false] at hf
      rcases hf with rfl | rfl | rfl | rfl | rfl | rfl | rfl <;>
        first
        | exact absurd rfl hne
        | rfl) p
  · exact decodeFields_get_str (Org.fields) exact kvs h
      (org_fields_sound) (·.Role) _ "role" rfl (fun _ _ => rfl)
      (fun f hf hne v a => by
      simp only [Org.fields, List.mem_cons, List.mem_singleton, List.not_mem_nil,
        or_false] at hf
      rcases hf with rfl | rfl | rfl | rfl | rfl | rfl | rfl <;>
        first
        | exact absurd rfl hne
        | rfl) p
  · exact decodeFields_get_struct (Org.fields) exact kvs h
      (org_fields_sound) (·.Organization) _ "organization" _
      (OrgOrganization.merged) rfl (fun _ _ => rfl)
      (fun f hf hne v a => by
      simp only [Org.fields, List.mem_cons, List.mem_singleton, List.not_mem_nil,
        or_false] at hf
      rcases hf with rfl | rfl | rfl | rfl | rfl | rfl | rfl <;>
        first
        | exact absurd rfl hne
        | rfl)
      (fun v q hv => orgOrganization_dec_merged "struct" exact v q hv)
      (fun q => orgOrganization_merged_null q) p
  · exact decodeFields_get_str (Org.fields) exact kvs h
      (org_fields_sound) (·.SiteID) _ "site_id" rfl (fun _ _ => rfl)
      (fun f hf hne v a => by
      simp only [Org.fields, List.mem_cons, List.mem_singleton, List.not_mem_nil,
        or_false] at hf
      rcases hf with rfl | rfl | rfl | rfl | rfl | rfl | rfl <;>
        first
        | exact absurd rfl hne
        | rfl) p
  · exact decodeFields_get_str (Org.fields) exact kvs h
      (org_fields_sound) (·.UserID) _ "user_id" rfl (fun _ _ => rfl)
      (fun f hf hne v a => by
      simp only [Org.fields, List.mem_cons, List.mem_singleton, List.not_mem_nil,
        or_false] at hf
      rcases hf with rfl | rfl | rfl | rfl | rfl | rfl | rfl <;>
        first
        | exact absurd rfl hne
        | rfl) p

theorem org_merged_complete (exact : Bool) (x : JValue)
    (p q : Org) (h : objectShape (Org.fields) exact x = true)
    (hc : Org.complete x = true) :
    Org.merged x p = Org.merged x q := by
  obtain ⟨kvs, rfl⟩ := objectShape_not_obj h
  simp only [Org.complete, Bool.and_eq_true] at hc
  obtain ⟨⟨⟨⟨⟨⟨c0, c1⟩, c2⟩, c3⟩, c4⟩, c5⟩, c6⟩ := hc
  apply org_ext
  · exact boolOr_indep h "archived" _ rfl (fun _ hv => hv) c0 _ _
  · exact strOr_indep h "id" _ rfl (fun _ hv => hv) c1 _ _
  · exact strOr_indep h "key" _ rfl (fun _ hv => hv) c2 _ _
  · exact strOr_indep h "role" _ rfl (fun _ hv => hv) c3 _ _
  · exact orgOrganization_merged_complete exact _ _ _
      (sub_shape h "organization" _ rfl OrgOrganization.complete orgOrganization_complete_null c4) c4
  · exact strOr_indep h "site_id" _ rfl (fun _ hv => hv) c5 _ _
  · exact strOr_indep h "user_id" _ rfl (fun _ hv => hv) c6 _ _

theorem domain_ext (a b : Domain)
    (h0 : a.DNSZoneName = b.DNSZoneName) (h1 : a.DomainLookupRAX = b.DomainLookupRAX)
    (h2 : a.DomainLookupUSCL = b.DomainLookupUSCL) (h3 : a.Environment = b.Environment)
    (h4 : a.SiteID = b.SiteID) (h5 : a.Type_ = b.Type_) (h6 : a.ID = b.ID) (h7 : a.Key = b.Key)
    (h8 : a.Status = b.Status) (h9 : a.StatusMessage = b.StatusMessage)
    (h10 : a.Deleteable = b.Deleteable) :
    a = b := by
  cases a
  cases b
  simp only at *
  simp [*]

theorem domain_merged_null (p : Domain) : Domain.merged .null p = p := rfl

theorem domain_complete_null : Domain.complete .null = false := rfl

theorem domain_dec_merged (goType : String) (exact : Bool)
    (x : JValue) (p : Domain)
    (h : (goStruct goType (Domain.fields)).shape exact x = true) :
    ((goStruct goType (Domain.fields)).dec x p).1 = Domain.merged x p := by
  obtain ⟨kvs, rfl⟩ := objectShape_not_obj h
  apply domain_ext
  · exact decodeFields_get_str (Domain.fields) exact kvs h
      (domain_fields_sound) (·.DNSZoneName) _ "dns_zone_name" rfl (fun _ _ => rfl)
      (fun f hf hne v a => by
      simp only [Domain.fields, List.mem_cons, List.mem_singleton, List.not_mem_nil,
        or_false] at hf
      rcases hf with rfl | rfl | rfl | rfl | rfl | rfl | rfl | rfl | rfl | rfl | rfl <;>
        first
        | exact absurd rfl hne
        | rfl) p
  · exact decodeFields_get_uint (Domain.fields) exact kvs h
      (domain_fields_sound) (·.DomainLookupRAX) _ "domain_lookup_rax" _ _ rfl (fun _ _ => rfl)
      (fun f hf hne v a => by
      simp only [Domain.fields, List.mem_cons, List.mem_singleton, List.not_mem_nil,
        or_false] at hf
      rcases hf with rfl | rfl | rfl | rfl | rfl | rfl | rfl | rfl | rfl | rfl | rfl <;>
        first
        | exact absurd rfl hne
        | rfl) p
  · exact decodeFields_get_uint (Domain.fields) exact kvs h
      (domain_fields_sound) (·.DomainLookupUSCL) _ "domain_lookup_usc1" _ _ rfl (fun _ _ => rfl)
      (fun f hf hne v a => by
      simp only [Domain.fields, List.mem_cons, List.mem_singleton, List.not_mem_nil,
        or_false] at hf
      rcases hf with rfl | rfl | rfl | rfl | rfl | rfl | rfl | rfl | rfl | rfl | rfl <;>
        first
        | exact absurd rfl hne
        | rfl) p
  · exact decodeFields_get_str (Domain.fields) exact kvs h
      (domain_fields_sound) (·.Environment) _ "environment" rfl (fun _ _ => rfl)
      (fun f hf hne v a => by
      simp only [Domain.fields, List.mem_cons, List.mem_singleton, List.not_mem_nil,
        or_false] at hf
      rcases hf with rfl | rfl | rfl | rfl | rfl | rfl | rfl | rfl | rfl | rfl | rfl <;>
        first
        | exact absurd rfl hne
        | rfl) p
  · exact decodeFields_get_str (Domain.fields) exact kvs h
      (domain_fields_sound) (·.SiteID) _ "site_id" rfl (fun _ _ => rfl)
      (fun f hf hne v a => by
      simp only [Domain.fields, List.mem_cons, List.mem_singleton, List.not_mem_nil,
        or_false] at hf
      rcases hf with rfl | rfl | rfl | rfl | rfl | rfl | rfl | rfl | rfl | rfl | rfl <;>
        first
        | exact absurd rfl hne
        | rfl) p
  · exact decodeFields_get_str (Domain.fields) exact kvs h
      (domain_fields_sound) (·.Type_) _ "type" rfl (fun _ _ => rfl)
      (fun f hf hne v a => by
      simp only [Domain.fields, List.mem_cons, List.mem_singleton, List.not_mem_nil,
        or_false] at hf
      rcases hf with rfl | rfl | rfl | rfl | rfl | rfl | rfl | rfl | rfl | rfl | rfl <;>
        first
        | exact absurd rfl hne
        | rfl) p
  · exact decodeFields_get_str (Domain.fields) exact kvs h
      (domain_fields_sound) (·.ID) _ "id" rfl (fun _ _ => rfl)
      (fun f hf hne v a => by
      simp only [Domain.fields, List.mem_cons, List.mem_singleton, List.not_mem_nil,
        or_false] at hf
      rcases hf with rfl | rfl | rfl | rfl | rfl | rfl | rfl | rfl | rfl | rfl | rfl <;>
        first
        | exact absurd rfl hne
        | rfl) p
  · exact decodeFields_get_str (Domain.fields) exact kvs h
      (domain_fields_sound) (·.Key) _ "key" rfl (fun _ _ => rfl)
      (fun f hf hne v a => by
      simp only [Domain.fields, List.mem_cons, List.mem_singleton, List.not_mem_nil,
        or_false] at hf
      rcases hf with rfl | rfl | rfl | rfl | rfl | rfl | rfl | rfl | rfl | rfl | rfl <;>
        first
        | exact absurd rfl hne
        | rfl) p
  · exact decodeFields_get_str (Domain.fields) exact kvs h
      (domain_fields_sound) (·.Status) _ "status" rfl (fun _ _ => rfl)
      (fun f hf hne v a => by
      simp only [Domain.fields, List.mem_cons, List.mem_singleton, List.not_mem_nil,
        or_false] at hf
      rcases hf with rfl | rfl | rfl | rfl | rfl | rfl | rfl | rfl | rfl | rfl | rfl <;>
        first
        | exact absurd rfl hne
        | rfl) p
  · exact decodeFields_get_str (Domain.fields) exact kvs h
      (domain_fields_sound) (·.StatusMessage) _ "status_message" rfl (fun _ _ => rfl)
      (fun f hf hne v a => by
      simp only [Domain.fields, List.mem_cons, List.mem_singleton, List.not_mem_nil,
        or_false] at hf
      rcases hf with rfl | rfl | rfl | rfl | rfl | rfl | rfl | rfl | rfl | rfl | rfl <;>
        first
        | exact absurd rfl hne
        | rfl) p
  · exact decodeFields_get_bool (Domain.fields) exact kvs h
      (domain_fields_sound) (·.Deleteable) _ "deletable" rfl (fun _ _ => rfl)
      (fun f hf hne v a => by
      simp only [Domain.fields, List.mem_cons, List.mem_singleton, List.not_mem_nil,
        or_false] at hf
      rcases hf with rfl | rfl | rfl | rfl | rfl | rfl | rfl | rfl | rfl | rfl | rfl <;>
        first
        | exact absurd rfl hne
        | rfl) p

theorem domain_merged_complete (exact : Bool) (x : JValue)
    (p q : Domain) (h : objectShape (Domain.fields) exact x = true)
    (hc : Domain.complete x = true) :
    Domain.merged x p = Domain.merged x q := by
  obtain ⟨kvs, rfl⟩ := objectShape_not_obj h
  simp only [Domain.complete, Bool.and_eq_true] at hc
  obtain ⟨⟨⟨⟨⟨⟨⟨⟨⟨⟨c0, c1⟩, c2⟩, c3⟩, c4⟩, c5⟩, c6⟩, c7⟩, c8⟩, c9⟩, c10⟩ := hc
  apply domain_ext
  · exact strOr_indep h "dns_zone_name" _ rfl (fun _ hv => hv) c0 _ _
  · exact uintOr_indep h "domain_lookup_rax" _ rfl 64 (fun _ hv => hv) c1 _ _
  · exact uintOr_indep h "domain_lookup_usc1" _ rfl 64 (fun _ hv => hv) c2 _ _
  · exact strOr_indep h "environment" _ rfl (fun _ hv => hv) c3 _ _
  · exact strOr_indep h "site_id" _ rfl (fun _ hv => hv) c4 _ _
  · exact strOr_indep h "type" _ rfl (fun _ hv => hv) c5 _ _
  · exact strOr_indep h "id" _ rfl (fun _ hv => hv) c6 _ _
  · exact strOr_indep h "key" _ rfl (fun _ hv => hv) c7 _ _
  · exact strOr_indep h "status" _ rfl (fun _ hv => hv) c8 _ _
  · exact strOr_indep h "status_message" _ rfl (fun _ hv => hv) c9 _ _
  · exact boolOr_indep h "deletable" _ rfl (fun _ hv => hv) c10 _ _

theorem lastCodePush_ext {F : Type} (a b : LastCodePush F)
    (h0 : a.Timestamp = b.Timestamp) (h1 : a.UserUUID = b.UserUUID) :
    a = b := by
  cases a
  cases b
  simp only at *
  simp [*]

theorem lastCodePush_merged_null {F : Type} (pf : JNum → Option F) (p : LastCodePush F) : LastCodePush.merged pf .null p = p := rfl

theorem lastCodePush_complete_null : LastCodePush.complete .null = false := rfl

theorem lastCodePush_dec_merged {F : Type} (pf : JNum → Option F) (ff : F → Option JNum) (goType : String) (exact : Bool)
    (x : JValue) (p : LastCodePush F)
    (h : (goStruct goType (LastCodePush.fields pf ff)).shape exact x = true) :
    ((goStruct goType (LastCodePush.fields pf ff)).dec x p).1 = LastCodePush.merged pf x p := by
  obtain ⟨kvs, rfl⟩ := objectShape_not_obj h
  apply lastCodePush_ext
  · exact decodeFields_get_str (LastCodePush.fields pf ff) exact kvs h
      (lastCodePush_fields_sound pf ff) (·.Timestamp) _ "timestamp" rfl (fun _ _ => rfl)
      (fun f hf hne v a => by
      simp only [LastCodePush.fields, List.mem_cons, List.mem_singleton, List.not_mem_nil,
        or_false] at hf
      rcases hf with rfl | rfl <;>
        first
        | exact absurd rfl hne
        | rfl) p
  · exact decodeFields_get_any pf ff (LastCodePush.fields pf ff) exact kvs h
      (lastCodePush_fields_sound pf ff) (·.UserUUID) _ "user_uuid" rfl (fun _ _ => rfl)
      (fun f hf hne v a => by
      simp only [LastCodePush.fields, List.mem_cons, List.mem_singleton, List.not_mem_nil,
        or_false] at hf
      rcases hf with rfl | rfl <;>
        first
        | exact absurd rfl hne
        | rfl) p

theorem lastCodePush_merged_complete {F : Type} (pf : JNum → Option F) (ff : F → Option JNum) (exact : Bool) (x : JValue)
    (p q : LastCodePush F) (h : objectShape (LastCodePush.fields pf ff) exact x = true)
    (hc : LastCodePush.complete x = true) :
    LastCodePush.merged pf x p = LastCodePush.merged pf x q := by
  obtain ⟨kvs, rfl⟩ := objectShape_not_obj h
  simp only [LastCodePush.complete, Bool.and_eq_true] at hc
  obtain ⟨c0, c1⟩ := hc
  apply lastCodePush_ext
  · exact strOr_indep h "timestamp" _ rfl (fun _ hv => hv) c0 _ _
  · exact anyOr_indep pf _ "user_uuid" c1 _ _

theorem product_ext (a b : Product)
    (h0 : a.ID = b.ID) (h1 : a.Longname = b.Longname) :
    a = b := by
  cases a
  cases b
  simp only at *
  simp [*]

theorem product_merged_null (p : Product) : Product.merged .null p = p := rfl

theorem product_complete_null : Product.complete .null = false := rfl

theorem product_dec_merged (goType : String) (exact : Bool)
    (x : JValue) (p : Product)
    (h : (goStruct goType (Product.fields)).shape exact x = true) :
    ((goStruct goType (Product.fields)).dec x p).1 = Product.merged x p := by
  obtain ⟨kvs, rfl⟩ := objectShape_not_obj h
  apply product_ext
  · exact decodeFields_get_str (Product.fields) exact kvs h
      (product_fields_sound) (·.ID) _ "id" rfl (fun _ _ => rfl)
      (fun f hf hne v a => by
      simp only [Product.fields, List.mem_cons, List.mem_singleton, List.not_mem_nil,
        or_false] at hf
      rcases hf with rfl | rfl <;>
        first
        | exact absurd rfl hne
        | rfl) p
  · exact decodeFields_get_str (Product.fields) exact kvs h
      (product_fields_sound) (·.Longname) _ "longname" rfl (fun _ _ => rfl)
      (fun f hf hne v a => by
      simp only [Product.fields, List.mem_cons, List.mem_singleton, List.not_mem_nil,
        or_false] at hf
      rcases hf with rfl | rfl <;>
        first
        | exact absurd rfl hne
        | rfl) p

theorem product_merged_complete (exact : Bool) (x : JValue)
    (p q : Product) (h : objectShape (Product.fields) exact x = true)
    (hc : Product.complete x = true) :
    Product.merged x p = Product.merged x q := by
  obtain ⟨kvs, rfl⟩ := objectShape_not_obj h
  simp only [Product.complete, Bool.and_eq_true] at hc
  obtain ⟨c0, c1⟩ := hc
  apply product_ext
  · exact strOr_indep h "id" _ rfl (fun _ hv => hv) c0 _ _
  · exact strOr_indep h "longname" _ rfl (fun _ hv => hv) c1 _ _

theorem upstream_ext (a b : Upstream)
    (h0 : a.Branch = b.Branch) (h1 : a.ProductID = b.ProductID) (h2 : a.URL = b.URL) :
    a = b := by
  cases a
  cases b
  simp only at *
  simp [*]

theorem upstream_merged_null (p : Upstream) : Upstream.merged .null p = p := rfl

theorem upstream_complete_null : Upstream.complete .null = false := rfl

theorem upstream_dec_merged (goType : String) (exact : Bool)
    (x : JValue) (p : Upstream)
    (h : (goStruct goType (Upstream.fields)).shape exact x = true) :
    ((goStruct goType (Upstream.fields)).dec x p).1 = Upstream.merged x p := by
  obtain ⟨kvs, rfl⟩ := objectShape_not_obj h
  apply upstream_ext
  · exact decodeFields_get_str (Upstream.fields) exact kvs h
      (upstream_fields_sound) (·.Branch) _ "branch" rfl (fun _ _ => rfl)
      (fun f hf hne v a => by
      simp only [Upstream.fields, List.mem_cons, List.mem_singleton, List.not_mem_nil,
        or_false] at hf
      rcases hf with rfl | rfl | rfl <;>
        first
        | exact absurd rfl hne
        | rfl) p
  · exact decodeFields_get_str (Upstream.fields) exact kvs h
      (upstream_fields_sound) (·.ProductID) _ "product_id" rfl (fun _ _ => rfl)
      (fun f hf hne v a => by
      simp only [Upstream.fields, List.mem_cons, List.mem_singleton, List.not_mem_nil,
        or_false] at hf
      rcases hf with rfl | rfl | rfl <;>
        first
        | exact absurd rfl hne
        | rfl) p
  · exact decodeFields_get_str (Upstream.fields) exact kvs h
      (upstream_fields_sound) (·.URL) _ "url" rfl (fun _ _ => rfl)
      (fun f hf hne v a => by
      simp only [Upstream.fields, List.mem_cons, List.mem_singleton, List.not_mem_nil,
        or_false] at hf
      rcases hf with rfl | rfl | rfl <;>
        first
        | exact absurd rfl hne
        | rfl) p

theorem upstream_merged_complete (exact : Bool) (x : JValue)
    (p q : Upstream) (h : objectShape (Upstream.fields) exact x = true)
    (hc : Upstream.complete x = true) :
    Upstream.merged x p = Upstream.merged x q := by
  obtain ⟨kvs, rfl⟩ := objectShape_not_obj h
  simp only [Upstream.complete, Bool.and_eq_true] at hc
  obtain ⟨⟨c0, c1⟩, c2⟩ := hc
  apply upstream_ext
  · exact strOr_indep h "branch" _ rfl (fun _ hv => hv) c0 _ _
  · exact strOr_indep h "product_id" _ rfl (fun _ hv => hv) c1 _ _
  · exact strOr_indep h "url" _ rfl (fun _ hv => hv) c2 _ _

theorem siteInfo_ext {F : Type} (a b : SiteInfo F)
    (h0 : a.Created = b.Created) (h1 : a.CreatedByUserID = b.CreatedByUserID)
    (h2 : a.Framework = b.Framework) (h3 : a.Frozen = b.Frozen) (h4 : a.ID = b.ID)
    (h5 : a.LastCodePush = b.LastCodePush) (h6 : a.Name = b.Name) (h7 : a.Owner = b.Owner)
    (h8 : a.PhpVersion = b.PhpVersion) (h9 : a.PreferredZone = b.PreferredZone)
    (h10 : a.Product = b.Product) (h11 : a.ProductID = b.ProductID)
    (h12 : a.ServiceLevel = b.ServiceLevel) (h13 : a.Upstream = b.Upstream) :
    a = b := by
  cases a
  cases b
  simp only at *
  simp [*]

theorem siteInfo_merged_null {F : Type} (pf : JNum → Option F) (p : SiteInfo F) : SiteInfo.merged pf .null p = p := rfl

theorem siteInfo_complete_null : SiteInfo.complete .null = false := rfl

theorem siteInfo_dec_merged {F : Type} (pf : JNum → Option F) (ff : F → Option JNum) (goType : String) (exact : Bool)
    (x : JValue) (p : SiteInfo F)
    (h : (goStruct goType (SiteInfo.fields pf ff)).shape exact x = true) :
    ((goStruct goType (SiteInfo.fields pf ff)).dec x p).1 = SiteInfo.merged pf x p := by
  obtain ⟨kvs, rfl⟩ := objectShape_not_obj h
  apply siteInfo_ext
  · exact decodeFields_get_int (SiteInfo.fields pf ff) exact kvs h
      (siteInfo_fields_sound pf ff) (·.Created) _ "created" rfl (fun _ _ => rfl)
      (fun f hf hne v a => by
      simp only [SiteInfo.fields, List.mem_cons, List.mem_singleton, List.not_mem_nil,
        or_false] at hf
      rcases hf with rfl | rfl | rfl | rfl | rfl | rfl | rfl | rfl | rfl | rfl | rfl | rfl | rfl | rfl <;>
        first
        | exact absurd rfl hne
        | rfl) p
  · exact decodeFields_get_str (SiteInfo.fields pf ff) exact kvs h
      (siteInfo_fields_sound pf ff) (·.CreatedByUserID) _ "created_by_user_id" rfl (fun _ _ => rfl)
      (fun f hf hne v a => by
      simp only [SiteInfo.fields, List.mem_cons, List.mem_singleton, List.not_mem_nil,
        or_false] at hf
      rcases hf with rfl | rfl | rfl | rfl | rfl | rfl | rfl | rfl | rfl | rfl | rfl | rfl | rfl | rfl <;>
        first
        | exact absurd rfl hne
        | rfl) p
  · exact decodeFields_get_str (SiteInfo.fields pf ff) exact kvs h
      (siteInfo_fields_sound pf ff) (·.Framework) _ "framework" rfl (fun _ _ => rfl)
      (fun f hf hne v a => by
      simp only [SiteInfo.fields, List.mem_cons, List.mem_singleton, List.not_mem_nil,
        or_false] at hf
      rcases hf with rfl | rfl | rfl | rfl | rfl | rfl | rfl | rfl | rfl | rfl | rfl | rfl | rfl | rfl <;>
        first
        | exact absurd rfl hne
        | rfl) p
  · exact decodeFields_get_bool (SiteInfo.fields pf ff) exact kvs h
      (siteInfo_fields_sound pf ff) (·.Frozen) _ "frozen" rfl (fun _ _ => rfl)
      (fun f hf hne v a => by
      simp only [SiteInfo.fields, List.mem_cons, List.mem_singleton, List.not_mem_nil,
        or_false] at hf
      rcases hf with rfl | rfl | rfl | rfl | rfl | rfl | rfl | rfl | rfl | rfl | rfl | rfl | rfl | rfl <;>
        first
        | exact absurd rfl hne
        | rfl) p
  · exact decodeFields_get_str (SiteInfo.fields pf ff) exact kvs h
      (siteInfo_fields_sound pf ff) (·.ID) _ "id" rfl (fun _ _ => rfl)
      (fun f hf hne v a => by
      simp only [SiteInfo.fields, List.mem_cons, List.mem_singleton, List.not_mem_nil,
        or_false] at hf
      rcases hf with rfl | rfl | rfl | rfl | rfl | rfl | rfl | rfl | rfl | rfl | rfl | rfl | rfl | rfl <;>
        first
        | exact absurd rfl hne
        | rfl) p
  · exact decodeFields_get_struct (SiteInfo.fields pf ff) exact kvs h
      (siteInfo_fields_sound pf ff) (·.LastCodePush) _ "last_code_push" _
      (LastCodePush.merged pf) rfl (fun _ _ => rfl)
      (fun f hf hne v a => by
      simp only [SiteInfo.fields, List.mem_cons, List.mem_singleton, List.not_mem_nil,
        or_false] at hf
      rcases hf with rfl | rfl | rfl | rfl | rfl | rfl | rfl | rfl | rfl | rfl | rfl | rfl | rfl | rfl <;>
        first
        | exact absurd rfl hne
        | rfl)
      (fun v q hv => lastCodePush_dec_merged pf ff "struct" exact v q hv)
      (fun q => lastCodePush_merged_null pf q) p
  · exact decodeFields_get_str (SiteInfo.fields pf ff) exact kvs h
      (siteInfo_fields_sound pf ff) (·.Name) _ "name" rfl (fun _ _ => rfl)
      (fun f hf hne v a => by
      simp only [SiteInfo.fields, List.mem_cons, List.mem_singleton, List.not_mem_nil,
        or_false] at hf
      rcases hf with rfl | rfl | rfl | rfl | rfl | rfl | rfl | rfl | rfl | rfl | rfl | rfl | rfl | rfl <;>
        first
        | exact absurd rfl hne
        | rfl) p
  · exact decodeFields_get_str (SiteInfo.fields pf ff) exact kvs h
      (siteInfo_fields_sound pf ff) (·.Owner) _ "owner" rfl (fun _ _ => rfl)
      (fun f hf hne v a => by
      simp only [SiteInfo.fields, List.mem_cons, List.mem_singleton, List.not_mem_nil,
        or_false] at hf
      rcases hf with rfl | rfl | rfl | rfl | rfl | rfl | rfl | rfl | rfl | rfl | rfl | rfl | rfl | rfl <;>
        first
        | exact absurd rfl hne
        | rfl) p
  · exact decodeFields_get_int (SiteInfo.fields pf ff) exact kvs h
      (siteInfo_fields_sound pf ff) (·.PhpVersion) _ "php_version" rfl (fun _ _ => rfl)
      (fun f hf hne v a => by
      simp only [SiteInfo.fields, List.mem_cons, List.mem_singleton, List.not_mem_nil,
        or_false] at hf
      rcases hf with rfl | rfl | rfl | rfl | rfl | rfl | rfl | rfl | rfl | rfl | rfl | rfl | rfl | rfl <;>
        first
        | exact absurd rfl hne
        | rfl) p
  · exact decodeFields_get_str (SiteInfo.fields pf ff) exact kvs h
      (siteInfo_fields_sound pf ff) (·.PreferredZone) _ "preferred_zone" rfl (fun _ _ => rfl)
      (fun f hf hne v a => by
      simp only [SiteInfo.fields, List.mem_cons, List.mem_singleton, List.not_mem_nil,
        or_false] at hf
      rcases hf with rfl | rfl | rfl | rfl | rfl | rfl | rfl | rfl | rfl | rfl | rfl | rfl | rfl | rfl <;>
        first
        | exact absurd rfl hne
        | rfl) p
  · exact decodeFields_get_struct (SiteInfo.fields pf ff) exact kvs h
      (siteInfo_fields_sound pf ff) (·.Product) _ "product" _
      (Product.merged) rfl (fun _ _ => rfl)
      (fun f hf hne v a => by
      simp only [SiteInfo.fields, List.mem_cons, List.mem_singleton, List.not_mem_nil,
        or_false] at hf
      rcases hf with rfl | rfl | rfl | rfl | rfl | rfl | rfl | rfl | rfl | rfl | rfl | rfl | rfl | rfl <;>
        first
        | exact absurd rfl hne
        | rfl)
      (fun v q hv => product_dec_merged "struct" exact v q hv)
      (fun q => product_merged_null q) p
  · exact decodeFields_get_str (SiteInfo.fields pf ff) exact kvs h
      (siteInfo_fields_sound pf ff) (·.ProductID) _ "product_id" rfl (fun _ _ => rfl)
      (fun f hf hne v a => by
      simp only [SiteInfo.fields, List.mem_cons, List.mem_singleton, List.not_mem_nil,
        or_false] at hf
      rcases hf with rfl | rfl | rfl | rfl | rfl | rfl | rfl | rfl | rfl | rfl | rfl | rfl | rfl | rfl <;>
        first
        | exact absurd rfl hne
        | rfl) p
  · exact decodeFields_get_str (SiteInfo.fields pf ff) exact kvs h
      (siteInfo_fields_sound pf ff) (·.ServiceLevel) _ "service_level" rfl (fun _ _ => rfl)
      (fun f hf hne v a => by
      simp only [SiteInfo.fields, List.mem_cons, List.mem_singleton, List.not_mem_nil,
        or_false] at hf
      rcases hf with rfl | rfl | rfl | rfl | rfl | rfl | rfl | rfl | rfl | rfl | rfl | rfl | rfl | rfl <;>
        first
        | exact absurd rfl hne
        | rfl) p
  · exact decodeFields_get_struct (SiteInfo.fields pf ff) exact kvs h
      (siteInfo_fields_sound pf ff) (·.Upstream) _ "upstream" _
      (Upstream.merged) rfl (fun _ _ => rfl)
      (fun f hf hne v a => by
      simp only [SiteInfo.fields, List.mem_cons, List.mem_singleton, List.not_mem_nil,
        or_false] at hf
      rcases hf with rfl | rfl | rfl | rfl | rfl | rfl | rfl | rfl | rfl | rfl | rfl | rfl | rfl | rfl <;>
        first
        | exact absurd rfl hne
        | rfl)
      (fun v q hv => upstream_dec_merged "struct" exact v q hv)
      (fun q => upstream_merged_null q) p

theorem siteInfo_merged_complete {F : Type} (pf : JNum → Option F) (ff : F → Option JNum) (exact : Bool) (x : JValue)
    (p q : SiteInfo F) (h : objectShape (SiteInfo.fields pf ff) exact x = true)
    (hc : SiteInfo.complete x = true) :
    SiteInfo.merged pf x p = SiteInfo.merged pf x q := by
  obtain ⟨kvs, rfl⟩ := objectShape_not_obj h
  simp only [SiteInfo.complete, Bool.and_eq_true] at hc
  obtain ⟨⟨⟨⟨⟨⟨⟨⟨⟨⟨⟨⟨⟨c0, c1⟩, c2⟩, c3⟩, c4⟩, c5⟩, c6⟩, c7⟩, c8⟩, c9⟩, c10⟩, c11⟩, c12⟩, c13⟩ := hc
  apply siteInfo_ext
  · exact intOr_indep h "created" _ rfl (fun v hv => goJsonInt64_shape_false hv) c0 _ _
  · exact strOr_indep h "created_by_user_id" _ rfl (fun _ hv => hv) c1 _ _
  · exact strOr_indep h "framework" _ rfl (fun _ hv => hv) c2 _ _
  · exact boolOr_indep h "frozen" _ rfl (fun _ hv => hv) c3 _ _
  · exact strOr_indep h "id" _ rfl (fun _ hv => hv) c4 _ _
  · exact lastCodePush_merged_complete pf ff exact _ _ _
      (sub_shape h "last_code_push" _ rfl LastCodePush.complete lastCodePush_complete_null c5) c5
  · exact strOr_indep h "name" _ rfl (fun _ hv => hv) c6 _ _
  · exact strOr_indep h "owner" _ rfl (fun _ hv => hv) c7 _ _
  · exact intOr_indep h "php_version" _ rfl (fun v hv => goJsonInt64_shape_false hv) c8 _ _
  · exact strOr_indep h "preferred_zone" _ rfl (fun _ hv => hv) c9 _ _
  · exact product_merged_complete exact _ _ _
      (sub_shape h "product" _ rfl Product.complete product_complete_null c10) c10
  · exact strOr_indep h "product_id" _ rfl (fun _ hv => hv) c11 _ _
  · exact strOr_indep h "service_level" _ rfl (fun _ hv => hv) c12 _ _
  · exact upstream_merged_complete exact _ _ _
      (sub_shape h "upstream" _ rfl Upstream.complete upstream_complete_null c13) c13

theorem site_ext {F : Type} (a b : Pantheon.Site F)
    (h0 : a.Archived = b.Archived) (h1 : a.ID = b.ID) (h2 : a.Key = b.Key) (h3 : a.Role = b.Role)
    (h4 : a.Site = b.Site) (h5 : a.SiteID = b.SiteID) (h6 : a.UserID = b.UserID) :
    a = b := by
  cases a
  cases b
  simp only at *
  simp [*]

theorem site_merged_null {F : Type} (pf : JNum → Option F) (p : Pantheon.Site F) : Site.merged pf .null p = p := rfl

theorem site_complete_null : Site.complete .null = false := rfl

theorem site_dec_merged {F : Type} (pf : JNum → Option F) (ff : F → Option JNum) (goType : String) (exact : Bool)
    (x : JValue) (p : Pantheon.Site F)
    (h : (goStruct goType (Site.fields pf ff)).shape exact x = true) :
    ((goStruct goType (Site.fields pf ff)).dec x p).1 = Site.merged pf x p := by
  obtain ⟨kvs, rfl⟩ := objectShape_not_obj h
  apply site_ext
  · exact decodeFields_get_bool (Site.fields pf ff) exact kvs h
      (site_fields_sound pf ff) (·.Archived) _ "archived" rfl (fun _ _ => rfl)
      (fun f hf hne v a => by
      simp only [Site.fields, List.mem_cons, List.mem_singleton, List.not_mem_nil,
        or_false] at hf
      rcases hf with rfl | rfl | rfl | rfl | rfl | rfl | rfl <;>
        first
        | exact absurd rfl hne
        | rfl) p
  · exact decodeFields_get_str (Site.fields pf ff) exact kvs h
      (site_fields_sound pf ff) (·.ID) _ "id" rfl (fun _ _ => rfl)
      (fun f hf hne v a => by
      simp only [Site.fields, List.mem_cons, List.mem_singleton, List.not_mem_nil,
        or_false] at hf
      rcases hf with rfl | rfl | rfl | rfl | rfl | rfl | rfl <;>
        first
        | exact absurd rfl hne
        | rfl) p
  · exact decodeFields_get_str (Site.fields pf ff) exact kvs h
      (site_fields_sound pf ff) (·.Key) _ "key" rfl (fun _ _ => rfl)
      (fun f hf hne v a => by
      simp only [Site.fields, List.mem_cons, List.mem_singleton, List.not_mem_nil,
        or_false] at hf
      rcases hf with rfl | rfl | rfl | rfl | rfl | rfl | rfl <;>
        first
        | exact absurd rfl hne
        | rfl) p
  · exact decodeFields_get_str (Site.fields pf ff) exact kvs h
      (site_fields_sound pf ff) (·.Role) _ "role" rfl (fun _ _ => rfl)
      (fun f hf hne v a => by
      simp only [Site.fields, List.mem_cons, List.mem_singleton, List.not_mem_nil,
        or_false] at hf
      rcases hf with rfl | rfl | rfl | rfl | rfl | rfl | rfl <;>
        first
        | exact absurd rfl hne
        | rfl) p
  · exact decodeFields_get_struct (Site.fields pf ff) exact kvs h
      (site_fields_sound pf ff) (·.Site) _ "site" _
      (SiteInfo.merged pf) rfl (fun _ _ => rfl)
      (fun f hf hne v a => by
      simp only [Site.fields, List.mem_cons, List.mem_singleton, List.not_mem_nil,
        or_false] at hf
      rcases hf with rfl | rfl | rfl | rfl | rfl | rfl | rfl <;>
        first
        | exact absurd rfl hne
        | rfl)
      (fun v q hv => siteInfo_dec_merged pf ff "struct" exact v q hv)
      (fun q => siteInfo_merged_null pf q) p
  · exact decodeFields_get_str (Site.fields pf ff) exact kvs h
      (site_fields_sound pf ff) (·.SiteID) _ "site_id" rfl (fun _ _ => rfl)
      (fun f hf hne v a => by
      simp only [Site.fields, List.mem_cons, List.mem_singleton, List.not_mem_nil,
        or_false] at hf
      rcases hf with rfl | rfl | rfl | rfl | rfl | rfl | rfl <;>
        first
        | exact absurd rfl hne
        | rfl) p
  · exact decodeFields_get_str (Site.fields pf ff) exact kvs h
      (site_fields_sound pf ff) (·.UserID) _ "user_id" rfl (fun _ _ => rfl)
      (fun f hf hne v a => by
      simp only [Site.fields, List.mem_cons, List.mem_singleton, List.not_mem_nil,
        or_false] at hf
      rcases hf with rfl | rfl | rfl | rfl | rfl | rfl | rfl <;>
        first
        | exact absurd rfl hne
        | rfl) p

theorem site_merged_complete {F : Type} (pf : JNum → Option F) (ff : F → Option JNum) (exact : Bool) (x : JValue)
    (p q : Pantheon.Site F) (h : objectShape (Site.fields pf ff) exact x = true)
    (hc : Site.complete x = true) :
    Site.merged pf x p = Site.merged pf x q := by
  obtain ⟨kvs, rfl⟩ := objectShape_not_obj h
  simp only [Site.complete, Bool.and_eq_true] at hc
  obtain ⟨⟨⟨⟨⟨⟨c0, c1⟩, c2⟩, c3⟩, c4⟩, c5⟩, c6⟩ := hc
  apply site_ext
  · exact boolOr_indep h "archived" _ rfl (fun _ hv => hv) c0 _ _
  · exact strOr_indep h "id" _ rfl (fun _ hv => hv) c1 _ _
  · exact strOr_indep h "key" _ rfl (fun _ hv => hv) c2 _ _
  · exact strOr_indep h "role" _ rfl (fun _ hv => hv) c3 _ _
  · exact siteInfo_merged_complete pf ff exact _ _ _
      (sub_shape h "site" _ rfl SiteInfo.complete siteInfo_complete_null c4) c4
  · exact strOr_indep h "site_id" _ rfl (fun _ hv => hv) c5 _ _
  · exact strOr_indep h "user_id" _ rfl (fun _ hv => hv) c6 _ _

theorem orgSite_ext {F : Type} (a b : OrgSite F)
    (h0 : a.Archived = b.Archived) (h1 : a.ID = b.ID) (h2 : a.Key = b.Key) (h3 : a.Role = b.Role)
    (h4 : a.Site = b.Site) (h5 : a.Organization = b.Organization) (h6 : a.SiteID = b.SiteID) :
    a = b := by
  cases a
  cases b
  simp only at *
  simp [*]

theorem orgSite_merged_null {F : Type} (pf : JNum → Option F) (p : OrgSite F) : OrgSite.merged pf .null p = p := rfl

theorem orgSite_complete_null : OrgSite.complete .null = false := rfl

theorem orgSite_dec_merged {F : Type} (pf : JNum → Option F) (ff : F → Option JNum) (goType : String) (exact : Bool)
    (x : JValue) (p : OrgSite F)
    (h : (goStruct goType (OrgSite.fields pf ff)).shape exact x = true) :
    ((goStruct goType (OrgSite.fields pf ff)).dec x p).1 = OrgSite.merged pf x p := by
  obtain ⟨kvs, rfl⟩ := objectShape_not_obj h
  apply orgSite_ext
  · exact decodeFields_get_bool (OrgSite.fields pf ff) exact kvs h
      (orgSite_fields_sound pf ff) (·.Archived) _ "archived" rfl (fun _ _ => rfl)
      (fun f hf hne v a => by
      simp only [OrgSite.fields, List.mem_cons, List.mem_singleton, List.not_mem_nil,
        or_false] at hf
      rcases hf with rfl | rfl | rfl | rfl | rfl | rfl | rfl <;>
        first
        | exact absurd rfl hne
        | rfl) p
  · exact decodeFields_get_str (OrgSite.fields pf ff) exact kvs h
      (orgSite_fields_sound pf ff) (·.ID) _ "id" rfl (fun _ _ => rfl)
      (fun f hf hne v a => by
      simp only [OrgSite.fields, List.mem_cons, List.mem_singleton, List.not_mem_nil,
        or_false] at hf
      rcases hf with rfl | rfl | rfl | rfl | rfl | rfl | rfl <;>
        first
        | exact absurd rfl hne
        | rfl) p
  · exact decodeFields_get_str (OrgSite.fields pf ff) exact kvs h
      (orgSite_fields_sound pf ff) (·.Key) _ "key" rfl (fun _ _ => rfl)
      (fun f hf hne v a => by
      simp only [OrgSite.fields, List.mem_cons, List.mem_singleton, List.not_mem_nil,
        or_false] at hf
      rcases hf with rfl | rfl | rfl | rfl | rfl | rfl | rfl <;>
        first
        | exact absurd rfl hne
        | rfl) p
  · exact decodeFields_get_str (OrgSite.fields pf ff) exact kvs h
      (orgSite_fields_sound pf ff) (·.Role) _ "role" rfl (fun _ _ => rfl)
      (fun f hf hne v a => by
      simp only [OrgSite.fields, List.mem_cons, List.mem_singleton, List.not_mem_nil,
        or_false] at hf
      rcases hf with rfl | rfl | rfl | rfl | rfl | rfl | rfl <;>
        first
        | exact absurd rfl hne
        | rfl) p
  · exact decodeFields_get_struct (OrgSite.fields pf ff) exact kvs h
      (orgSite_fields_sound pf ff) (·.Site) _ "site" _
      (SiteInfo.merged pf) rfl (fun _ _ => rfl)
      (fun f hf hne v a => by
      simp only [OrgSite.fields, List.mem_cons, List.mem_singleton, List.not_mem_nil,
        or_false] at hf
      rcases hf with rfl | rfl | rfl | rfl | rfl | rfl | rfl <;>
        first
        | exact absurd rfl hne
        | rfl)
      (fun v q hv => siteInfo_dec_merged pf ff "struct" exact v q hv)
      (fun q => siteInfo_merged_null pf q) p
  · exact decodeFields_get_str (OrgSite.fields pf ff) exact kvs h
      (orgSite_fields_sound pf ff) (·.Organization) _ "organization_id" rfl (fun _ _ => rfl)
      (fun f hf hne v a => by
      simp only [OrgSite.fields, List.mem_cons, List.mem_singleton, List.not_mem_nil,
        or_false] at hf
      rcases hf with rfl | rfl | rfl | rfl | rfl | rfl | rfl <;>
        first
        | exact absurd rfl hne
        | rfl) p
  · exact decodeFields_get_str (OrgSite.fields pf ff) exact kvs h
      (orgSite_fields_sound pf ff) (·.SiteID) _ "site_id" rfl (fun _ _ => rfl)
      (fun f hf hne v a => by
      simp only [OrgSite.fields, List.mem_cons, List.mem_singleton, List.not_mem_nil,
        or_false] at hf
      rcases hf with rfl | rfl | rfl | rfl | rfl | rfl | rfl <;>
        first
        | exact absurd rfl hne
        | rfl) p

theorem orgSite_merged_complete {F : Type} (pf : JNum → Option F) (ff : F → Option JNum) (exact : Bool) (x : JValue)
    (p q : OrgSite F) (h : objectShape (OrgSite.fields pf ff) exact x = true)
    (hc : OrgSite.complete x = true) :
    OrgSite.merged pf x p = OrgSite.merged pf x q := by
  obtain ⟨kvs, rfl⟩ := objectShape_not_obj h
  simp only [OrgSite.complete, Bool.and_eq_true] at hc
  obtain ⟨⟨⟨⟨⟨⟨c0, c1⟩, c2⟩, c3⟩, c4⟩, c5⟩, c6⟩ := hc
  apply orgSite_ext
  · exact boolOr_indep h "archived" _ rfl (fun _ hv => hv) c0 _ _
  · exact strOr_indep h "id" _ rfl (fun _ hv => hv) c1 _ _
  · exact strOr_indep h "key" _ rfl (fun _ hv => hv) c2 _ _
  · exact strOr_indep h "role" _ rfl (fun _ hv => hv) c3 _ _
  · exact siteInfo_merged_complete pf ff exact _ _ _
      (sub_shape h "site" _ rfl SiteInfo.complete siteInfo_complete_null c4) c4
  · exact strOr_indep h "organization_id" _ rfl (fun _ hv => hv) c5 _ _
  · exact strOr_indep h "site_id" _ rfl (fun _ hv => hv) c6 _ _

/-! ## Slices: what well-formed entries leave of the prior elements -/

/-- For an array of well-formed entries `json.Unmarshal` succeeds on every
slice, and the i-th element of the result is what the i-th entry leaves of the
i-th entry of the backing array (of the zero value behind its end). -/
theorem unmarshalSlice_merged {α : Type} (goType : String) (ty : GoType α) (zero : α)
    (M : JValue → α → α) (hs : ty.Sound)
    (hM : ∀ x p, ty.shape false x = true → (ty.dec x p).1 = M x p) (xs : List JValue)
    (hwf : ∀ x ∈ xs, ty.shape false x = true) (cur : GoSlice α) :
    (unmarshalSlice goType ty.dec zero (.valid (.arr xs)) cur).2 = none
    ∧ ∀ (i : Nat) (x : JValue), xs[i]? = some x →
        (unmarshalSlice goType ty.dec zero (.valid (.arr xs)) cur).1.toList[i]?
          = some (M x (cur.backing.getD i zero)) := by
  have hok : (unmarshalSlice goType ty.dec zero (.valid (.arr xs)) cur).2 = none := by
    simp only [unmarshalSlice, DecStatus.err_eq_none]
    rw [decodeSlice_arr_status, decodeElems_ok_iff]
    intro i x hx
    exact hs false x _ (hwf x (List.getElem?_mem hx))
  refine ⟨hok, ?_⟩
  intro i x hx
  obtain ⟨_, _, hval⟩ := unmarshalSlice_arr_values goType ty.dec zero xs cur hok
  rw [hval i, hx, Option.map_some', hM x _ (hwf x (List.getElem?_mem hx))]

/-- For an array of well-formed entries that leave nothing of a prior element,
the elements of the result are the same on every slice. -/
theorem unmarshalSlice_merged_complete {α : Type} (goType : String) (ty : GoType α) (zero : α)
    (M : JValue → α → α) (C : JValue → Bool) (hs : ty.Sound)
    (hM : ∀ x p, ty.shape false x = true → (ty.dec x p).1 = M x p)
    (hC : ∀ x p q, ty.shape false x = true → C x = true → M x p = M x q) (xs : List JValue)
    (hwf : ∀ x ∈ xs, ty.shape false x = true ∧ C x = true) (cur cur2 : GoSlice α) :
    (unmarshalSlice goType ty.dec zero (.valid (.arr xs)) cur).2 = none
    ∧ (unmarshalSlice goType ty.dec zero (.valid (.arr xs)) cur).1.toList
        = (unmarshalSlice goType ty.dec zero (.valid (.arr xs)) cur2).1.toList := by
  have h1 := unmarshalSlice_merged goType ty zero M hs hM xs (fun x hx => (hwf x hx).1) cur
  have h2 := unmarshalSlice_merged goType ty zero M hs hM xs (fun x hx => (hwf x hx).1) cur2
  have l1 := (unmarshalSlice_arr_values goType ty.dec zero xs cur h1.1).2.1
  have l2 := (unmarshalSlice_arr_values goType ty.dec zero xs cur2 h2.1).2.1
  refine ⟨h1.1, ?_⟩
  apply List.ext_getElem?
  intro i
  cases hx : xs[i]? with
  | none =>
    have hi : xs.length ≤ i := List.getElem?_eq_none_iff.1 hx
    rw [List.getElem?_eq_none_iff.2 (by omega), List.getElem?_eq_none_iff.2 (by omega)]
  | some x =>
    rw [h1.2 i x hx, h2.2 i x hx]
    have := hwf x (List.getElem?_mem hx)
    rw [hC x _ (cur2.backing.getD i zero) this.1 this.2]

/-! ## Absent keys -/

theorem strOr_absent {x : JValue} {key : String} (h : x.has key = false) (a : String) :
    x.strOr key a = a := by
  simp only [JValue.has] at h
  simp only [JValue.strOr]
  cases hm : x.member key with
  | none => rfl
  | some v => simp [hm] at h

theorem boolOr_absent {x : JValue} {key : String} (h : x.has key = false) (a : Bool) :
    x.boolOr key a = a := by
  simp only [JValue.has] at h
  simp only [JValue.boolOr]
  cases hm : x.member key with
  | none => rfl
  | some v => simp [hm] at h

theorem uintOr_absent {x : JValue} {key : String} (h : x.has key = false) (a : Nat) :
    x.uintOr key a = a := by
  simp only [JValue.has] at h
  simp only [JValue.uintOr]
  cases hm : x.member key with
  | none => rfl
  | some v => simp [hm] at h

theorem intOr_absent {x : JValue} {key : String} (h : x.has key = false) (a : jsonInt64) :
    x.intOr key a = a := by
  simp only [JValue.has] at h
  simp only [JValue.intOr]
  cases hm : x.member key with
  | none => rfl
  | some v => simp [hm] at h

theorem sub_absent {x : JValue} {key : String} (h : x.has key = false) :
    x.sub key = .null := by
  simp only [JValue.has] at h
  simp only [JValue.sub]
  cases hm : x.member key with
  | none => rfl
  | some v => simp [hm] at h

/-! ## Members of an object a struct takes -/

theorem objectAccepts_member {α : Type} {fields : List (Field α)}
    {kvs : List (String × JValue)} {k : String} {v : JValue} {f : Field α}
    (h : objectAccepts fields (.obj kvs) = true) (hm : (k, v) ∈ kvs)
    (hf : findField fields k = some f) : f.accepts v = true := by
  simp only [objectAccepts, List.all_eq_true] at h
  have := h (k, v) hm
  simpa [hf] using this

/-- When `json.Unmarshal` of an array into a slice returns nil, the type takes
every entry. -/
theorem accepts_of_none {α : Type} {goType : String} (ty : GoType α) {zero : α}
    (hd : ty.Decides) {xs : List JValue} {cur : GoSlice α} {x : JValue}
    (hn : (unmarshalSlice goType ty.dec zero (.valid (.arr xs)) cur).2 = none) (hx : x ∈ xs) :
    ty.accepts x = true := by
  rcases (unmarshalSlice_none_iff_accepts goType ty zero hd (.valid (.arr xs)) cur).1 hn
    with h | ⟨ys, hy, hall⟩
  · cases h
  · cases hy
    exact hall x hx

theorem objectAccepts_kind {α : Type} {fields : List (Field α)} {v : JValue}
    (h : objectAccepts fields v = true) : (v.isObj || v.isNull) = true := by
  cases v <;> simp [objectAccepts] at h <;> rfl

/-! ## Paths: theorems -/

/-- C1: every collection's Path is the path of the table. For all method
strings, list values (so all element sequences), sessions in any state (one
whose GetUser fails included) and scope strings: NewOrgSiteList(o) gives
"/organizations/o/memberships/sites" and NewSiteDomainList(s, e) gives
"/sites/s/environments/e/domains", as does every list with those scope fields
whatever its sequence; and whenever the session's GetUser succeeds with user
id u, OrgList gives "/users/u/memberships/organizations" and SiteList gives
"/users/u/memberships/sites". The method and the sequence do not matter:
another method string on another list (with the same scope) gives the same
result. -/
theorem path_table {F σ : Type} (method method2 o s e : String) (auth : AuthSession σ) (st : σ)
    (ol ol2 : OrgList) (sl sl2 : SiteList F) (seq1 : GoSlice (OrgSite F))
    (seq2 : GoSlice Domain) :
    ((NewOrgSiteList o : OrgSiteList F).Path method auth st).1
        = .returned ("/organizations/" ++ o ++ "/memberships/sites")
    ∧ ((NewSiteDomainList s e).Path method auth st).1
        = .returned ("/sites/" ++ s ++ "/environments/" ++ e ++ "/domains")
    ∧ ((OrgSiteList.mk o seq1).Path method2 auth st).1
        = .returned ("/organizations/" ++ o ++ "/memberships/sites")
    ∧ ((SiteDomainList.mk s e seq2).Path method2 auth st).1
        = .returned ("/sites/" ++ s ++ "/environments/" ++ e ++ "/domains")
    ∧ (∀ u : String, (auth.GetUser st).1 = .ok u →
        (ol.Path method auth st).1 = .returned ("/users/" ++ u ++ "/memberships/organizations")
        ∧ (sl.Path method auth st).1 = .returned ("/users/" ++ u ++ "/memberships/sites"))
    ∧ (ol.Path method auth st).1 = (ol2.Path method2 auth st).1
    ∧ (sl.Path method auth st).1 = (sl2.Path method2 auth st).1 := by
  refine ⟨rfl, rfl, rfl, rfl, ?_, rfl, rfl⟩
  intro u hu
  refine ⟨?_, ?_⟩
  · unfold OrgList.Path
    rcases hg : auth.GetUser st with ⟨r, st1⟩
    rw [hg] at hu
    simp only at hu
    subst hu
    rfl
  · unfold SiteList.Path
    rcases hg : auth.GetUser st with ⟨r, st1⟩
    rw [hg] at hu
    simp only at hu
    subst hu
    rfl

/-- Witness of C1: on the session of user "u1" the user-scoped path of a fresh
OrgList, and on a session whose GetUser fails the path example of the spec,
`NewSiteDomainList("abc123", "live").Path("GET", session)`. -/
theorem path_table_witness :
    ((sessionOf "u1").GetUser ()).1 = .ok "u1"
    ∧ (NewOrgList.Path "GET" (sessionOf "u1") ()).1
        = .returned ("/users/" ++ "u1" ++ "/memberships/organizations")
    ∧ ((NewSiteDomainList "abc123" "live").Path "GET" (sessionFailing "no session") ()).1
        = .returned ("/sites/" ++ "abc123" ++ "/environments/" ++ "live" ++ "/domains") :=
  ⟨rfl,
   ((path_table (F := Nat) "GET" "PUT" "org" "abc123" "live" (sessionOf "u1") ()
      NewOrgList NewOrgList NewSiteList NewSiteList .nil .nil).2.2.2.2.1 "u1" rfl).1,
   (path_table (F := Nat) "GET" "PUT" "org" "abc123" "live" (sessionFailing "no session") ()
      NewOrgList NewOrgList NewSiteList NewSiteList .nil .nil).2.1⟩

/-- C2: OrgSiteList.Path and SiteDomainList.Path make no call to the session's
GetUser (the call count and the session state are untouched, and the result is
the same for any two sessions, failing ones included), while OrgList.Path and
SiteList.Path call GetUser exactly once per invocation (the count goes from n
to n + 1 whether the call succeeds or fails). -/
theorem path_getuser_calls {F σ τ : Type} (method : String) (auth : AuthSession σ) (st : σ)
    (auth2 : AuthSession τ) (st2 : τ) (n : Nat)
    (ol : OrgList) (sl : SiteList F) (osl : OrgSiteList F) (sdl : SiteDomainList) :
    (osl.Path method auth.counted (st, n)).2 = (st, n)
    ∧ (sdl.Path method auth.counted (st, n)).2 = (st, n)
    ∧ (osl.Path method auth st).1 = (osl.Path method auth2 st2).1
    ∧ (sdl.Path method auth st).1 = (sdl.Path method auth2 st2).1
    ∧ (ol.Path method auth.counted (st, n)).2.2 = n + 1
    ∧ (sl.Path method auth.counted (st, n)).2.2 = n + 1 := by
  refine ⟨rfl, rfl, rfl, rfl, ?_, ?_⟩
  · unfold OrgList.Path AuthSession.counted
    rcases hg : auth.GetUser st with ⟨r, st1⟩
    cases r <;> simp [hg]
  · unfold SiteList.Path AuthSession.counted
    rcases hg : auth.GetUser st with ⟨r, st1⟩
    cases r <;> simp [hg]

/-- C3, as stated, fails: on a session whose GetUser fails, OrgList.Path and
SiteList.Path do not hand the failure back to the caller. The process exits
with status 1 inside the call, after logging the message. -/
theorem path_failure_not_returned :
    (NewOrgList.Path "GET" (sessionFailing "no session") ()).1
        = .exited 1 "Could not determine user for request: no session"
    ∧ (NewOrgList.Path "GET" (sessionFailing "no session") ()).1.returnsToCaller = false
    ∧ ((NewSiteList : SiteList Nat).Path "GET" (sessionFailing "no session") ()).1
        = .exited 1 "Could not determine user for request: no session"
    ∧ ((NewSiteList : SiteList Nat).Path "GET" (sessionFailing "no session")
        ()).1.returnsToCaller = false := by
  refine ⟨?_, ?_, ?_, ?_⟩ <;> decide

/-- C3, amended: for every session whose GetUser fails with error err,
OrgList.Path and SiteList.Path produce no path string at all; path construction
is aborted by log.Fatalf, which logs "Could not determine user for request: "
followed by the error and ends the process with status 1, so nothing is
returned to the caller. -/
theorem path_failure_is_fatal {F σ : Type} (method err : String) (auth : AuthSession σ)
    (st : σ) (ol : OrgList) (sl : SiteList F) (hf : (auth.GetUser st).1 = .error err) :
    (ol.Path method auth st).1 = .exited 1 ("Could not determine user for request: " ++ err)
    ∧ (sl.Path method auth st).1 = .exited 1 ("Could not determine user for request: " ++ err)
    ∧ (∀ p : String, (ol.Path method auth st).1 ≠ .returned p)
    ∧ (∀ p : String, (sl.Path method auth st).1 ≠ .returned p)
    ∧ (ol.Path method auth st).1.returnsToCaller = false
    ∧ (sl.Path method auth st).1.returnsToCaller = false := by
  have h1 : (ol.Path method auth st).1
      = .exited 1 ("Could not determine user for request: " ++ err) := by
    unfold OrgList.Path
    rcases hg : auth.GetUser st with ⟨r, st1⟩
    rw [hg] at hf
    simp only at hf
    subst hf
    rfl
  have h2 : (sl.Path method auth st).1
      = .exited 1 ("Could not determine user for request: " ++ err) := by
    unfold SiteList.Path
    rcases hg : auth.GetUser st with ⟨r, st1⟩
    rw [hg] at hf
    simp only at hf
    subst hf
    rfl
  refine ⟨h1, h2, ?_, ?_, ?_, ?_⟩
  · intro p hp
    rw [h1] at hp
    cases hp
  · intro p hp
    rw [h2] at hp
    cases hp
  · rw [h1]
    rfl
  · rw [h2]
    rfl

/-- Witness of the amended C3 on a session whose GetUser fails with
"no session". -/
theorem path_failure_is_fatal_witness :
    ((sessionFailing "no session").GetUser ()).1 = .error "no session"
    ∧ (NewOrgList.Path "GET" (sessionFailing "no session") ()).1
        = .exited 1 ("Could not determine user for request: " ++ "no session") :=
  ⟨rfl, (path_failure_is_fatal (F := Nat) "GET" "no session" (sessionFailing "no session") ()
      NewOrgList NewSiteList rfl).1⟩

/-! ## Unmarshal: what becomes of the prior sequence -/

/-- C4, as stated, fails: a list that already holds an Org with Key "k" is
unmarshalled from the array `[{"id":"new"}]`. Unmarshal succeeds, and the Key
of the prior element survives in the result, which so differs from what a
fresh list gives for the same payload. Prior values survive as well under
keys the entry carries with the value `null`: a string, a boolean, a nested
struct, an unsigned number. -/
theorem unmarshal_keeps_prior_field :
    ((OrgList.mk (.mk [{ Org.zero with ID := "old", Key := "k" }] [])).Unmarshal
        (.valid (.arr [.obj [("id", .str "new")]]))).2 = none
    ∧ ((OrgList.mk (.mk [{ Org.zero with ID := "old", Key := "k" }] [])).Unmarshal
        (.valid (.arr [.obj [("id", .str "new")]]))).1.Orgs.toList
        = [{ Org.zero with ID := "new", Key := "k" }]
    ∧ (NewOrgList.Unmarshal (.valid (.arr [.obj [("id", .str "new")]]))).1.Orgs.toList
        = [{ Org.zero with ID := "new", Key := "" }]
    ∧ ((OrgList.mk (.mk [{ Org.zero with ID := "old", Key := "k" }] [])).Unmarshal
        (.valid (.arr [.obj [("id", .str "new")]]))).1.Orgs.toList
        ≠ (NewOrgList.Unmarshal (.valid (.arr [.obj [("id", .str "new")]]))).1.Orgs.toList
    ∧ ((OrgList.mk (.mk [{ Org.zero with
            ID := "old", Key := "k", Archived := true,
            Organization := { OrgOrganization.zero with ID := "o1" } }] [])).Unmarshal
        (.valid (.arr [.obj [("id", .str "new"), ("key", .null), ("archived", .null),
          ("organization", .null)]]))).1.Orgs.toList
        = [{ Org.zero with
             ID := "new", Key := "k", Archived := true,
             Organization := { OrgOrganization.zero with ID := "o1" } }]
    ∧ ((SiteDomainList.mk "s" "live"
          (.mk [{ Domain.zero with DomainLookupRAX := 7 }] [])).Unmarshal
        (.valid (.arr [.obj [("domain_lookup_rax", .null)]]))).1.Domains.toList
        = [{ Domain.zero with DomainLookupRAX := 7 }] := by
  refine ⟨rfl, ?_, ?_, ?_, ?_, ?_⟩ <;> decide

/-- C4, amended: Unmarshal replaces the length and order of the sequence, and
decodes each entry into the element the backing array already holds at that
index. For each of the four list types and every prior list:
(1) for every array payload on which Unmarshal succeeds the sequence is not
nil, has exactly one element per array entry, and its i-th element is the i-th
entry decoded into the prior i-th element of the backing array (into the zero
value where there is none);
(2) for an array of well-formed objects (distinct keys, values of the JSON
kinds of the fields, keys may be missing) Unmarshal succeeds and the i-th
element is what the i-th object leaves of that prior element: each field,
nested ones included, takes the value under its key, and a field whose key the
object does not carry keeps its prior value;
(3) when moreover every object carries every key of the element, nested
objects included, the resulting sequence is the one a fresh list gives,
whatever the list held: no element and no field value of the prior sequence
survives;
(4) the same holds for any array when the prior backing array is empty (a nil
slice or `make([]T, 0)`, as in a freshly constructed list);
(5) for the payload `null` the sequence becomes nil;
(6) the scope fields (Organization, SiteID, Environment) are unchanged by every
payload. -/
theorem unmarshal_merges_into_prior {F : Type} (pf : JNum → Option F) (ff : F → Option JNum)
    (ol : OrgList) (sdl : SiteDomainList) (sl : SiteList F) (osl : OrgSiteList F)
    (xs : List JValue) (data : Payload) :
    ((ol.Unmarshal (.valid (.arr xs))).2 = none →
      (ol.Unmarshal (.valid (.arr xs))).1.Orgs.isNil = false
      ∧ (ol.Unmarshal (.valid (.arr xs))).1.Orgs.toList.length = xs.length
      ∧ ∀ i : Nat, (ol.Unmarshal (.valid (.arr xs))).1.Orgs.toList[i]?
          = xs[i]?.map
              (fun x => (goOrg.dec x (ol.Orgs.backing.getD i Org.zero)).1))
    ∧ ((sdl.Unmarshal (.valid (.arr xs))).2 = none →
      (sdl.Unmarshal (.valid (.arr xs))).1.Domains.isNil = false
      ∧ (sdl.Unmarshal (.valid (.arr xs))).1.Domains.toList.length = xs.length
      ∧ ∀ i : Nat, (sdl.Unmarshal (.valid (.arr xs))).1.Domains.toList[i]?
          = xs[i]?.map
              (fun x => (goDomain.dec x (sdl.Domains.backing.getD i Domain.zero)).1))
    ∧ ((sl.Unmarshal pf ff (.valid (.arr xs))).2 = none →
      (sl.Unmarshal pf ff (.valid (.arr xs))).1.Sites.isNil = false
      ∧ (sl.Unmarshal pf ff (.valid (.arr xs))).1.Sites.toList.length = xs.length
      ∧ ∀ i : Nat, (sl.Unmarshal pf ff (.valid (.arr xs))).1.Sites.toList[i]?
          = xs[i]?.map
              (fun x => ((goSite pf ff).dec x (sl.Sites.backing.getD i Site.zero)).1))
    ∧ ((osl.Unmarshal pf ff (.valid (.arr xs))).2 = none →
      (osl.Unmarshal pf ff (.valid (.arr xs))).1.OrgSites.isNil = false
      ∧ (osl.Unmarshal pf ff (.valid (.arr xs))).1.OrgSites.toList.length = xs.length
      ∧ ∀ i : Nat, (osl.Unmarshal pf ff (.valid (.arr xs))).1.OrgSites.toList[i]?
          = xs[i]?.map
              (fun x => ((goOrgSite pf ff).dec x (osl.OrgSites.backing.getD i OrgSite.zero)).1))
    ∧ ((∀ x ∈ xs, goOrg.shape false x = true) →
      (ol.Unmarshal (.valid (.arr xs))).2 = none
      ∧ ∀ (i : Nat) (x : JValue) (p : Org), xs[i]? = some x →
          ol.Orgs.backing.getD i Org.zero = p →
          ∃ r : Org,
            (ol.Unmarshal (.valid (.arr xs))).1.Orgs.toList[i]? = some r
            ∧ r = Org.merged x p
            ∧ (x.has "archived" = false → r.Archived = p.Archived)
            ∧ (x.has "id" = false → r.ID = p.ID)
            ∧ (x.has "key" = false → r.Key = p.Key)
            ∧ (x.has "role" = false → r.Role = p.Role)
            ∧ (x.has "organization" = false → r.Organization = p.Organization)
            ∧ (x.has "site_id" = false → r.SiteID = p.SiteID)
            ∧ (x.has "user_id" = false → r.UserID = p.UserID))
    ∧ ((∀ x ∈ xs, goDomain.shape false x = true) →
      (sdl.Unmarshal (.valid (.arr xs))).2 = none
      ∧ ∀ (i : Nat) (x : JValue) (p : Domain), xs[i]? = some x →
          sdl.Domains.backing.getD i Domain.zero = p →
          ∃ r : Domain,
            (sdl.Unmarshal (.valid (.arr xs))).1.Domains.toList[i]? = some r
            ∧ r = Domain.merged x p
            ∧ (x.has "dns_zone_name" = false → r.DNSZoneName = p.DNSZoneName)
            ∧ (x.has "domain_lookup_rax" = false → r.DomainLookupRAX = p.DomainLookupRAX)
            ∧ (x.has "domain_lookup_usc1" = false → r.DomainLookupUSCL = p.DomainLookupUSCL)
            ∧ (x.has "environment" = false → r.Environment = p.Environment)
            ∧ (x.has "site_id" = false → r.SiteID = p.SiteID)
            ∧ (x.has "type" = false → r.Type_ = p.Type_)
            ∧ (x.has "id" = false → r.ID = p.ID)
            ∧ (x.has "key" = false → r.Key = p.Key)
            ∧ (x.has "status" = false → r.Status = p.Status)
            ∧ (x.has "status_message" = false → r.StatusMessage = p.StatusMessage)
            ∧ (x.has "deletable" = false → r.Deleteable = p.Deleteable))
    ∧ ((∀ x ∈ xs, (goSite pf ff).shape false x = true) →
      (sl.Unmarshal pf ff (.valid (.arr xs))).2 = none
      ∧ ∀ (i : Nat) (x : JValue) (p : Pantheon.Site F), xs[i]? = some x →
          sl.Sites.backing.getD i Site.zero = p →
          ∃ r : Pantheon.Site F,
            (sl.Unmarshal pf ff (.valid (.arr xs))).1.Sites.toList[i]? = some r
            ∧ r = Site.merged pf x p
            ∧ (x.has "archived" = false → r.Archived = p.Archived)
            ∧ (x.has "id" = false → r.ID = p.ID)
            ∧ (x.has "key" = false → r.Key = p.Key)
            ∧ (x.has "role" = false → r.Role = p.Role)
            ∧ (x.has "site" = false → r.Site = p.Site)
            ∧ (x.has "site_id" = false → r.SiteID = p.SiteID)
            ∧ (x.has "user_id" = false → r.UserID = p.UserID))
    ∧ ((∀ x ∈ xs, (goOrgSite pf ff).shape false x = true) →
      (osl.Unmarshal pf ff (.valid (.arr xs))).2 = none
      ∧ ∀ (i : Nat) (x : JValue) (p : OrgSite F), xs[i]? = some x →
          osl.OrgSites.backing.getD i OrgSite.zero = p →
          ∃ r : OrgSite F,
            (osl.Unmarshal pf ff (.valid (.arr xs))).1.OrgSites.toList[i]? = some r
            ∧ r = OrgSite.merged pf x p
            ∧ (x.has "archived" = false → r.Archived = p.Archived)
            ∧ (x.has "id" = false → r.ID = p.ID)
            ∧ (x.has "key" = false → r.Key = p.Key)
            ∧ (x.has "role" = false → r.Role = p.Role)
            ∧ (x.has "site" = false → r.Site = p.Site)
            ∧ (x.has "organization_id" = false → r.Organization = p.Organization)
            ∧ (x.has "site_id" = false → r.SiteID = p.SiteID))
    ∧ ((∀ x ∈ xs, goOrg.shape false x = true ∧ Org.complete x = true) →
      (ol.Unmarshal (.valid (.arr xs))).2 = none
      ∧ (ol.Unmarshal (.valid (.arr xs))).1.Orgs.toList
          = (NewOrgList.Unmarshal
              (.valid (.arr xs))).1.Orgs.toList)
    ∧ ((∀ x ∈ xs, goDomain.shape false x = true ∧ Domain.complete x = true) →
      (sdl.Unmarshal (.valid (.arr xs))).2 = none
      ∧ (sdl.Unmarshal (.valid (.arr xs))).1.Domains.toList
          = ((NewSiteDomainList sdl.SiteID sdl.Environment).Unmarshal
              (.valid (.arr xs))).1.Domains.toList)
    ∧ ((∀ x ∈ xs, (goSite pf ff).shape false x = true ∧ Site.complete x = true) →
      (sl.Unmarshal pf ff (.valid (.arr xs))).2 = none
      ∧ (sl.Unmarshal pf ff (.valid (.arr xs))).1.Sites.toList
          = (NewSiteList.Unmarshal pf ff
              (.valid (.arr xs))).1.Sites.toList)
    ∧ ((∀ x ∈ xs, (goOrgSite pf ff).shape false x = true ∧ OrgSite.complete x = true) →
      (osl.Unmarshal pf ff (.valid (.arr xs))).2 = none
      ∧ (osl.Unmarshal pf ff (.valid (.arr xs))).1.OrgSites.toList
          = ((NewOrgSiteList osl.Organization).Unmarshal pf ff
              (.valid (.arr xs))).1.OrgSites.toList)
    ∧ (ol.Orgs.backing = [] →
      ol.Unmarshal (.valid (.arr xs))
        = NewOrgList.Unmarshal (.valid (.arr xs)))
    ∧ (sdl.Domains.backing = [] →
      sdl.Unmarshal (.valid (.arr xs))
        = (NewSiteDomainList sdl.SiteID sdl.Environment).Unmarshal (.valid (.arr xs)))
    ∧ (sl.Sites.backing = [] →
      sl.Unmarshal pf ff (.valid (.arr xs))
        = NewSiteList.Unmarshal pf ff (.valid (.arr xs)))
    ∧ (osl.OrgSites.backing = [] →
      osl.Unmarshal pf ff (.valid (.arr xs))
        = (NewOrgSiteList osl.Organization).Unmarshal pf ff (.valid (.arr xs)))
    ∧ ((ol.Unmarshal (.valid .null)).1.Orgs.isNil = true
      ∧ (sdl.Unmarshal (.valid .null)).1.Domains.isNil = true
      ∧ (sl.Unmarshal pf ff (.valid .null)).1.Sites.isNil = true
      ∧ (osl.Unmarshal pf ff (.valid .null)).1.OrgSites.isNil = true)
    ∧ ((sdl.Unmarshal data).1.SiteID = sdl.SiteID
      ∧ (sdl.Unmarshal data).1.Environment = sdl.Environment
      ∧ (osl.Unmarshal pf ff data).1.Organization = osl.Organization) := by
  refine ⟨?_, ?_, ?_, ?_, ?_, ?_, ?_, ?_, ?_, ?_, ?_, ?_, ?_, ?_, ?_, ?_, ⟨rfl, rfl, rfl, rfl⟩, ⟨rfl, rfl, rfl⟩⟩
  · exact unmarshalSlice_arr_values "[]pantheon.Org" goOrg.dec Org.zero xs ol.Orgs
  · exact unmarshalSlice_arr_values "[]pantheon.Domain" goDomain.dec Domain.zero xs sdl.Domains
  · exact unmarshalSlice_arr_values "[]pantheon.Site" (goSite pf ff).dec Site.zero xs sl.Sites
  · exact unmarshalSlice_arr_values "[]pantheon.OrgSite" (goOrgSite pf ff).dec OrgSite.zero xs osl.OrgSites
  · intro hwf
    have h := unmarshalSlice_merged "[]pantheon.Org" goOrg Org.zero (Org.merged)
      (org_struct_sound _) (fun x p hx => org_dec_merged "pantheon.Org" false x p hx)
      xs hwf ol.Orgs
    refine ⟨h.1, ?_⟩
    intro i x p hx hp
    subst hp
    refine ⟨_, h.2 i x hx, rfl, ?_, ?_, ?_, ?_, ?_, ?_, ?_⟩
    · exact fun hk => boolOr_absent hk _
    · exact fun hk => strOr_absent hk _
    · exact fun hk => strOr_absent hk _
    · exact fun hk => strOr_absent hk _
    · intro hk
      show OrgOrganization.merged (x.sub "organization") _ = _
      rw [sub_absent hk]
      rfl
    · exact fun hk => strOr_absent hk _
    · exact fun hk => strOr_absent hk _
  · intro hwf
    have h := unmarshalSlice_merged "[]pantheon.Domain" goDomain Domain.zero (Domain.merged)
      (domain_struct_sound _) (fun x p hx => domain_dec_merged "pantheon.Domain" false x p hx)
      xs hwf sdl.Domains
    refine ⟨h.1, ?_⟩
    intro i x p hx hp
    subst hp
    refine ⟨_, h.2 i x hx, rfl, ?_, ?_, ?_, ?_, ?_, ?_, ?_, ?_, ?_, ?_, ?_⟩
    · exact fun hk => strOr_absent hk _
    · exact fun hk => uintOr_absent hk _
    · exact fun hk => uintOr_absent hk _
    · exact fun hk => strOr_absent hk _
    · exact fun hk => strOr_absent hk _
    · exact fun hk => strOr_absent hk _
    · exact fun hk => strOr_absent hk _
    · exact fun hk => strOr_absent hk _
    · exact fun hk => strOr_absent hk _
    · exact fun hk => strOr_absent hk _
    · exact fun hk => boolOr_absent hk _
  · intro hwf
    have h := unmarshalSlice_merged "[]pantheon.Site" (goSite pf ff) Site.zero (Site.merged pf)
      (site_struct_sound pf ff _) (fun x p hx => site_dec_merged pf ff "pantheon.Site" false x p hx)
      xs hwf sl.Sites
    refine ⟨h.1, ?_⟩
    intro i x p hx hp
    subst hp
    refine ⟨_, h.2 i x hx, rfl, ?_, ?_, ?_, ?_, ?_, ?_, ?_⟩
    · exact fun hk => boolOr_absent hk _
    · exact fun hk => strOr_absent hk _
    · exact fun hk => strOr_absent hk _
    · exact fun hk => strOr_absent hk _
    · intro hk
      show SiteInfo.merged pf (x.sub "site") _ = _
      rw [sub_absent hk]
      rfl
    · exact fun hk => strOr_absent hk _
    · exact fun hk => strOr_absent hk _
  · intro hwf
    have h := unmarshalSlice_merged "[]pantheon.OrgSite" (goOrgSite pf ff) OrgSite.zero (OrgSite.merged pf)
      (orgSite_struct_sound pf ff _) (fun x p hx => orgSite_dec_merged pf ff "pantheon.OrgSite" false x p hx)
      xs hwf osl.OrgSites
    refine ⟨h.1, ?_⟩
    intro i x p hx hp
    subst hp
    refine ⟨_, h.2 i x hx, rfl, ?_, ?_, ?_, ?_, ?_, ?_, ?_⟩
    · exact fun hk => boolOr_absent hk _
    · exact fun hk => strOr_absent hk _
    · exact fun hk => strOr_absent hk _
    · exact fun hk => strOr_absent hk _
    · intro hk
      show SiteInfo.merged pf (x.sub "site") _ = _
      rw [sub_absent hk]
      rfl
    · exact fun hk => strOr_absent hk _
    · exact fun hk => strOr_absent hk _
  · intro hwf
    exact unmarshalSlice_merged_complete "[]pantheon.Org" goOrg Org.zero (Org.merged)
      Org.complete (org_struct_sound _)
      (fun x p hx => org_dec_merged "pantheon.Org" false x p hx)
      (fun x p q hx hc => org_merged_complete false x p q hx hc) xs hwf ol.Orgs .nil
  · intro hwf
    exact unmarshalSlice_merged_complete "[]pantheon.Domain" goDomain Domain.zero (Domain.merged)
      Domain.complete (domain_struct_sound _)
      (fun x p hx => domain_dec_merged "pantheon.Domain" false x p hx)
      (fun x p q hx hc => domain_merged_complete false x p q hx hc) xs hwf sdl.Domains GoSlice.empty
  · intro hwf
    exact unmarshalSlice_merged_complete "[]pantheon.Site" (goSite pf ff) Site.zero (Site.merged pf)
      Site.complete (site_struct_sound pf ff _)
      (fun x p hx => site_dec_merged pf ff "pantheon.Site" false x p hx)
      (fun x p q hx hc => site_merged_complete pf ff false x p q hx hc) xs hwf sl.Sites .nil
  · intro hwf
    exact unmarshalSlice_merged_complete "[]pantheon.OrgSite" (goOrgSite pf ff) OrgSite.zero (OrgSite.merged pf)
      OrgSite.complete (orgSite_struct_sound pf ff _)
      (fun x p hx => orgSite_dec_merged pf ff "pantheon.OrgSite" false x p hx)
      (fun x p q hx hc => orgSite_merged_complete pf ff false x p q hx hc) xs hwf osl.OrgSites GoSlice.empty
  · intro h
    simp only [OrgList.Unmarshal, NewOrgList]
    rw [unmarshalSlice_fresh _ _ _ _ (Or.inr ⟨xs, rfl⟩) ol.Orgs h]
  · intro h
    simp only [SiteDomainList.Unmarshal, NewSiteDomainList]
    rw [unmarshalSlice_fresh _ _ _ _ (Or.inr ⟨xs, rfl⟩) sdl.Domains h,
      unmarshalSlice_fresh _ _ _ _ (Or.inr ⟨xs, rfl⟩) GoSlice.empty rfl]
  · intro h
    simp only [SiteList.Unmarshal, NewSiteList]
    rw [unmarshalSlice_fresh _ _ _ _ (Or.inr ⟨xs, rfl⟩) sl.Sites h]
  · intro h
    simp only [OrgSiteList.Unmarshal, NewOrgSiteList]
    rw [unmarshalSlice_fresh _ _ _ _ (Or.inr ⟨xs, rfl⟩) osl.OrgSites h,
      unmarshalSlice_fresh _ _ _ _ (Or.inr ⟨xs, rfl⟩) GoSlice.empty rfl]

/-- Witness of the amended C4 on the list of the counterexample. Unmarshal of
`[{"id":"new"}]` succeeds and gives one element; the entry is well-formed, and
the element it leaves has the new ID and keeps the prior Key "k". With a
complete organization object as the entry, the result on that list is the
result on a fresh list. A list holding `make([]Org, 0)` ends like a fresh one. -/
theorem unmarshal_merges_into_prior_witness :
    ((OrgList.mk (.mk [{ Org.zero with ID := "old", Key := "k" }] [])).Unmarshal
        (.valid (.arr [.obj [("id", .str "new")]]))).2 = none
    ∧ ((OrgList.mk (.mk [{ Org.zero with ID := "old", Key := "k" }] [])).Unmarshal
        (.valid (.arr [.obj [("id", .str "new")]]))).1.Orgs.toList.length = 1
    ∧ (∀ x ∈ [JValue.obj [("id", .str "new")]], goOrg.shape false x = true)
    ∧ (∃ r : Org,
        ((OrgList.mk (.mk [{ Org.zero with ID := "old", Key := "k" }] [])).Unmarshal
          (.valid (.arr [.obj [("id", .str "new")]]))).1.Orgs.toList[0]? = some r
        ∧ r = Org.merged (.obj [("id", .str "new")]) { Org.zero with ID := "old", Key := "k" }
        ∧ r.Key = "k")
    ∧ (∀ x ∈ [exampleOrgObject], goOrg.shape false x = true ∧ Org.complete x = true)
    ∧ ((OrgList.mk (.mk [{ Org.zero with ID := "old", Key := "k" }] [])).Unmarshal
        (.valid (.arr [exampleOrgObject]))).1.Orgs.toList
        = (NewOrgList.Unmarshal (.valid (.arr [exampleOrgObject]))).1.Orgs.toList
    ∧ (OrgList.mk (.mk [] [])).Orgs.backing = []
    ∧ (OrgList.mk (.mk [] [])).Unmarshal (.valid (.arr [exampleOrgObject]))
        = NewOrgList.Unmarshal (.valid (.arr [exampleOrgObject])) :=
  ⟨rfl,
   ((unmarshal_merges_into_prior exampleParseFloat exampleFormatFloat
      (OrgList.mk (.mk [{ Org.zero with ID := "old", Key := "k" }] []))
      (NewSiteDomainList "s" "live") NewSiteList (NewOrgSiteList "o")
      [.obj [("id", .str "new")]] .invalid).1 rfl).2.1,
   by decide,
   (fun ⟨r, h1, h2, _, _, h3, _⟩ => ⟨r, h1, h2, h3 rfl⟩)
    (((unmarshal_merges_into_prior exampleParseFloat exampleFormatFloat
      (OrgList.mk (.mk [{ Org.zero with ID := "old", Key := "k" }] []))
      (NewSiteDomainList "s" "live") NewSiteList (NewOrgSiteList "o")
      [.obj [("id", .str "new")]] .invalid).2.2.2.2.1 (by decide)).2 0
      (.obj [("id", .str "new")]) { Org.zero with ID := "old", Key := "k" } rfl rfl),
   by decide,
   ((unmarshal_merges_into_prior exampleParseFloat exampleFormatFloat
      (OrgList.mk (.mk [{ Org.zero with ID := "old", Key := "k" }] []))
      (NewSiteDomainList "s" "live") NewSiteList (NewOrgSiteList "o")
      [exampleOrgObject] .invalid).2.2.2.2.2.2.2.2.1 (by decide)).2,
   rfl,
   (unmarshal_merges_into_prior exampleParseFloat exampleFormatFloat
      (OrgList.mk (.mk [] []))
      (NewSiteDomainList "s" "live") NewSiteList (NewOrgSiteList "o")
      [exampleOrgObject] .invalid).2.2.2.2.2.2.2.2.2.2.2.2.1 rfl⟩

/-! ## Unmarshal followed by JSON -/

/-- On a slice whose backing array is empty, unmarshalling an array of exactly
well-formed entries and marshalling the result gives the same array (compared
from either side). -/
theorem roundTrip_fresh {α : Type} (goType : String) (ty : GoType α) (zero : α)
    (hs : ty.Sound) (hr : ty.RoundTrips) (xs : List JValue)
    (hwf : ∀ x ∈ xs, ty.shape true x = true) (cur : GoSlice α) (hcur : cur.backing = []) :
    (unmarshalSlice goType ty.dec zero (.valid (.arr xs)) cur).2 = none
    ∧ ∃ w, marshalSlice ty.enc (unmarshalSlice goType ty.dec zero (.valid (.arr xs)) cur).1
          = .ok w
        ∧ w.sameAs (.arr xs) = true ∧ (JValue.arr xs).sameAs w = true := by
  rw [unmarshalSlice_fresh goType ty.dec zero _ (Or.inr ⟨xs, rfl⟩) cur hcur]
  have hok : ∀ x ∈ xs, (ty.dec x zero).2 = .ok := fun x hx => hs true x zero (hwf x hx)
  cases xs with
  | nil => exact ⟨rfl, .arr [], rfl, by simp [JValue.sameAs, sameList],
      by simp [JValue.sameAs, sameList]⟩
  | cons x xs =>
    have hd := decodeElems_fresh ty.dec zero (x :: xs) hok
    have hu : unmarshalSlice goType ty.dec zero (.valid (.arr (x :: xs))) .nil
        = (.mk ((x :: xs).map (fun y => (ty.dec y zero).1)) [], none) := by
      simp only [unmarshalSlice, decodeSlice, GoSlice.backing, hd]
      rfl
    rw [hu]
    obtain ⟨ws, hws, hsame⟩ := encodeElems_same ty.enc (fun y => (ty.dec y zero).1) (x :: xs)
      (fun y hy => hr y zero (hwf y hy))
    have hsame2 : (JValue.arr ws).sameAs (.arr (x :: xs)) = true := by
      simpa [JValue.sameAs] using hsame
    exact ⟨rfl, .arr ws, by simp only [marshalSlice, hws], hsame2,
      JValue.sameAs_symm _ _ hsame2⟩

/-- C5, as stated, fails. The array `[{"id":"1","archived":false}]` is
unmarshalled into a fresh OrgList without error, but JSON() then writes an
object with all seven members of Org, which is not the payload. And for the
array with a complete site object whose `php_version` is the string "7",
SiteList writes `php_version` back as the number 7. A complete domain object
with one more member `"plan":"gold"`, or with a second member `id` in front,
comes back from a SiteDomainList without that member. -/
theorem unmarshal_json_not_same :
    (NewOrgList.Unmarshal
        (.valid (.arr [.obj [("id", .str "1"), ("archived", .bool false)]]))).2 = none
    ∧ (∃ w, (NewOrgList.Unmarshal
          (.valid (.arr [.obj [("id", .str "1"), ("archived", .bool false)]]))).1.JSON = .ok w
        ∧ w.sameAs (.arr [.obj [("id", .str "1"), ("archived", .bool false)]]) = false
        ∧ w = .arr [{ Org.zero with ID := "1" }.wire])
    ∧ ((NewSiteList : SiteList ExampleFloat).Unmarshal exampleParseFloat exampleFormatFloat
        (.valid (.arr [exampleSiteObject (.str "7")]))).2 = none
    ∧ (∃ w, (((NewSiteList : SiteList ExampleFloat).Unmarshal exampleParseFloat
          exampleFormatFloat (.valid (.arr [exampleSiteObject (.str "7")]))).1.JSON
          exampleParseFloat exampleFormatFloat) = .ok w
        ∧ w.sameAs (.arr [exampleSiteObject (.str "7")]) = false
        ∧ w = .arr [exampleSiteObject (.num (JNum.ofNat 7))])
    ∧ (∃ w, ((NewSiteDomainList "abc123" "live").Unmarshal
          (.valid (.arr [.obj (("plan", .str "gold") :: exampleDomainMembers)]))).1.JSON = .ok w
        ∧ w.sameAs (.arr [.obj (("plan", .str "gold") :: exampleDomainMembers)]) = false
        ∧ w.sameAs (.arr [exampleDomainObject]) = true)
    ∧ (∃ w, ((NewSiteDomainList "abc123" "live").Unmarshal
          (.valid (.arr [.obj (("id", .str "old.acme.test") :: exampleDomainMembers)]))).1.JSON
          = .ok w
        ∧ w.sameAs (.arr [.obj (("id", .str "old.acme.test") :: exampleDomainMembers)]) = false
        ∧ w.sameAs (.arr [exampleDomainObject]) = true) :=
  ⟨rfl, ⟨_, rfl, by decide, rfl⟩, rfl, ⟨_, rfl, by decide, rfl⟩,
   ⟨_, rfl, by decide, by decide⟩, ⟨_, rfl, by decide, by decide⟩⟩

/-- C5, amended: for each of the four list types and every payload that is an
array of complete objects of the element shape (every key of the element
present exactly once, no other key, nested objects likewise, every value of
the field's JSON kind; the flexible integers `created` and `php_version`
written as bare integers; under `user_uuid` any document whose numbers float64
writes back unchanged and whose objects have distinct keys), Unmarshal on a
fresh list succeeds and the following JSON() succeeds and returns an array
that is the same document as the payload, compared from either side: the same
number of entries in the same order, each an object with the same keys, each
key once, and the same value under each key, whatever the order of the
members. -/
theorem unmarshal_json_same {F : Type} (pf : JNum → Option F) (ff : F → Option JNum)
    (site env org : String) (xo xd xs xos : List JValue)
    (ho : ∀ x ∈ xo, goOrg.shape true x = true)
    (hd : ∀ x ∈ xd, goDomain.shape true x = true)
    (hs : ∀ x ∈ xs, (goSite pf ff).shape true x = true)
    (hos : ∀ x ∈ xos, (goOrgSite pf ff).shape true x = true) :
    ((NewOrgList.Unmarshal (.valid (.arr xo))).2 = none
      ∧ ∃ w, (NewOrgList.Unmarshal (.valid (.arr xo))).1.JSON = .ok w
          ∧ w.sameAs (.arr xo) = true ∧ (JValue.arr xo).sameAs w = true)
    ∧ (((NewSiteDomainList site env).Unmarshal (.valid (.arr xd))).2 = none
      ∧ ∃ w, ((NewSiteDomainList site env).Unmarshal (.valid (.arr xd))).1.JSON = .ok w
          ∧ w.sameAs (.arr xd) = true ∧ (JValue.arr xd).sameAs w = true)
    ∧ (((NewSiteList : SiteList F).Unmarshal pf ff (.valid (.arr xs))).2 = none
      ∧ ∃ w, ((NewSiteList : SiteList F).Unmarshal pf ff (.valid (.arr xs))).1.JSON pf ff = .ok w
          ∧ w.sameAs (.arr xs) = true ∧ (JValue.arr xs).sameAs w = true)
    ∧ (((NewOrgSiteList org : OrgSiteList F).Unmarshal pf ff (.valid (.arr xos))).2 = none
      ∧ ∃ w, ((NewOrgSiteList org : OrgSiteList F).Unmarshal pf ff
            (.valid (.arr xos))).1.JSON pf ff = .ok w
          ∧ w.sameAs (.arr xos) = true ∧ (JValue.arr xos).sameAs w = true) :=
  ⟨roundTrip_fresh "[]pantheon.Org" goOrg Org.zero (org_struct_sound _)
      (org_struct_roundTrips _) xo ho .nil rfl,
   roundTrip_fresh "[]pantheon.Domain" goDomain Domain.zero (domain_struct_sound _)
      (domain_struct_roundTrips _) xd hd GoSlice.empty rfl,
   roundTrip_fresh "[]pantheon.Site" (goSite pf ff) Site.zero (site_struct_sound pf ff _)
      (site_struct_roundTrips pf ff _) xs hs .nil rfl,
   roundTrip_fresh "[]pantheon.OrgSite" (goOrgSite pf ff) OrgSite.zero
      (orgSite_struct_sound pf ff _) (orgSite_struct_roundTrips pf ff _) xos hos
      GoSlice.empty rfl⟩

/-- Witness of the amended C5 on one complete object for each list type, the
members of the organization object not in declaration order. -/
theorem unmarshal_json_same_witness :
    ((∀ x ∈ [exampleOrgObject], goOrg.shape true x = true)
      ∧ (∀ x ∈ [exampleDomainObject], goDomain.shape true x = true)
      ∧ (∀ x ∈ [exampleSiteObject (.num (JNum.ofNat 7))],
          (goSite exampleParseFloat exampleFormatFloat).shape true x = true)
      ∧ (∀ x ∈ [exampleOrgSiteObject],
          (goOrgSite exampleParseFloat exampleFormatFloat).shape true x = true))
    ∧ (∃ w, (NewOrgList.Unmarshal (.valid (.arr [exampleOrgObject]))).1.JSON = .ok w
        ∧ w.sameAs (.arr [exampleOrgObject]) = true
        ∧ (JValue.arr [exampleOrgObject]).sameAs w = true) :=
  ⟨⟨by decide, by decide, by decide, by decide⟩,
   (unmarshal_json_same exampleParseFloat exampleFormatFloat "abc123" "live" "org1"
      [exampleOrgObject] [exampleDomainObject] [exampleSiteObject (.num (JNum.ofNat 7))]
      [exampleOrgSiteObject] (by decide) (by decide) (by decide) (by decide)).1.2⟩

/-! ## JSON -/

theorem encodeElems_map {α : Type} (enc : α → Except JSONError JValue) (g : α → JValue)
    (h : ∀ a, enc a = .ok (g a)) : ∀ l : List α, encodeElems enc l = .ok (l.map g)
  | [] => rfl
  | a :: l => by simp only [encodeElems, h a, encodeElems_map enc g h l, List.map_cons]

theorem encodeElems_zip {α : Type} (enc : α → Except JSONError JValue) (inner : α → JValue → Prop)
    (g : α → JValue → JValue) (h : ∀ a w, inner a w → enc a = .ok (g a w)) :
    ∀ (l : List α) (ws : List JValue), List.Forall₂ inner l ws →
      encodeElems enc l = .ok (List.zipWith g l ws)
  | [], [], _ => rfl
  | a :: l, w :: ws, hf => by
    rw [List.forall₂_cons] at hf
    simp only [encodeElems, h a w hf.1, encodeElems_zip enc inner g h l ws hf.2,
      List.zipWith_cons_cons]
  | [], _ :: _, hf => by cases hf
  | _ :: _, [], hf => by cases hf

theorem goOrg_enc (o : Org) : goOrg.enc o = .ok o.wire := rfl

theorem goDomain_enc (d : Domain) : goDomain.enc d = .ok d.wire := rfl

theorem goSite_enc {F : Type} (pf : JNum → Option F) (ff : F → Option JNum) (s : Site F)
    (w : JValue) (h : encAny ff s.Site.LastCodePush.UserUUID = .ok w) :
    (goSite pf ff).enc s = .ok (s.wire w) := by
  simp [goSite, goStruct, encodeStruct, Site.fields, SiteInfo.fields, LastCodePush.fields,
    Product.fields, Upstream.fields, Field.of, encodeMembers, goString, goBool, goJsonInt64,
    goAny, h, jsonInt64.MarshalJSON, Site.wire, SiteInfo.wire]

theorem goOrgSite_enc {F : Type} (pf : JNum → Option F) (ff : F → Option JNum) (s : OrgSite F)
    (w : JValue) (h : encAny ff s.Site.LastCodePush.UserUUID = .ok w) :
    (goOrgSite pf ff).enc s = .ok (s.wire w) := by
  simp [goOrgSite, goStruct, encodeStruct, OrgSite.fields, SiteInfo.fields,
    LastCodePush.fields, Product.fields, Upstream.fields, Field.of, encodeMembers, goString,
    goBool, goJsonInt64, goAny, h, jsonInt64.MarshalJSON, OrgSite.wire, SiteInfo.wire]

/-- C6, as stated, fails. JSON() returns `null`, which is not a JSON array, for
a list whose slice is nil: a SiteDomainList after Unmarshal of `null`, and the
lists NewOrgList and NewSiteList return. And JSON() does not succeed on every
list value: a site whose `user_uuid` holds a float64 without JSON form (NaN)
makes it return an error. -/
theorem json_of_nil_is_null :
    ((NewSiteDomainList "abc123" "live").Unmarshal (.valid .null)).1.JSON = .ok .null
    ∧ NewOrgList.JSON = .ok .null
    ∧ (NewSiteList : SiteList ExampleFloat).JSON exampleParseFloat exampleFormatFloat
        = .ok .null
    ∧ JValue.null.isArr = false
    ∧ (SiteList.mk (.mk [{ (Site.zero : Site ExampleFloat) with
          Site := { (SiteInfo.zero : SiteInfo ExampleFloat) with
            LastCodePush := { Timestamp := "", UserUUID := .float64 none } } }] [])).JSON
        exampleParseFloat exampleFormatFloat = .error .UnsupportedValueError :=
  ⟨rfl, rfl, rfl, rfl, rfl⟩

/-- C6, amended: for each of the four list types and every list value whose
sequence is not nil (as in the lists NewOrgSiteList and NewSiteDomainList
return, for which the result is `[]`), JSON() succeeds and returns a JSON
array with exactly one object per element of the sequence, in sequence order,
with the members of the element type in declaration order; for SiteList and
OrgSiteList this holds when every `user_uuid` has a JSON form. The output is
the encoding of the sequence only: two lists with equal sequences and
different scope fields give the same result. -/
theorem json_encodes_sequence {F : Type} (pf : JNum → Option F) (ff : F → Option JNum)
    (ol : OrgList) (sdl sdl2 : SiteDomainList) (sl : SiteList F) (osl osl2 : OrgSiteList F)
    (site env org : String) :
    (∀ elems spare, ol.Orgs = .mk elems spare → ol.JSON = .ok (.arr (elems.map Org.wire)))
    ∧ (∀ elems spare, sdl.Domains = .mk elems spare →
        sdl.JSON = .ok (.arr (elems.map Domain.wire)))
    ∧ (∀ elems spare uuids, sl.Sites = .mk elems spare →
        List.Forall₂ (fun s w => encAny ff s.Site.LastCodePush.UserUUID = .ok w) elems uuids →
        sl.JSON pf ff = .ok (.arr (List.zipWith Site.wire elems uuids)))
    ∧ (∀ elems spare uuids, osl.OrgSites = .mk elems spare →
        List.Forall₂ (fun s w => encAny ff s.Site.LastCodePush.UserUUID = .ok w) elems uuids →
        osl.JSON pf ff = .ok (.arr (List.zipWith OrgSite.wire elems uuids)))
    ∧ (sdl2.Domains = sdl.Domains → sdl2.JSON = sdl.JSON)
    ∧ (osl2.OrgSites = osl.OrgSites → osl2.JSON pf ff = osl.JSON pf ff)
    ∧ (NewSiteDomainList site env).JSON = .ok (.arr [])
    ∧ (NewOrgSiteList org : OrgSiteList F).JSON pf ff = .ok (.arr []) := by
  refine ⟨?_, ?_, ?_, ?_, ?_, ?_, rfl, rfl⟩
  · intro elems spare h
    simp only [OrgList.JSON, h, marshalSlice, encodeElems_map goOrg.enc Org.wire goOrg_enc]
  · intro elems spare h
    simp only [SiteDomainList.JSON, h, marshalSlice,
      encodeElems_map goDomain.enc Domain.wire goDomain_enc]
  · intro elems spare uuids h hu
    simp only [SiteList.JSON, h, marshalSlice,
      encodeElems_zip (goSite pf ff).enc _ Site.wire (goSite_enc pf ff) elems uuids hu]
  · intro elems spare uuids h hu
    simp only [OrgSiteList.JSON, h, marshalSlice,
      encodeElems_zip (goOrgSite pf ff).enc _ OrgSite.wire (goOrgSite_enc pf ff) elems uuids hu]
  · intro h
    simp only [SiteDomainList.JSON, h]
  · intro h
    simp only [OrgSiteList.JSON, h]

/-- Witness of the amended C6: a list of one organization gives an array of
one object, and two domain lists with the same (empty) sequence and different
scopes give the same result. -/
theorem json_encodes_sequence_witness :
    (OrgList.mk (.mk [{ Org.zero with ID := "1" }] [])).JSON
        = .ok (.arr [{ Org.zero with ID := "1" }.wire])
    ∧ (NewSiteDomainList "a" "dev").JSON = (NewSiteDomainList "b" "live").JSON :=
  ⟨(json_encodes_sequence exampleParseFloat exampleFormatFloat
      (OrgList.mk (.mk [{ Org.zero with ID := "1" }] [])) (NewSiteDomainList "b" "live")
      (NewSiteDomainList "a" "dev") NewSiteList (NewOrgSiteList "o") (NewOrgSiteList "p")
      "s" "e" "o").1 _ _ rfl,
   (json_encodes_sequence exampleParseFloat exampleFormatFloat
      (OrgList.mk (.mk [{ Org.zero with ID := "1" }] [])) (NewSiteDomainList "b" "live")
      (NewSiteDomainList "a" "dev") NewSiteList (NewOrgSiteList "o") (NewOrgSiteList "p")
      "s" "e" "o").2.2.2.2.1 rfl⟩

/-! ## Unmarshal: errors -/

/-- C7, as stated, fails: Unmarshal returns nil for payloads that are not JSON
arrays of the element shape. For the payload `null` it returns nil on each of
the four lists (and leaves the sequence nil); for the array `[null]`, whose
entry is no object, it returns nil and the sequence holds one zero element;
for the array `[{"id":null}]`, whose `id` is no string, it returns nil. -/
theorem unmarshal_null_returns_nil :
    (NewOrgList.Unmarshal (.valid .null)).2 = none
    ∧ (NewOrgList.Unmarshal (.valid .null)).1.Orgs.isNil = true
    ∧ ((NewSiteDomainList "s" "live").Unmarshal (.valid .null)).2 = none
    ∧ ((NewSiteDomainList "s" "live").Unmarshal (.valid .null)).1.Domains.isNil = true
    ∧ ((NewSiteList : SiteList ExampleFloat).Unmarshal exampleParseFloat exampleFormatFloat
        (.valid .null)).2 = none
    ∧ ((NewOrgSiteList "o" : OrgSiteList ExampleFloat).Unmarshal exampleParseFloat exampleFormatFloat
        (.valid .null)).2 = none
    ∧ JValue.null.isArr = false
    ∧ (NewOrgList.Unmarshal (.valid (.arr [.null]))).2 = none
    ∧ (NewOrgList.Unmarshal (.valid (.arr [.null]))).1.Orgs.toList = [Org.zero]
    ∧ (NewOrgList.Unmarshal (.valid (.arr [.obj [("id", .null)]]))).2 = none
    ∧ (NewOrgList.Unmarshal (.valid (.arr [.obj [("id", .null)]]))).1.Orgs.toList = [Org.zero] := by
  refine ⟨rfl, rfl, rfl, rfl, rfl, rfl, rfl, rfl, ?_, rfl, ?_⟩ <;> decide

/-- C7, amended: for each of the four lists Unmarshal returns nil exactly when
the payload is `null` or a JSON array each of whose entries the element type
takes: an entry that is `null`, or an object in which every member whose key
selects a field (by its exact name, else ignoring case) has a value of a JSON
kind of that field, nested objects likewise. The kinds of a string, boolean,
unsigned or struct field are its own and `null`; those of the flexible
integers are an integer literal and a string of signed digits, within 64 bits;
`user_uuid` takes every document whose numbers have a float64 value.
So Unmarshal returns a non-nil error for text that is not valid JSON (a
SyntaxError), for a top-level object, string, number or boolean (an
UnmarshalTypeError), for an array with an entry that is neither an object nor
`null`, and for an array with an object entry in which some field, at any
depth, has a value of a wrong kind. The error is the one `encoding/json`
reports; it is not wrapped. -/
theorem unmarshal_error_iff {F : Type} (pf : JNum → Option F) (ff : F → Option JNum)
    (ol : OrgList) (sdl : SiteDomainList) (sl : SiteList F) (osl : OrgSiteList F)
    (data : Payload) :
    ((ol.Unmarshal data).2 = none ↔
      data = .valid .null
      ∨ ∃ xs, data = .valid (.arr xs) ∧ ∀ x ∈ xs, goOrg.accepts x = true)
    ∧ ((sdl.Unmarshal data).2 = none ↔
      data = .valid .null
      ∨ ∃ xs, data = .valid (.arr xs) ∧ ∀ x ∈ xs, goDomain.accepts x = true)
    ∧ ((sl.Unmarshal pf ff data).2 = none ↔
      data = .valid .null
      ∨ ∃ xs, data = .valid (.arr xs) ∧ ∀ x ∈ xs, (goSite pf ff).accepts x = true)
    ∧ ((osl.Unmarshal pf ff data).2 = none ↔
      data = .valid .null
      ∨ ∃ xs, data = .valid (.arr xs) ∧ ∀ x ∈ xs, (goOrgSite pf ff).accepts x = true)
    ∧ (data = .invalid →
        (ol.Unmarshal data).2 = some .SyntaxError ∧ (sdl.Unmarshal data).2 = some .SyntaxError
        ∧ (sl.Unmarshal pf ff data).2 = some .SyntaxError
        ∧ (osl.Unmarshal pf ff data).2 = some .SyntaxError)
    ∧ (∀ v, data = .valid v → v.isArr = false → v ≠ .null →
        (ol.Unmarshal data).2 = some (.UnmarshalTypeError v.kindName none "[]pantheon.Org")
        ∧ (sdl.Unmarshal data).2
            = some (.UnmarshalTypeError v.kindName none "[]pantheon.Domain")
        ∧ (sl.Unmarshal pf ff data).2
            = some (.UnmarshalTypeError v.kindName none "[]pantheon.Site")
        ∧ (osl.Unmarshal pf ff data).2
            = some (.UnmarshalTypeError v.kindName none "[]pantheon.OrgSite"))
    ∧ (∀ (xs : List JValue) (x : JValue), data = .valid (.arr xs) → x ∈ xs →
        (x.isObj || x.isNull) = false →
        (ol.Unmarshal data).2 ≠ none ∧ (sdl.Unmarshal data).2 ≠ none
        ∧ (sl.Unmarshal pf ff data).2 ≠ none ∧ (osl.Unmarshal pf ff data).2 ≠ none)
    ∧ (∀ (xs : List JValue) (kvs : List (String × JValue)) (k : String) (v : JValue),
        data = .valid (.arr xs) → JValue.obj kvs ∈ xs → (k, v) ∈ kvs →
        (k = "archived" ∧ (v.isBool || v.isNull) = false
          ∨ k ∈ ["id", "key", "role", "site_id", "user_id"] ∧ (v.isStr || v.isNull) = false
          ∨ k = "organization" ∧ (v.isObj || v.isNull) = false) →
        (ol.Unmarshal data).2 ≠ none)
    ∧ (∀ (xs : List JValue) (kvs kvs1 : List (String × JValue)) (k : String) (v : JValue),
        data = .valid (.arr xs) → JValue.obj kvs ∈ xs →
        ("organization", JValue.obj kvs1) ∈ kvs → (k, v) ∈ kvs1 →
        (k = "profile" ∧ (v.isObj || v.isNull) = false
          ∨ k = "id" ∧ (v.isStr || v.isNull) = false) →
        (ol.Unmarshal data).2 ≠ none)
    ∧ (∀ (xs : List JValue) (kvs kvs1 kvs2 : List (String × JValue)) (k : String) (v : JValue),
        data = .valid (.arr xs) → JValue.obj kvs ∈ xs →
        ("organization", JValue.obj kvs1) ∈ kvs → ("profile", JValue.obj kvs2) ∈ kvs1 →
        (k, v) ∈ kvs2 →
        (k ∈ ["machine_name", "change_service_url", "name", "email_domain", "base_domain",
               "billing_url", "terms_of_service", "org_logo"]
              ∧ (v.isStr || v.isNull) = false
          ∨ k ∈ ["org_logo_width", "org_logo_height"] ∧ (v.isUint 32 || v.isNull) = false) →
        (ol.Unmarshal data).2 ≠ none)
    ∧ (∀ (xs : List JValue) (kvs : List (String × JValue)) (k : String) (v : JValue),
        data = .valid (.arr xs) → JValue.obj kvs ∈ xs → (k, v) ∈ kvs →
        (k ∈ ["dns_zone_name", "environment", "site_id", "type", "id", "key", "status",
               "status_message"]
              ∧ (v.isStr || v.isNull) = false
          ∨ k ∈ ["domain_lookup_rax", "domain_lookup_usc1"] ∧ (v.isUint 64 || v.isNull) = false
          ∨ k = "deletable" ∧ (v.isBool || v.isNull) = false) →
        (sdl.Unmarshal data).2 ≠ none)
    ∧ (∀ (xs : List JValue) (kvs : List (String × JValue)) (k : String) (v : JValue),
        data = .valid (.arr xs) → JValue.obj kvs ∈ xs → (k, v) ∈ kvs →
        (k = "archived" ∧ (v.isBool || v.isNull) = false
          ∨ k ∈ ["id", "key", "role", "site_id", "user_id"] ∧ (v.isStr || v.isNull) = false
          ∨ k = "site" ∧ (v.isObj || v.isNull) = false) →
        (sl.Unmarshal pf ff data).2 ≠ none)
    ∧ (∀ (xs : List JValue) (kvs : List (String × JValue)) (k : String) (v : JValue),
        data = .valid (.arr xs) → JValue.obj kvs ∈ xs → (k, v) ∈ kvs →
        (k = "archived" ∧ (v.isBool || v.isNull) = false
          ∨ k ∈ ["id", "key", "role", "organization_id", "site_id"] ∧ (v.isStr || v.isNull) = false
          ∨ k = "site" ∧ (v.isObj || v.isNull) = false) →
        (osl.Unmarshal pf ff data).2 ≠ none)
    ∧ (∀ (xs : List JValue) (kvs kvs1 : List (String × JValue)) (k : String) (v : JValue),
        data = .valid (.arr xs) → JValue.obj kvs ∈ xs → ("site", JValue.obj kvs1) ∈ kvs →
        (k, v) ∈ kvs1 →
        (k ∈ ["created", "php_version"] ∧ goJsonInt64.accepts v = false
          ∨ k ∈ ["created_by_user_id", "framework", "id", "name", "owner", "preferred_zone",
               "product_id", "service_level"]
              ∧ (v.isStr || v.isNull) = false
          ∨ k = "frozen" ∧ (v.isBool || v.isNull) = false
          ∨ k ∈ ["last_code_push", "product", "upstream"] ∧ (v.isObj || v.isNull) = false) →
        (sl.Unmarshal pf ff data).2 ≠ none ∧ (osl.Unmarshal pf ff data).2 ≠ none)
    ∧ (∀ (xs : List JValue) (kvs kvs1 kvs2 : List (String × JValue)) (k : String) (v : JValue),
        data = .valid (.arr xs) → JValue.obj kvs ∈ xs → ("site", JValue.obj kvs1) ∈ kvs →
        ("last_code_push", JValue.obj kvs2) ∈ kvs1 → (k, v) ∈ kvs2 →
        (k = "timestamp" ∧ (v.isStr || v.isNull) = false
          ∨ k = "user_uuid" ∧ numbersFit pf v = false) →
        (sl.Unmarshal pf ff data).2 ≠ none ∧ (osl.Unmarshal pf ff data).2 ≠ none)
    ∧ (∀ (xs : List JValue) (kvs kvs1 kvs2 : List (String × JValue)) (k : String) (v : JValue),
        data = .valid (.arr xs) → JValue.obj kvs ∈ xs → ("site", JValue.obj kvs1) ∈ kvs →
        ("product", JValue.obj kvs2) ∈ kvs1 → (k, v) ∈ kvs2 →
        (k ∈ ["id", "longname"] ∧ (v.isStr || v.isNull) = false) →
        (sl.Unmarshal pf ff data).2 ≠ none ∧ (osl.Unmarshal pf ff data).2 ≠ none)
    ∧ (∀ (xs : List JValue) (kvs kvs1 kvs2 : List (String × JValue)) (k : String) (v : JValue),
        data = .valid (.arr xs) → JValue.obj kvs ∈ xs → ("site", JValue.obj kvs1) ∈ kvs →
        ("upstream", JValue.obj kvs2) ∈ kvs1 → (k, v) ∈ kvs2 →
        (k ∈ ["branch", "product_id", "url"] ∧ (v.isStr || v.isNull) = false) →
        (sl.Unmarshal pf ff data).2 ≠ none ∧ (osl.Unmarshal pf ff data).2 ≠ none) := by
  have h1 := unmarshalSlice_none_iff_accepts "[]pantheon.Org" goOrg Org.zero
    (org_struct_decides _) data ol.Orgs
  have h2 := unmarshalSlice_none_iff_accepts "[]pantheon.Domain" goDomain Domain.zero
    (domain_struct_decides _) data sdl.Domains
  have h3 := unmarshalSlice_none_iff_accepts "[]pantheon.Site" (goSite pf ff) Site.zero
    (site_struct_decides pf ff _) data sl.Sites
  have h4 := unmarshalSlice_none_iff_accepts "[]pantheon.OrgSite" (goOrgSite pf ff) OrgSite.zero
    (orgSite_struct_decides pf ff _) data osl.OrgSites
  refine ⟨h1, h2, h3, h4, ?_, ?_, ?_, ?_, ?_, ?_, ?_, ?_, ?_, ?_, ?_, ?_, ?_⟩
  · rintro rfl
    exact ⟨rfl, rfl, rfl, rfl⟩
  · rintro v rfl hv hk
    cases v <;>
      simp_all [JValue.isArr, JValue.kindName, OrgList.Unmarshal, SiteDomainList.Unmarshal,
        SiteList.Unmarshal, OrgSiteList.Unmarshal, unmarshalSlice, decodeSlice, DecStatus.err]
  · rintro xs x rfl hx hw
    have hobj : ∀ {α : Type} (fields : List (Field α)), objectAccepts fields x = false := by
      intro α fields
      cases x <;> simp [JValue.isObj, JValue.isNull] at hw <;> rfl
    refine ⟨?_, ?_, ?_, ?_⟩
    · intro hn
      have hacc := accepts_of_none goOrg (org_struct_decides _) hn hx
      rw [show goOrg.accepts x = objectAccepts (Org.fields) x from rfl,
        hobj] at hacc
      cases hacc
    · intro hn
      have hacc := accepts_of_none goDomain (domain_struct_decides _) hn hx
      rw [show goDomain.accepts x = objectAccepts (Domain.fields) x from rfl,
        hobj] at hacc
      cases hacc
    · intro hn
      have hacc := accepts_of_none (goSite pf ff) (site_struct_decides pf ff _) hn hx
      rw [show (goSite pf ff).accepts x = objectAccepts (Site.fields pf ff) x from rfl,
        hobj] at hacc
      cases hacc
    · intro hn
      have hacc := accepts_of_none (goOrgSite pf ff) (orgSite_struct_decides pf ff _) hn hx
      rw [show (goOrgSite pf ff).accepts x = objectAccepts (OrgSite.fields pf ff) x from rfl,
        hobj] at hacc
      cases hacc
  · rintro xs kvs k v rfl hx hkv hw
    have key : objectAccepts (Org.fields) (.obj kvs) = true → False := by
      intro hacc
      rcases hw with ⟨hk, hv⟩ | ⟨hk, hv⟩ | ⟨hk, hv⟩
      · subst hk
        exact Bool.noConfusion (hv.symm.trans (objectAccepts_member hacc hkv rfl))
      · simp only [List.mem_cons, List.mem_singleton, List.not_mem_nil,
          or_false] at hk
        rcases hk with rfl | rfl | rfl | rfl | rfl <;>
          exact Bool.noConfusion (hv.symm.trans (objectAccepts_member hacc hkv rfl))
      · subst hk
        exact Bool.noConfusion (hv.symm.trans (objectAccepts_kind
          (objectAccepts_member hacc hkv rfl)))
    intro hn
    have e0 := accepts_of_none goOrg (org_struct_decides _) hn hx
    exact key e0
  · rintro xs kvs kvs1 k v rfl hx hp1 hkv hw
    have key : objectAccepts (OrgOrganization.fields) (.obj kvs1) = true → False := by
      intro hacc
      rcases hw with ⟨hk, hv⟩ | ⟨hk, hv⟩
      · subst hk
        exact Bool.noConfusion (hv.symm.trans (objectAccepts_kind
          (objectAccepts_member hacc hkv rfl)))
      · subst hk
        exact Bool.noConfusion (hv.symm.trans (objectAccepts_member hacc hkv rfl))
    intro hn
    have e0 := accepts_of_none goOrg (org_struct_decides _) hn hx
    have e1 := objectAccepts_member e0 hp1 rfl
    exact key e1
  · rintro xs kvs kvs1 kvs2 k v rfl hx hp1 hp2 hkv hw
    have key : objectAccepts (OrgProfile.fields) (.obj kvs2) = true → False := by
      intro hacc
      rcases hw with ⟨hk, hv⟩ | ⟨hk, hv⟩
      · simp only [List.mem_cons, List.mem_singleton, List.not_mem_nil,
          or_false] at hk
        rcases hk with rfl | rfl | rfl | rfl | rfl | rfl | rfl | rfl <;>
          exact Bool.noConfusion (hv.symm.trans (objectAccepts_member hacc hkv rfl))
      · simp only [List.mem_cons, List.mem_singleton, List.not_mem_nil,
          or_false] at hk
        rcases hk with rfl | rfl <;>
          exact Bool.noConfusion (hv.symm.trans (objectAccepts_member hacc hkv rfl))
    intro hn
    have e0 := accepts_of_none goOrg (org_struct_decides _) hn hx
    have e1 := objectAccepts_member e0 hp1 rfl
    have e2 := objectAccepts_member e1 hp2 rfl
    exact key e2
  · rintro xs kvs k v rfl hx hkv hw
    have key : objectAccepts (Domain.fields) (.obj kvs) = true → False := by
      intro hacc
      rcases hw with ⟨hk, hv⟩ | ⟨hk, hv⟩ | ⟨hk, hv⟩
      · simp only [List.mem_cons, List.mem_singleton, List.not_mem_nil,
          or_false] at hk
        rcases hk with rfl | rfl | rfl | rfl | rfl | rfl | rfl | rfl <;>
          exact Bool.noConfusion (hv.symm.trans (objectAccepts_member hacc hkv rfl))
      · simp only [List.mem_cons, List.mem_singleton, List.not_mem_nil,
          or_false] at hk
        rcases hk with rfl | rfl <;>
          exact Bool.noConfusion (hv.symm.trans (objectAccepts_member hacc hkv rfl))
      · subst hk
        exact Bool.noConfusion (hv.symm.trans (objectAccepts_member hacc hkv rfl))
    intro hn
    have e0 := accepts_of_none goDomain (domain_struct_decides _) hn hx
    exact key e0
  · rintro xs kvs k v rfl hx hkv hw
    have key : objectAccepts (Site.fields pf ff) (.obj kvs) = true → False := by
      intro hacc
      rcases hw with ⟨hk, hv⟩ | ⟨hk, hv⟩ | ⟨hk, hv⟩
      · subst hk
        exact Bool.noConfusion (hv.symm.trans (objectAccepts_member hacc hkv rfl))
      · simp only [List.mem_cons, List.mem_singleton, List.not_mem_nil,
          or_false] at hk
        rcases hk with rfl | rfl | rfl | rfl | rfl <;>
          exact Bool.noConfusion (hv.symm.trans (objectAccepts_member hacc hkv rfl))
      · subst hk
        exact Bool.noConfusion (hv.symm.trans (objectAccepts_kind
          (objectAccepts_member hacc hkv rfl)))
    intro hn
    have e0 := accepts_of_none (goSite pf ff) (site_struct_decides pf ff _) hn hx
    exact key e0
  · rintro xs kvs k v rfl hx hkv hw
    have key : objectAccepts (OrgSite.fields pf ff) (.obj kvs) = true → False := by
      intro hacc
      rcases hw with ⟨hk, hv⟩ | ⟨hk, hv⟩ | ⟨hk, hv⟩
      · subst hk
        exact Bool.noConfusion (hv.symm.trans (objectAccepts_member hacc hkv rfl))
      · simp only [List.mem_cons, List.mem_singleton, List.not_mem_nil,
          or_false] at hk
        rcases hk with rfl | rfl | rfl | rfl | rfl <;>
          exact Bool.noConfusion (hv.symm.trans (objectAccepts_member hacc hkv rfl))
      · subst hk
        exact Bool.noConfusion (hv.symm.trans (objectAccepts_kind
          (objectAccepts_member hacc hkv rfl)))
    intro hn
    have e0 := accepts_of_none (goOrgSite pf ff) (orgSite_struct_decides pf ff _) hn hx
    exact key e0
  · rintro xs kvs kvs1 k v rfl hx hp1 hkv hw
    have key : objectAccepts (SiteInfo.fields pf ff) (.obj kvs1) = true → False := by
      intro hacc
      rcases hw with ⟨hk, hv⟩ | ⟨hk, hv⟩ | ⟨hk, hv⟩ | ⟨hk, hv⟩
      · simp only [List.mem_cons, List.mem_singleton, List.not_mem_nil,
          or_false] at hk
        rcases hk with rfl | rfl <;>
          exact Bool.noConfusion (hv.symm.trans (objectAccepts_member hacc hkv rfl))
      · simp only [List.mem_cons, List.mem_singleton, List.not_mem_nil,
          or_false] at hk
        rcases hk with rfl | rfl | rfl | rfl | rfl | rfl | rfl | rfl <;>
          exact Bool.noConfusion (hv.symm.trans (objectAccepts_member hacc hkv rfl))
      · subst hk
        exact Bool.noConfusion (hv.symm.trans (objectAccepts_member hacc hkv rfl))
      · simp only [List.mem_cons, List.mem_singleton, List.not_mem_nil,
          or_false] at hk
        rcases hk with rfl | rfl | rfl <;>
          exact Bool.noConfusion (hv.symm.trans (objectAccepts_kind
          (objectAccepts_member hacc hkv rfl)))
    refine ⟨?_, ?_⟩
    · intro hn
      have e0 := accepts_of_none (goSite pf ff) (site_struct_decides pf ff _) hn hx
      have e1 := objectAccepts_member e0 hp1 rfl
      exact key e1
    · intro hn
      have e0 := accepts_of_none (goOrgSite pf ff) (orgSite_struct_decides pf ff _) hn hx
      have e1 := objectAccepts_member e0 hp1 rfl
      exact key e1
  · rintro xs kvs kvs1 kvs2 k v rfl hx hp1 hp2 hkv hw
    have key : objectAccepts (LastCodePush.fields pf ff) (.obj kvs2) = true → False := by
      intro hacc
      rcases hw with ⟨hk, hv⟩ | ⟨hk, hv⟩
      · subst hk
        exact Bool.noConfusion (hv.symm.trans (objectAccepts_member hacc hkv rfl))
      · subst hk
        exact Bool.noConfusion (hv.symm.trans (objectAccepts_member hacc hkv rfl))
    refine ⟨?_, ?_⟩
    · intro hn
      have e0 := accepts_of_none (goSite pf ff) (site_struct_decides pf ff _) hn hx
      have e1 := objectAccepts_member e0 hp1 rfl
      have e2 := objectAccepts_member e1 hp2 rfl
      exact key e2
    · intro hn
      have e0 := accepts_of_none (goOrgSite pf ff) (orgSite_struct_decides pf ff _) hn hx
      have e1 := objectAccepts_member e0 hp1 rfl
      have e2 := objectAccepts_member e1 hp2 rfl
      exact key e2
  · rintro xs kvs kvs1 kvs2 k v rfl hx hp1 hp2 hkv hw
    have key : objectAccepts (Product.fields) (.obj kvs2) = true → False := by
      intro hacc
      rcases hw with ⟨hk, hv⟩
      · simp only [List.mem_cons, List.mem_singleton, List.not_mem_nil,
          or_false] at hk
        rcases hk with rfl | rfl <;>
          exact Bool.noConfusion (hv.symm.trans (objectAccepts_member hacc hkv rfl))
    refine ⟨?_, ?_⟩
    · intro hn
      have e0 := accepts_of_none (goSite pf ff) (site_struct_decides pf ff _) hn hx
      have e1 := objectAccepts_member e0 hp1 rfl
      have e2 := objectAccepts_member e1 hp2 rfl
      exact key e2
    · intro hn
      have e0 := accepts_of_none (goOrgSite pf ff) (orgSite_struct_decides pf ff _) hn hx
      have e1 := objectAccepts_member e0 hp1 rfl
      have e2 := objectAccepts_member e1 hp2 rfl
      exact key e2
  · rintro xs kvs kvs1 kvs2 k v rfl hx hp1 hp2 hkv hw
    have key : objectAccepts (Upstream.fields) (.obj kvs2) = true → False := by
      intro hacc
      rcases hw with ⟨hk, hv⟩
      · simp only [List.mem_cons, List.mem_singleton, List.not_mem_nil,
          or_false] at hk
        rcases hk with rfl | rfl | rfl <;>
          exact Bool.noConfusion (hv.symm.trans (objectAccepts_member hacc hkv rfl))
    refine ⟨?_, ?_⟩
    · intro hn
      have e0 := accepts_of_none (goSite pf ff) (site_struct_decides pf ff _) hn hx
      have e1 := objectAccepts_member e0 hp1 rfl
      have e2 := objectAccepts_member e1 hp2 rfl
      exact key e2
    · intro hn
      have e0 := accepts_of_none (goOrgSite pf ff) (orgSite_struct_decides pf ff _) hn hx
      have e1 := objectAccepts_member e0 hp1 rfl
      have e2 := objectAccepts_member e1 hp2 rfl
      exact key e2

/-- Witness of the amended C7: the array `[{"id":1}]`, whose entry has a number
for the string field `id`, makes Unmarshal return an error on an OrgList and
on a SiteDomainList; so does, on an OrgList, an array whose entry has the
string "yes" for the boolean field `archived`, and one whose entry has a number
under the key `ID`, which selects the field `id`; the empty array makes it
return nil; text that is no JSON gives a SyntaxError, a top-level object an
UnmarshalTypeError, and an array holding a number an error. -/
theorem unmarshal_error_iff_witness :
    (NewOrgList.Unmarshal (.valid (.arr [.obj [("id", .num (JNum.ofNat 1))]]))).2 ≠ none
    ∧ ((NewSiteDomainList "s" "live").Unmarshal
        (.valid (.arr [.obj [("id", .num (JNum.ofNat 1))]]))).2 ≠ none
    ∧ (NewOrgList.Unmarshal (.valid (.arr [.obj [("archived", .str "yes")]]))).2 ≠ none
    ∧ (NewOrgList.Unmarshal (.valid (.arr [.obj [("ID", .num (JNum.ofNat 1))]]))).2 ≠ none
    ∧ (NewOrgList.Unmarshal (.valid (.arr []))).2 = none
    ∧ (NewOrgList.Unmarshal .invalid).2 = some .SyntaxError
    ∧ (NewOrgList.Unmarshal (.valid (.obj []))).2
        = some (.UnmarshalTypeError "object" none "[]pantheon.Org")
    ∧ (NewOrgList.Unmarshal (.valid (.arr [.num (JNum.ofNat 1)]))).2 ≠ none :=
  ⟨(unmarshal_error_iff exampleParseFloat exampleFormatFloat NewOrgList
      (NewSiteDomainList "s" "live") NewSiteList (NewOrgSiteList "o")
      (.valid (.arr [.obj [("id", .num (JNum.ofNat 1))]]))).2.2.2.2.2.2.2.1
      [.obj [("id", .num (JNum.ofNat 1))]] [("id", .num (JNum.ofNat 1))] "id"
      (.num (JNum.ofNat 1)) rfl (List.mem_cons_self _ _) (List.mem_cons_self _ _)
      (Or.inr (Or.inl ⟨by decide, rfl⟩)),
   (unmarshal_error_iff exampleParseFloat exampleFormatFloat NewOrgList
      (NewSiteDomainList "s" "live") NewSiteList (NewOrgSiteList "o")
      (.valid (.arr [.obj [("id", .num (JNum.ofNat 1))]]))).2.2.2.2.2.2.2.2.2.2.1
      [.obj [("id", .num (JNum.ofNat 1))]] [("id", .num (JNum.ofNat 1))] "id"
      (.num (JNum.ofNat 1)) rfl (List.mem_cons_self _ _) (List.mem_cons_self _ _)
      (Or.inl ⟨by decide, rfl⟩),
   (unmarshal_error_iff exampleParseFloat exampleFormatFloat NewOrgList
      (NewSiteDomainList "s" "live") NewSiteList (NewOrgSiteList "o")
      (.valid (.arr [.obj [("archived", .str "yes")]]))).2.2.2.2.2.2.2.1
      [.obj [("archived", .str "yes")]] [("archived", .str "yes")] "archived"
      (.str "yes") rfl (List.mem_cons_self _ _) (List.mem_cons_self _ _)
      (Or.inl ⟨rfl, rfl⟩),
   (by
    intro hn
    rcases (unmarshal_error_iff exampleParseFloat exampleFormatFloat NewOrgList
      (NewSiteDomainList "s" "live") NewSiteList (NewOrgSiteList "o")
      (.valid (.arr [.obj [("ID", .num (JNum.ofNat 1))]]))).1.1 hn with h | ⟨xs, hxs, hall⟩
    · cases h
    · cases hxs
      exact absurd (hall _ (List.mem_cons_self _ _)) (by decide)),
   ((unmarshal_error_iff exampleParseFloat exampleFormatFloat NewOrgList
      (NewSiteDomainList "s" "live") NewSiteList (NewOrgSiteList "o")
      (.valid (.arr []))).1).2 (Or.inr ⟨[], rfl, by simp⟩),
   ((unmarshal_error_iff exampleParseFloat exampleFormatFloat NewOrgList
      (NewSiteDomainList "s" "live") NewSiteList (NewOrgSiteList "o")
      .invalid).2.2.2.2.1 rfl).1,
   ((unmarshal_error_iff exampleParseFloat exampleFormatFloat NewOrgList
      (NewSiteDomainList "s" "live") NewSiteList (NewOrgSiteList "o")
      (.valid (.obj []))).2.2.2.2.2.1 (.obj []) rfl rfl (by simp)).1,
   ((unmarshal_error_iff exampleParseFloat exampleFormatFloat NewOrgList
      (NewSiteDomainList "s" "live") NewSiteList (NewOrgSiteList "o")
      (.valid (.arr [.num (JNum.ofNat 1)]))).2.2.2.2.2.2.1 [.num (JNum.ofNat 1)]
      (.num (JNum.ofNat 1)) rfl (List.mem_cons_self _ _) rfl).1⟩

/-! ## Unmarshal: the fields of an organization -/

theorem org_decoded_fields (kvs : List (String × JValue))
    (hshape : goOrg.shape false (.obj kvs) = true) :
    (goOrg.dec (.obj kvs) Org.zero).1.ID = (JValue.obj kvs).strAt "id"
    ∧ (goOrg.dec (.obj kvs) Org.zero).1.Archived = (JValue.obj kvs).boolAt "archived"
    ∧ (goOrg.dec (.obj kvs) Org.zero).1.Key = (JValue.obj kvs).strAt "key"
    ∧ (goOrg.dec (.obj kvs) Org.zero).1.Role = (JValue.obj kvs).strAt "role"
    ∧ (goOrg.dec (.obj kvs) Org.zero).1.SiteID = (JValue.obj kvs).strAt "site_id"
    ∧ (goOrg.dec (.obj kvs) Org.zero).1.UserID = (JValue.obj kvs).strAt "user_id" := by
  have hmem : ∀ f ∈ Org.fields,
      f = Org.fields[0] ∨ f = Org.fields[1] ∨ f = Org.fields[2] ∨ f = Org.fields[3]
      ∨ f = Org.fields[4] ∨ f = Org.fields[5] ∨ f = Org.fields[6] := by
    intro f hf
    simpa [Org.fields] using hf
  refine ⟨?_, ?_, ?_, ?_, ?_, ?_⟩
  · exact decodeFields_string Org.fields false kvs hshape org_fields_sound (·.ID) _ "id" rfl
      (fun _ _ => rfl)
      (fun f hf hne v a => by
        rcases hmem f hf with rfl | rfl | rfl | rfl | rfl | rfl | rfl <;>
          first
          | exact absurd rfl hne
          | rfl) Org.zero rfl
  · exact decodeFields_bool Org.fields false kvs hshape org_fields_sound (·.Archived) _
      "archived" rfl (fun _ _ => rfl)
      (fun f hf hne v a => by
        rcases hmem f hf with rfl | rfl | rfl | rfl | rfl | rfl | rfl <;>
          first
          | exact absurd rfl hne
          | rfl) Org.zero rfl
  · exact decodeFields_string Org.fields false kvs hshape org_fields_sound (·.Key) _ "key" rfl
      (fun _ _ => rfl)
      (fun f hf hne v a => by
        rcases hmem f hf with rfl | rfl | rfl | rfl | rfl | rfl | rfl <;>
          first
          | exact absurd rfl hne
          | rfl) Org.zero rfl
  · exact decodeFields_string Org.fields false kvs hshape org_fields_sound (·.Role) _ "role" rfl
      (fun _ _ => rfl)
      (fun f hf hne v a => by
        rcases hmem f hf with rfl | rfl | rfl | rfl | rfl | rfl | rfl <;>
          first
          | exact absurd rfl hne
          | rfl) Org.zero rfl
  · exact decodeFields_string Org.fields false kvs hshape org_fields_sound (·.SiteID) _
      "site_id" rfl (fun _ _ => rfl)
      (fun f hf hne v a => by
        rcases hmem f hf with rfl | rfl | rfl | rfl | rfl | rfl | rfl <;>
          first
          | exact absurd rfl hne
          | rfl) Org.zero rfl
  · exact decodeFields_string Org.fields false kvs hshape org_fields_sound (·.UserID) _
      "user_id" rfl (fun _ _ => rfl)
      (fun f hf hne v a => by
        rcases hmem f hf with rfl | rfl | rfl | rfl | rfl | rfl | rfl <;>
          first
          | exact absurd rfl hne
          | rfl) Org.zero rfl

/-- C8: for every array of n well-formed organization objects fed to Unmarshal
on a fresh OrgList, Unmarshal returns nil and Orgs has exactly n elements, the
i-th of which has as ID, Archived, Key, Role, SiteID and UserID the values of
the keys `id`, `archived`, `key`, `role`, `site_id`, `user_id` of the i-th
object (the zero value for a missing key), array order preserved. An object is
well-formed when its keys are distinct, every key that is a field name of Org
has a value of the field's JSON kind (the nested `organization` and `profile`
objects likewise), and every other key selects no field; keys may be missing. -/
theorem orgList_unmarshal_fields (xs : List JValue)
    (hwf : ∀ x ∈ xs, goOrg.shape false x = true) :
    (NewOrgList.Unmarshal (.valid (.arr xs))).2 = none
    ∧ (NewOrgList.Unmarshal (.valid (.arr xs))).1.Orgs.toList.length = xs.length
    ∧ ∀ (i : Nat) (x : JValue), xs[i]? = some x →
        ∃ o : Org, (NewOrgList.Unmarshal (.valid (.arr xs))).1.Orgs.toList[i]? = some o
          ∧ o.ID = x.strAt "id" ∧ o.Archived = x.boolAt "archived"
          ∧ o.Key = x.strAt "key" ∧ o.Role = x.strAt "role"
          ∧ o.SiteID = x.strAt "site_id" ∧ o.UserID = x.strAt "user_id" := by
  have hok : (NewOrgList.Unmarshal (.valid (.arr xs))).2 = none :=
    (unmarshalSlice_none_iff "[]pantheon.Org" goOrg.dec Org.zero (org_struct_statusFree _)
      (.valid (.arr xs)) .nil).2
      (Or.inr ⟨xs, rfl, fun x hx => org_struct_sound "pantheon.Org" false x Org.zero (hwf x hx)⟩)
  obtain ⟨_, hlen, hval⟩ :=
    unmarshalSlice_arr_values "[]pantheon.Org" goOrg.dec Org.zero xs .nil hok
  refine ⟨hok, hlen, ?_⟩
  intro i x hx
  refine ⟨(goOrg.dec x Org.zero).1, ?_, ?_⟩
  · have := hval i
    rw [hx] at this
    simpa [GoSlice.backing] using this
  · have hxs := hwf x (List.getElem?_mem hx)
    obtain ⟨kvs, rfl⟩ := objectShape_not_obj hxs
    exact org_decoded_fields kvs hxs

/-- Witness of C8 on the example of the spec, the array
`[{"id":"1","archived":false}]` (here with one more member that is no field of
Org): the sequence has one element whose ID is "1". -/
theorem orgList_unmarshal_fields_witness :
    (∀ x ∈ [JValue.obj [("id", .str "1"), ("archived", .bool false), ("plan", .str "gold")]],
        goOrg.shape false x = true)
    ∧ (NewOrgList.Unmarshal
        (.valid (.arr [.obj [("id", .str "1"), ("archived", .bool false),
          ("plan", .str "gold")]]))).2 = none
    ∧ (NewOrgList.Unmarshal
        (.valid (.arr [.obj [("id", .str "1"), ("archived", .bool false),
          ("plan", .str "gold")]]))).1.Orgs.toList.length = 1
    ∧ (NewOrgList.Unmarshal
        (.valid (.arr [.obj [("id", .str "1"), ("archived", .bool false),
          ("plan", .str "gold")]]))).1.Orgs.toList.map (·.ID) = ["1"]
    ∧ (NewOrgList.Unmarshal
        (.valid (.arr [.obj [("id", .str "1"), ("archived", .bool false)]]))).1.Orgs.toList.map
          (·.ID) = ["1"] :=
  ⟨by decide,
   (orgList_unmarshal_fields
      [.obj [("id", .str "1"), ("archived", .bool false), ("plan", .str "gold")]]
      (by decide)).1,
   (orgList_unmarshal_fields
      [.obj [("id", .str "1"), ("archived", .bool false), ("plan", .str "gold")]]
      (by decide)).2.1,
   by decide, by decide⟩

/-! ## The flexible integer -/

/-- C9: for every 64-bit integer n, decoding a `jsonInt64` from the bare JSON
number n and from the JSON string holding the decimal digits of n (with a
minus sign when negative, and also with a plus sign when not) succeeds and
stores n; encoding the stored value gives the bare JSON number n and never a
string. -/
theorem jsonInt64_number_or_string (n : Int) (hlo : -(2 : Int) ^ 63 ≤ n) (hhi : n < 2 ^ 63) :
    jsonInt64.UnmarshalJSON (.num (JNum.ofInt n)) = .ok n
    ∧ jsonInt64.UnmarshalJSON (.str (decimalString n)) = .ok n
    ∧ (0 ≤ n → jsonInt64.UnmarshalJSON (.str ("+" ++ decimalString n)) = .ok n)
    ∧ (∀ cur : jsonInt64, decJsonInt64 (.num (JNum.ofInt n)) cur = (n, .ok)
        ∧ decJsonInt64 (.str (decimalString n)) cur = (n, .ok))
    ∧ jsonInt64.MarshalJSON n = .num (JNum.ofInt n)
    ∧ goJsonInt64.enc (goJsonInt64.dec (.str (decimalString n)) 0).1 = .ok (.num (JNum.ofInt n))
    ∧ goJsonInt64.enc (goJsonInt64.dec (.num (JNum.ofInt n)) 0).1 = .ok (.num (JNum.ofInt n))
    ∧ (∀ s : String, jsonInt64.MarshalJSON n ≠ .str s) := by
  have h1 : jsonInt64.UnmarshalJSON (.num (JNum.ofInt n)) = .ok n := by
    simp only [jsonInt64.UnmarshalJSON, parseInt64Lit_ofInt_self n hlo hhi]
  have h2 : jsonInt64.UnmarshalJSON (.str (decimalString n)) = .ok n := by
    simp only [jsonInt64.UnmarshalJSON, parseInt64_decimalString n hlo hhi]
  refine ⟨h1, h2, ?_, ?_, rfl, ?_, ?_, ?_⟩
  · intro h0
    simp only [jsonInt64.UnmarshalJSON, parseInt64_plus n h0 hhi]
  · intro cur
    simp only [decJsonInt64, h1, h2, and_self]
  · simp only [goJsonInt64, decJsonInt64, h2, jsonInt64.MarshalJSON]
  · simp only [goJsonInt64, decJsonInt64, h1, jsonInt64.MarshalJSON]
  · intro s h
    simp [jsonInt64.MarshalJSON] at h

/-- Witness of C9 at n = 7, the example of the spec: the string "7" and the
number 7 are both stored as 7, also as the `php_version` of a site, and 7 is
written back as the bare number. -/
theorem jsonInt64_number_or_string_witness :
    (-(2 : Int) ^ 63 ≤ 7 ∧ (7 : Int) < 2 ^ 63)
    ∧ jsonInt64.UnmarshalJSON (.str "7") = .ok 7
    ∧ jsonInt64.UnmarshalJSON (.num (JNum.ofNat 7)) = .ok 7
    ∧ ((goStruct "struct" (SiteInfo.fields exampleParseFloat exampleFormatFloat)).dec
        (.obj [("php_version", .str "7")]) SiteInfo.zero).1.PhpVersion = 7
    ∧ ((goStruct "struct" (SiteInfo.fields exampleParseFloat exampleFormatFloat)).dec
        (.obj [("php_version", .num (JNum.ofNat 7))]) SiteInfo.zero).1.PhpVersion = 7
    ∧ jsonInt64.MarshalJSON 7 = .num (JNum.ofNat 7) :=
  ⟨⟨by decide, by decide⟩,
   (jsonInt64_number_or_string 7 (by decide) (by decide)).2.1,
   (jsonInt64_number_or_string 7 (by decide) (by decide)).1,
   by decide, by decide, rfl⟩

/-- C10: decoding a `jsonInt64` from the empty string, from `null`, or from a
string that is not an optionally signed run of digits fails with
MalformedNumericField; the destination keeps its value (nothing is coerced to
zero) and decoding stops with that error. So SiteList.Unmarshal and
OrgSiteList.Unmarshal return an error for every array with an entry whose
`site` object has `"php_version": ""` or `"created": null`, whatever the list
held before. -/
theorem jsonInt64_malformed {F : Type} (pf : JNum → Option F) (ff : F → Option JNum)
    (sl : SiteList F) (osl : OrgSiteList F) :
    jsonInt64.UnmarshalJSON (.str "") = .error (.MalformedNumericField (.str ""))
    ∧ jsonInt64.UnmarshalJSON .null = .error (.MalformedNumericField .null)
    ∧ (∀ s : String, isSignedDigits s = false →
        jsonInt64.UnmarshalJSON (.str s) = .error (.MalformedNumericField (.str s)))
    ∧ (∀ (s : String) (cur : jsonInt64), isSignedDigits s = false →
        decJsonInt64 (.str s) cur = (cur, .abort (.MalformedNumericField (.str s))))
    ∧ (∀ cur : jsonInt64,
        decJsonInt64 (.str "") cur = (cur, .abort (.MalformedNumericField (.str "")))
        ∧ decJsonInt64 .null cur = (cur, .abort (.MalformedNumericField .null)))
    ∧ (∀ (xs : List JValue) (kvs skvs : List (String × JValue)),
        JValue.obj kvs ∈ xs → ("site", JValue.obj skvs) ∈ kvs →
        (("php_version", JValue.str "") ∈ skvs ∨ ("created", JValue.null) ∈ skvs) →
        (sl.Unmarshal pf ff (.valid (.arr xs))).2 ≠ none
        ∧ (osl.Unmarshal pf ff (.valid (.arr xs))).2 ≠ none) := by
  have h3 : ∀ s : String, isSignedDigits s = false →
      jsonInt64.UnmarshalJSON (.str s) = .error (.MalformedNumericField (.str s)) := by
    intro s hs
    simp only [jsonInt64.UnmarshalJSON, parseInt64_not_digits s hs]
  refine ⟨rfl, rfl, h3, ?_, fun cur => ⟨rfl, rfl⟩, ?_⟩
  · intro s cur hs
    simp only [decJsonInt64, h3 s hs]
  · intro xs kvs skvs hx hsite hbad
    have hinfo : ∀ a : SiteInfo F,
        ((goStruct "struct" (SiteInfo.fields pf ff)).dec (.obj skvs) a).2 ≠ .ok := by
      intro a
      rcases hbad with hb | hb
      · exact decodeStruct_bad_member "struct" (SiteInfo.fields pf ff) skvs "php_version"
          (.str "") _ hb rfl (fun b => by simp [Field.of, goJsonInt64, decJsonInt64,
            jsonInt64.UnmarshalJSON, (by decide : parseInt64 "" = none)]) a
      · exact decodeStruct_bad_member "struct" (SiteInfo.fields pf ff) skvs "created"
          .null _ hb rfl (fun b => by simp [Field.of, goJsonInt64, decJsonInt64,
            jsonInt64.UnmarshalJSON]) a
    refine ⟨?_, ?_⟩
    · intro h
      rcases (unmarshalSlice_none_iff "[]pantheon.Site" (goSite pf ff).dec Site.zero
        (site_struct_statusFree pf ff _) (.valid (.arr xs)) sl.Sites).1 h
        with h | ⟨ys, hy, hall⟩
      · cases h
      · cases hy
        exact decodeStruct_bad_member "pantheon.Site" (Site.fields pf ff) kvs "site"
          (.obj skvs) _ hsite rfl (fun a => hinfo a.Site) Site.zero (hall _ hx)
    · intro h
      rcases (unmarshalSlice_none_iff "[]pantheon.OrgSite" (goOrgSite pf ff).dec OrgSite.zero
        (orgSite_struct_statusFree pf ff _) (.valid (.arr xs)) osl.OrgSites).1 h
        with h | ⟨ys, hy, hall⟩
      · cases h
      · cases hy
        exact decodeStruct_bad_member "pantheon.OrgSite" (OrgSite.fields pf ff) kvs "site"
          (.obj skvs) _ hsite rfl (fun a => hinfo a.Site) OrgSite.zero (hall _ hx)

/-- Witness of C10: an array whose one entry has `"php_version": ""` in its
`site` object makes SiteList.Unmarshal return an error, and one with
`"created": null` makes OrgSiteList.Unmarshal return an error. -/
theorem jsonInt64_malformed_witness :
    ((NewSiteList : SiteList ExampleFloat).Unmarshal exampleParseFloat exampleFormatFloat
        (.valid (.arr [.obj [("site", .obj [("php_version", .str "")])]]))).2 ≠ none
    ∧ ((NewOrgSiteList "o" : OrgSiteList ExampleFloat).Unmarshal exampleParseFloat
        exampleFormatFloat (.valid (.arr [.obj [("site", .obj [("created", .null)])]]))).2
        ≠ none :=
  ⟨((jsonInt64_malformed exampleParseFloat exampleFormatFloat NewSiteList
      (NewOrgSiteList "o")).2.2.2.2.2 [.obj [("site", .obj [("php_version", .str "")])]]
      [("site", .obj [("php_version", .str "")])] [("php_version", .str "")]
      (List.mem_cons_self _ _) (List.mem_cons_self _ _) (Or.inl (List.mem_cons_self _ _))).1,
   ((jsonInt64_malformed exampleParseFloat exampleFormatFloat NewSiteList
      (NewOrgSiteList "o")).2.2.2.2.2 [.obj [("site", .obj [("created", .null)])]]
      [("site", .obj [("created", .null)])] [("created", .null)]
      (List.mem_cons_self _ _) (List.mem_cons_self _ _) (Or.inr (List.mem_cons_self _ _))).2⟩

end Pantheon
